import Mathlib

/-!
# Variational equations of Tudat: a shallow embedding

Embedding of `Tudat/Astrodynamics/Propagators/variationalEquations.h`
(class `VariationalEquations`) together with the part of Eigen it relies on, of the
class `CannonBallRadiationPressurePartial` of `radiationPressureAccelerationPartial.h`,
of the class `SphericalHarmonicsGravityField` of `sphericalHarmonicsGravityField.h`, of
the class `AerodynamicAngleRotationalEphemeris` of
`aeordynamicAngleRotationalEphemeris.h`, and of the result maps of
`fullPropagationLambertTargeter.cpp`.

Conventions of the embedding:

* C++ `int` values are unbounded integers; the sizes involved are matrix
  dimensions of matrices that are allocated, far below the `int` range.
* Scalars (`double`, `long double`) are exact integers, times are exact
  numbers compared for equality; the casts between scalar types are the
  identity.
* An Eigen operation whose precondition (`eigen_assert`) is violated, a
  `std::map::at` on a missing key and a `std::vector::at` out of range end
  the run: the embedded function returns `none`.
* `std::map` and `std::multimap` are association lists in iteration order.
* The member functions of the gravity field, which throw `std::runtime_error`
  themselves, return an `Except` that tells a thrown error from a violated
  precondition, or the object when the call ends together with the exception.
* Where a class compares a time with `TUDAT_NAN`, a `double` that holds a time is
  an optional time and `none` is the value that is not a number.
* Objects behind `boost::shared_ptr` live in a store indexed by pointer.
-/

namespace Tudat

/-- Scalar entries of matrices (exact arithmetic). -/
abbrev Scalar := Int

/-- Times, compared for exact equality only. -/
abbrev Time := Int

/-- The comparison `a == b` of two `double` that hold a time or, as `none`, a value that
is not a number, such as `TUDAT_NAN`; such a value equals nothing, itself included. -/
def doubleEq (a b : Option Time) : Bool :=
  match a, b with
  | some x, some y => decide (x = y)
  | _, _ => false

/-! ## Eigen dense matrices and blocks -/

/-- Dense dynamic matrix `Eigen::MatrixXd`: its dimensions and its coefficients.
Only coefficients inside the dimensions are meaningful. -/
structure MatrixXd where
  rows : Int
  cols : Int
  coeff : Int → Int → Scalar

namespace MatrixXd

/-- The call `Eigen::MatrixXd::Zero( rows, cols )`; Eigen requires both sizes to be
non-negative. -/
def Zero (rows cols : Int) : Option MatrixXd :=
  if 0 ≤ rows ∧ 0 ≤ cols then some ⟨rows, cols, fun _ _ => 0⟩ else none

/-- The call `m.setZero( )`: same dimensions, every coefficient zero. -/
def setZero (m : MatrixXd) : MatrixXd :=
  ⟨m.rows, m.cols, fun _ _ => 0⟩

/-- Precondition of `m.block( startRow, startCol, blockRows, blockCols )`, as asserted
by the constructor of `Eigen::Block`. -/
def validBlock (m : MatrixXd) (startRow startCol blockRows blockCols : Int) : Prop :=
  0 ≤ startRow ∧ 0 ≤ blockRows ∧ startRow ≤ m.rows - blockRows ∧
    0 ≤ startCol ∧ 0 ≤ blockCols ∧ startCol ≤ m.cols - blockCols

instance (m : MatrixXd) (startRow startCol blockRows blockCols : Int) :
    Decidable (m.validBlock startRow startCol blockRows blockCols) := by
  unfold validBlock; infer_instance

/-- Position `(i, j)` lies in the block with the given corner and size. -/
def inBlock (startRow startCol blockRows blockCols i j : Int) : Prop :=
  startRow ≤ i ∧ i < startRow + blockRows ∧ startCol ≤ j ∧ j < startCol + blockCols

instance (startRow startCol blockRows blockCols i j : Int) :
    Decidable (inBlock startRow startCol blockRows blockCols i j) := by
  unfold inBlock; infer_instance

/-- Content seen through the view `m.block( startRow, startCol, blockRows, blockCols )`. -/
def blockView (m : MatrixXd) (startRow startCol blockRows blockCols : Int) : MatrixXd :=
  ⟨blockRows, blockCols, fun i j =>
    if inBlock 0 0 blockRows blockCols i j then m.coeff (startRow + i) (startCol + j) else 0⟩

/-- Matrix `m` after the coefficients of the block have been replaced by those of `v`;
coefficients outside the block keep their value. -/
def writeBlock (m : MatrixXd) (startRow startCol blockRows blockCols : Int)
    (v : MatrixXd) : MatrixXd :=
  ⟨m.rows, m.cols, fun i j =>
    if inBlock startRow startCol blockRows blockCols i j
    then v.coeff (i - startRow) (j - startCol) else m.coeff i j⟩

/-- The call `f( m.block( startRow, startCol, blockRows, blockCols ) )` of a function
that takes an `Eigen::Block` by value: `f` sees the content of the view and what it
leaves there is written through to `m`. -/
def applyToBlock (m : MatrixXd) (startRow startCol blockRows blockCols : Int)
    (f : MatrixXd → MatrixXd) : Option MatrixXd :=
  if m.validBlock startRow startCol blockRows blockCols then
    some (m.writeBlock startRow startCol blockRows blockCols
      (f (m.blockView startRow startCol blockRows blockCols)))
  else none

/-- Matrix product `a * b`; Eigen requires `a.cols( ) == b.rows( )`. -/
def mul (a b : MatrixXd) : Option MatrixXd :=
  if a.cols = b.rows then
    some ⟨a.rows, b.cols, fun i j =>
      ((List.range a.cols.toNat).map (fun k => a.coeff i k * b.coeff (k : Int) j)).sum⟩
  else none

/-- The statement `m.block( startRow, startCol, blockRows, blockCols ) = src`; a block
cannot be resized, so `src` must have the size of the block. -/
def assignBlock (m : MatrixXd) (startRow startCol blockRows blockCols : Int)
    (src : MatrixXd) : Option MatrixXd :=
  if m.validBlock startRow startCol blockRows blockCols ∧
      src.rows = blockRows ∧ src.cols = blockCols then
    some (m.writeBlock startRow startCol blockRows blockCols src)
  else none

/-- The statement `m.block( startRow, startCol, blockRows, blockCols ) += src`. -/
def addAssignBlock (m : MatrixXd) (startRow startCol blockRows blockCols : Int)
    (src : MatrixXd) : Option MatrixXd :=
  if m.validBlock startRow startCol blockRows blockCols ∧
      src.rows = blockRows ∧ src.cols = blockCols then
    some (m.writeBlock startRow startCol blockRows blockCols
      ⟨blockRows, blockCols, fun i j =>
        (m.blockView startRow startCol blockRows blockCols).coeff i j + src.coeff i j⟩)
  else none

end MatrixXd

/-! ## Data model of the engine -/

/-- Modelled from the spec: the enumeration of dynamical categories of §3
("translational, rotational, mass, custom"); its declaration is not among the source
files. The translational member keeps the spelling used in `variationalEquations.h`. -/
inductive IntegratedStateType where
  | transational_state
  | rotational_state
  | body_mass_state
  | custom_state
  deriving DecidableEq, Repr

/-- A `boost::shared_ptr< StateDerivativePartial >`: the address of a partial provider. -/
abbrev PartialPtr := Nat

/-- The bound function stored in `parameterPartialList_`:
`boost::bind( &StateDerivativePartial::getCurrentParameterPartial, partialObject,
parameterIterator->second, _1 )`. -/
structure BoundFunction (ρ : Type) where
  partialObject : PartialPtr
  parameter : ρ

/-- A `std::multimap< std::pair< int, int >, boost::function< void( Eigen::Block ) > >`
in iteration order. -/
abbrev FunctionList (ρ : Type) := List ((Int × Int) × BoundFunction ρ)

/-- A bound function stored in `statePartialList_`, of type
`boost::function< void( Eigen::Block< Eigen::MatrixXd > ) >`: what a call leaves in the
block it is handed, given what the block holds. -/
abbrev StatePartialFunction := MatrixXd → MatrixXd

/-- The member type of `statePartialList_`: for every state type, one multimap per
entity, in iteration order. -/
abbrev StatePartialList :=
  List (IntegratedStateType × List (List ((Int × Int) × StatePartialFunction)))

/-- Messages written to `std::cerr`. -/
inductive Diagnostic where
  | noStateToEstimateOfType (type : IntegratedStateType)
  | inputPartialListSizeInconsistent
  | unintegratedBodyPartialsDisabled
  deriving DecidableEq, Repr

/-- Record of one call made on a partial provider (kept to observe which calls the
engine makes; it has no influence on any computed value). -/
inductive ProviderCall (ρ : Type) where
  | update (partialObject : PartialPtr) (currentTime : Time)
  | setParameterPartialUpdateFunction (partialObject : PartialPtr) (parameter : ρ)
  | getCurrentParameterPartial (partialObject : PartialPtr) (parameter : ρ)
      (startRow startCol blockRows blockCols : Int)

/-- State of a `VariationalEquations` object together with what it reaches: the member
variables of the class (same names), the provider objects behind the shared pointers,
the error stream and the record of provider calls. `σ` is the type of provider
objects, `ρ` the type of estimatable parameters. -/
structure VariationalEquations (σ ρ : Type) where
  stateDerivativePartialList_ : List (IntegratedStateType × List (List PartialPtr))
  stateTypeStartIndices_ : List (IntegratedStateType × Int)
  statePartialList_ : StatePartialList
  statePartialAdditionIndices_ : List (Int × Int)
  parameterPartialList_ : List (IntegratedStateType × List (FunctionList ρ))
  dynamicalStatesToEstimate_ : List (IntegratedStateType × List (String × String))
  estimatedUnintegratedBodies_ : List String
  numberOfParameterValues_ : Int
  estimatedUnintegratedBodiesVectorSize_ : Int
  totalDynamicalStateSize_ : Int
  currentMatrixDerivative_ : MatrixXd
  currentLongMatrixDerivative_ : MatrixXd
  variationalMatrix_ : MatrixXd
  variationalParameterMatrix_ : MatrixXd
  /-- Provider objects behind the shared pointers. -/
  partialObjects : PartialPtr → σ
  /-- What has been written to `std::cerr`. -/
  cerr : List Diagnostic
  /-- Calls made on providers so far, oldest first. -/
  providerCalls : List (ProviderCall ρ)
  /-- Modelled from the spec: the "last cached time" of §4.4 that `update` compares
  with; `none` until the first update. The class declares no such member. -/
  lastUpdateTime_ : Option Time

/-- What the engine uses and the source files do not define: the size tables of the
state types, the virtual functions of `StateDerivativePartial`, and the member functions
whose bodies are in the missing `variationalEquations.cpp`. -/
structure Collaborators (σ ρ : Type) where
  getSingleIntegrationSize : IntegratedStateType → Int
  getSingleIntegrationDifferentialEquationOrder : IntegratedStateType → Int
  /-- `StateDerivativePartial::update( currentTime )` on a provider object. -/
  update : Time → σ → σ
  /-- Value returned by `partialObject->setParameterPartialUpdateFunction( parameter )`. -/
  setParameterPartialUpdateFunction : σ → ρ → Int
  /-- `partialObject->getCurrentParameterPartial( parameter, block )`: what the provider
  leaves in the block it is handed, given what the block holds. -/
  getCurrentParameterPartial : σ → ρ → MatrixXd → MatrixXd
  /-- Coefficients that `setBodyStatePartialMatrix( )` leaves in `variationalMatrix_`. -/
  bodyStatePartialCoefficients : VariationalEquations σ ρ → Int → Int → Scalar
  /-- The member function `setStatePartialFunctionList( )`, which the constructor calls
  at line 79 on the object as it is then: the `statePartialList_` it leaves, `none` when
  the call does not return. -/
  setStatePartialFunctionList : VariationalEquations σ ρ → Option StatePartialList
  /-- `determineEphemerisUpdateorder( bodies, centralBodies, ephemerisOrigins )`; `none`
  when the call yields no order (it throws or does not return). -/
  determineEphemerisUpdateorder :
    List String → List String → List String → Option (List String)

/-- Lookup `map.at( key )`; `none` stands for the `std::out_of_range` it throws. -/
def mapAt {κ β : Type} [DecidableEq κ] (map : List (κ × β)) (key : κ) : Option β :=
  match map with
  | [] => none
  | (k, v) :: rest => if k = key then some v else mapAt rest key

/-- Lexicographic order of `std::pair< int, int >`. -/
def pairLess (a b : Int × Int) : Prop :=
  a.1 < b.1 ∨ (a.1 = b.1 ∧ a.2 < b.2)

instance (a b : Int × Int) : Decidable (pairLess a b) := by
  unfold pairLess; infer_instance

/-- The call `multimap.insert( entry )`: the entry goes before the first element with a
greater key, after the elements with an equal key; nothing is replaced. -/
def multimapInsert {ρ : Type} (entry : (Int × Int) × BoundFunction ρ) :
    FunctionList ρ → FunctionList ρ
  | [] => [entry]
  | e :: rest =>
    if pairLess entry.1 e.1 then entry :: e :: rest
    else e :: multimapInsert entry rest

/-! ## The parameter set -/

/-- An element of `parametersToEstimate->getEstimatedInitialStateParameters( )`, as far
as `setTranslationalStatePartialFrameScalingFunctions` reads it. -/
structure InitialStateParameter where
  /-- Whether `getParameterName( ).first == estimatable_parameters::initial_body_state`. -/
  isInitialBodyState : Bool
  /-- The body name `getParameterName( ).second.first`. -/
  bodyName : String
  /-- Result of `getCentralBody( )` on the parameter cast to
  `InitialTranslationalStateParameter`; `none` when the cast yields a null pointer. -/
  centralBody : Option String

/-- An `EstimatableParameterSet`, as far as the engine reads it: the values returned by
the accessors and helper functions that the constructor calls on it. -/
structure EstimatableParameterSet (ρ : Type) where
  /-- `estimatable_parameters::getSingleArcParameterSetSize( parametersToEstimate )`. -/
  singleArcParameterSetSize : Int
  /-- `getListOfInitialDynamicalStateParametersEstimate( parametersToEstimate )`. -/
  listOfInitialDynamicalStateParametersEstimate :
    List (IntegratedStateType × List (String × String))
  /-- `getDoubleParameters( )`: start index in the parameter vector and parameter. -/
  doubleParameters : List (Int × ρ)
  /-- `getVectorParameters( )`: start index in the parameter vector and parameter. -/
  vectorParameters : List (Int × ρ)
  /-- `getInitialDynamicalStateParameterSize( )`. -/
  initialDynamicalStateParameterSize : Int
  /-- `getSingleArcInitialDynamicalStateParameterSetSize( parametersToEstimate )`. -/
  singleArcInitialDynamicalStateParameterSetSize : Int
  /-- `getEstimatedInitialStateParameters( )`. -/
  estimatedInitialStateParameters : List InitialStateParameter

/-! ## Member functions of `VariationalEquations` -/

variable {σ ρ : Type}

/-- State threaded through the loops over bound functions: the matrix being filled and
the record of provider calls. -/
abbrev FillState (ρ : Type) := MatrixXd × List (ProviderCall ρ)

/-- Innermost loop of `getParameterPartialMatrix` (lines 135-142): every bound function
of one body is called on its block of `variationalParameterMatrix_`. -/
def invokeFunctionList (env : Collaborators σ ρ) (objects : PartialPtr → σ)
    (totalDynamicalStateSize startRow blockRows : Int) :
    FunctionList ρ → FillState ρ → Option (FillState ρ)
  | [], st => some st
  | (key, fn) :: rest, st =>
    match st.1.applyToBlock startRow (key.1 - totalDynamicalStateSize) blockRows key.2
        (env.getCurrentParameterPartial (objects fn.partialObject) fn.parameter) with
    | none => none
    | some filled =>
      invokeFunctionList env objects totalDynamicalStateSize startRow blockRows rest
        (filled, st.2 ++ [ProviderCall.getCurrentParameterPartial fn.partialObject
          fn.parameter startRow (key.1 - totalDynamicalStateSize) blockRows key.2])

/-- Loop over the bodies of one state type in `getParameterPartialMatrix` (lines 132-143),
`i` being the loop counter. The sum `startIndex + entriesToSkipPerEntry +
currentStateSize * i` is unsigned in C++; a negative value wraps to one beyond every
matrix size, and fails the block precondition as the negative value does here. -/
def invokeBodies (env : Collaborators σ ρ) (objects : PartialPtr → σ)
    (totalDynamicalStateSize startIndex currentStateSize entriesToSkipPerEntry : Int) :
    Nat → List (FunctionList ρ) → FillState ρ → Option (FillState ρ)
  | _, [], st => some st
  | i, functionList :: rest, st =>
    match invokeFunctionList env objects totalDynamicalStateSize
        (startIndex + entriesToSkipPerEntry + currentStateSize * i)
        (currentStateSize - entriesToSkipPerEntry) functionList st with
    | none => none
    | some st' =>
      invokeBodies env objects totalDynamicalStateSize startIndex currentStateSize
        entriesToSkipPerEntry (i + 1) rest st'

/-- Outer loop of `getParameterPartialMatrix` over the state types (lines 123-145).
A division by a zero differential order ends the run. -/
def invokeStateTypes (env : Collaborators σ ρ) (objects : PartialPtr → σ)
    (stateTypeStartIndices : List (IntegratedStateType × Int))
    (totalDynamicalStateSize : Int) :
    List (IntegratedStateType × List (FunctionList ρ)) → FillState ρ →
      Option (FillState ρ)
  | [], st => some st
  | (type, bodies) :: rest, st =>
    match mapAt stateTypeStartIndices type with
    | none => none
    | some startIndex =>
      let currentStateSize := env.getSingleIntegrationSize type
      if env.getSingleIntegrationDifferentialEquationOrder type = 0 then none
      else
        let entriesToSkipPerEntry := currentStateSize -
          currentStateSize.tdiv (env.getSingleIntegrationDifferentialEquationOrder type)
        match invokeBodies env objects totalDynamicalStateSize startIndex currentStateSize
            entriesToSkipPerEntry 0 bodies st with
        | none => none
        | some st' =>
          invokeStateTypes env objects stateTypeStartIndices totalDynamicalStateSize rest st'

namespace VariationalEquations

/-- The part of `getParameterPartialMatrix` that fills `variationalParameterMatrix_`
(lines 114-145): the matrix is set to zero and every bound function of
`parameterPartialList_` is called on its block. -/
def assembleParameterPartials (env : Collaborators σ ρ) (s : VariationalEquations σ ρ) :
    Option (VariationalEquations σ ρ) :=
  let cerr' := if s.estimatedUnintegratedBodiesVectorSize_ > 0
    then s.cerr ++ [Diagnostic.unintegratedBodyPartialsDisabled] else s.cerr
  match invokeStateTypes env s.partialObjects s.stateTypeStartIndices_
      s.totalDynamicalStateSize_ s.parameterPartialList_
      (s.variationalParameterMatrix_.setZero, s.providerCalls) with
  | none => none
  | some st =>
    some { s with variationalParameterMatrix_ := st.1, cerr := cerr', providerCalls := st.2 }

/-- The member function `getParameterPartialMatrix( currentMatrixDerivative )`: the
matrix of parameter partials is assembled and then added to the block of
`currentMatrixDerivative` requested at lines 147-148. -/
def getParameterPartialMatrix (env : Collaborators σ ρ) (s : VariationalEquations σ ρ)
    (currentMatrixDerivative : MatrixXd) : Option (VariationalEquations σ ρ × MatrixXd) :=
  match assembleParameterPartials env s with
  | none => none
  | some s' =>
    match currentMatrixDerivative.addAssignBlock 0 s'.totalDynamicalStateSize_
        s'.totalDynamicalStateSize_
        (s'.totalDynamicalStateSize_ - s'.numberOfParameterValues_)
        s'.variationalParameterMatrix_ with
    | none => none
    | some derivative => some (s', derivative)

/-- The member function `setBodyStatePartialMatrix( )`; its body is in the missing
`variationalEquations.cpp`, and the coefficients it leaves in `variationalMatrix_` are
those given by the collaborators. -/
def setBodyStatePartialMatrix (env : Collaborators σ ρ) (s : VariationalEquations σ ρ) :
    VariationalEquations σ ρ :=
  { s with variationalMatrix_ :=
      ⟨s.variationalMatrix_.rows, s.variationalMatrix_.cols,
        env.bodyStatePartialCoefficients s⟩ }

/-- The member function `getBodyInitialStatePartialMatrix`. -/
def getBodyInitialStatePartialMatrix (env : Collaborators σ ρ)
    (s : VariationalEquations σ ρ) (stateTransitionAndSensitivityMatrices : MatrixXd)
    (currentMatrixDerivative : MatrixXd) : Option (VariationalEquations σ ρ × MatrixXd) :=
  let s' := setBodyStatePartialMatrix env s
  match s'.variationalMatrix_.mul stateTransitionAndSensitivityMatrices with
  | none => none
  | some product =>
    match currentMatrixDerivative.assignBlock 0 0 s'.totalDynamicalStateSize_
        s'.numberOfParameterValues_ product with
    | none => none
    | some derivative => some (s', derivative)

/-- The member function `evaluateVariationalEquations( time,
stateTransitionAndSensitivityMatrices, currentMatrixDerivative )`. The result is the
state of the engine afterwards and the content of `currentMatrixDerivative`. -/
def evaluateVariationalEquations (env : Collaborators σ ρ) (s : VariationalEquations σ ρ)
    (_time : Time) (stateTransitionAndSensitivityMatrices : MatrixXd)
    (currentMatrixDerivative : MatrixXd) : Option (VariationalEquations σ ρ × MatrixXd) :=
  match getBodyInitialStatePartialMatrix env s stateTransitionAndSensitivityMatrices
      currentMatrixDerivative with
  | none => none
  | some (s', derivative) =>
    if s'.numberOfParameterValues_ > s'.totalDynamicalStateSize_ then
      getParameterPartialMatrix env s' derivative
    else some (s', derivative)

/-- Loop of the constructor over `stateDerivativePartialList_` (lines 57-71): the
consistency messages and the running sum `totalDynamicalStateSize_`. -/
def accumulateStateSizes (env : Collaborators σ ρ)
    (dynamicalStatesToEstimate : List (IntegratedStateType × List (String × String))) :
    List (IntegratedStateType × List (List PartialPtr)) → Int × List Diagnostic →
      Int × List Diagnostic
  | [], acc => acc
  | (type, bodies) :: rest, acc =>
    let cerr' :=
      match mapAt dynamicalStatesToEstimate type with
      | none => acc.2 ++ [Diagnostic.noStateToEstimateOfType type]
      | some states =>
        if states.length ≠ bodies.length
        then acc.2 ++ [Diagnostic.inputPartialListSizeInconsistent] else acc.2
    accumulateStateSizes env dynamicalStatesToEstimate rest
      (acc.1 + env.getSingleIntegrationSize type * bodies.length, cerr')

/-- First loop of `setTranslationalStatePartialFrameScalingFunctions` (lines 299-308):
the names of the propagated bodies and of their central bodies. Calling
`getCentralBody( )` through a null pointer ends the run. -/
def collectPropagatedBodies :
    List InitialStateParameter → List String × List String →
      Option (List String × List String)
  | [], acc => some acc
  | parameter :: rest, acc =>
    if parameter.isInitialBodyState then
      match parameter.centralBody with
      | none => none
      | some central =>
        collectPropagatedBodies rest (acc.1 ++ [parameter.bodyName], acc.2 ++ [central])
    else collectPropagatedBodies rest acc

/-- The expression `map[ key ]` on a `std::map< IntegratedStateType, int >`: the value
(a missing key is first inserted with value 0) and the map afterwards. The map is only
accessed by key, so the place of the new key is immaterial. -/
def mapIndex (map : List (IntegratedStateType × Int)) (key : IntegratedStateType) :
    Int × List (IntegratedStateType × Int) :=
  match mapAt map key with
  | some value => (value, map)
  | none => (0, map ++ [(key, 0)])

/-- Inner loop of `setTranslationalStatePartialFrameScalingFunctions` (lines 317-327) for
one body of the update order; `j` is the loop counter and the list holds
`propagatedBodies` from position `j` on. -/
def addPartialAdditionIndices (env : Collaborators σ ρ) (centralBodies : List String)
    (currentBodyIndex : Nat) :
    Nat → List String → List (IntegratedStateType × Int) × List (Int × Int) →
      Option (List (IntegratedStateType × Int) × List (Int × Int))
  | _, [], st => some st
  | j, body :: rest, st =>
    match centralBodies.get? currentBodyIndex with
    | none => none
    | some central =>
      if central = body then
        let first := mapIndex st.1 IntegratedStateType.transational_state
        let second := mapIndex first.2 IntegratedStateType.transational_state
        addPartialAdditionIndices env centralBodies currentBodyIndex (j + 1) rest
          (second.2, st.2 ++ [(first.1 + currentBodyIndex *
              env.getSingleIntegrationSize IntegratedStateType.transational_state,
            second.1 + j *
              env.getSingleIntegrationSize IntegratedStateType.transational_state)])
      else addPartialAdditionIndices env centralBodies currentBodyIndex (j + 1) rest st

/-- Outer loop of `setTranslationalStatePartialFrameScalingFunctions` (lines 313-328);
the list holds the update order from its last element to its first. -/
def addPartialAdditionIndicesInOrder (env : Collaborators σ ρ)
    (propagatedBodies centralBodies : List String) :
    List String → List (IntegratedStateType × Int) × List (Int × Int) →
      Option (List (IntegratedStateType × Int) × List (Int × Int))
  | [], st => some st
  | name :: rest, st =>
    match addPartialAdditionIndices env centralBodies (propagatedBodies.indexOf name)
        0 propagatedBodies st with
    | none => none
    | some st' =>
      addPartialAdditionIndicesInOrder env propagatedBodies centralBodies rest st'

/-- The member function `setTranslationalStatePartialFrameScalingFunctions`: the
resulting `stateTypeStartIndices_` and `statePartialAdditionIndices_`. -/
def setTranslationalStatePartialFrameScalingFunctions (env : Collaborators σ ρ)
    (parametersToEstimate : EstimatableParameterSet ρ)
    (stateTypeStartIndices : List (IntegratedStateType × Int))
    (statePartialAdditionIndices : List (Int × Int)) :
    Option (List (IntegratedStateType × Int) × List (Int × Int)) :=
  match collectPropagatedBodies parametersToEstimate.estimatedInitialStateParameters
      ([], []) with
  | none => none
  | some bodies =>
    match env.determineEphemerisUpdateorder bodies.1 bodies.2 bodies.2 with
    | none => none
    | some updateOrder =>
      addPartialAdditionIndicesInOrder env bodies.1 bodies.2 updateOrder.reverse
        (stateTypeStartIndices, statePartialAdditionIndices)

/-- State threaded through the construction of one body's function list: the multimap
and the record of provider calls. -/
abbrev RegisterState (ρ : Type) := FunctionList ρ × List (ProviderCall ρ)

/-- The member function `addParameterPartialToList( parameterList, partialObject,
functionListOfBody, totalParameterVectorIndicesToSubtract )`. -/
def addParameterPartialToList (env : Collaborators σ ρ) (objects : PartialPtr → σ)
    (partialObject : PartialPtr) (totalParameterVectorIndicesToSubtract : Int) :
    List (Int × ρ) → RegisterState ρ → RegisterState ρ
  | [], st => st
  | (index, parameter) :: rest, st =>
    let functionToEvaluate :=
      env.setParameterPartialUpdateFunction (objects partialObject) parameter
    let calls := st.2 ++ [ProviderCall.setParameterPartialUpdateFunction partialObject parameter]
    if functionToEvaluate ≠ 0 then
      addParameterPartialToList env objects partialObject
        totalParameterVectorIndicesToSubtract rest
        (multimapInsert ((index - totalParameterVectorIndicesToSubtract, functionToEvaluate),
          ⟨partialObject, parameter⟩) st.1, calls)
    else
      addParameterPartialToList env objects partialObject
        totalParameterVectorIndicesToSubtract rest (st.1, calls)

/-- Loop of `setParameterPartialFunctionList` over the providers of one body
(lines 271-279). -/
def registerProviders (env : Collaborators σ ρ) (objects : PartialPtr → σ)
    (doubleParametersToEstimate vectorParametersToEstimate : List (Int × ρ))
    (totalParameterVectorIndicesToSubtract : Int) :
    List PartialPtr → RegisterState ρ → RegisterState ρ
  | [], st => st
  | partialObject :: rest, st =>
    registerProviders env objects doubleParametersToEstimate vectorParametersToEstimate
      totalParameterVectorIndicesToSubtract rest
      (addParameterPartialToList env objects partialObject
        totalParameterVectorIndicesToSubtract vectorParametersToEstimate
        (addParameterPartialToList env objects partialObject
          totalParameterVectorIndicesToSubtract doubleParametersToEstimate st))

/-- Loop of `setParameterPartialFunctionList` over the bodies of one state type
(lines 265-284): one function list per body, each started empty. -/
def registerBodies (env : Collaborators σ ρ) (objects : PartialPtr → σ)
    (doubleParametersToEstimate vectorParametersToEstimate : List (Int × ρ))
    (totalParameterVectorIndicesToSubtract : Int) :
    List (List PartialPtr) → List (ProviderCall ρ) →
      List (FunctionList ρ) × List (ProviderCall ρ)
  | [], calls => ([], calls)
  | providers :: rest, calls =>
    let body := registerProviders env objects doubleParametersToEstimate
      vectorParametersToEstimate totalParameterVectorIndicesToSubtract providers ([], calls)
    let others := registerBodies env objects doubleParametersToEstimate
      vectorParametersToEstimate totalParameterVectorIndicesToSubtract rest body.2
    (body.1 :: others.1, others.2)

/-- Loop of `setParameterPartialFunctionList` over the state types (lines 256-285). The
keys of `stateDerivativePartialList_` are distinct and `parameterPartialList_` starts
empty, so each `parameterPartialList_[ type ]` makes a new entry, in iteration order. -/
def registerStateTypes (env : Collaborators σ ρ) (objects : PartialPtr → σ)
    (doubleParametersToEstimate vectorParametersToEstimate : List (Int × ρ))
    (totalParameterVectorIndicesToSubtract : Int) :
    List (IntegratedStateType × List (List PartialPtr)) → List (ProviderCall ρ) →
      List (IntegratedStateType × List (FunctionList ρ)) × List (ProviderCall ρ)
  | [], calls => ([], calls)
  | (type, bodies) :: rest, calls =>
    let here := registerBodies env objects doubleParametersToEstimate
      vectorParametersToEstimate totalParameterVectorIndicesToSubtract bodies calls
    let others := registerStateTypes env objects doubleParametersToEstimate
      vectorParametersToEstimate totalParameterVectorIndicesToSubtract rest here.2
    ((type, here.1) :: others.1, others.2)

/-- The member function `setParameterPartialFunctionList( parametersToEstimate )`: the
resulting `parameterPartialList_` and record of provider calls. -/
def setParameterPartialFunctionList (env : Collaborators σ ρ) (objects : PartialPtr → σ)
    (parametersToEstimate : EstimatableParameterSet ρ)
    (stateDerivativePartialList : List (IntegratedStateType × List (List PartialPtr)))
    (calls : List (ProviderCall ρ)) :
    List (IntegratedStateType × List (FunctionList ρ)) × List (ProviderCall ρ) :=
  registerStateTypes env objects parametersToEstimate.doubleParameters
    parametersToEstimate.vectorParameters
    (parametersToEstimate.initialDynamicalStateParameterSize -
      parametersToEstimate.singleArcInitialDynamicalStateParameterSetSize)
    stateDerivativePartialList calls

/-- The constructor `VariationalEquations( stateDerivativePartialList,
parametersToEstimate, stateTypeStartIndices )`, run with the given provider objects,
error stream and record of provider calls. The members that the constructor has not
assigned yet when it calls `setStatePartialFunctionList( )` are empty containers then. -/
def constructor (env : Collaborators σ ρ)
    (stateDerivativePartialList : List (IntegratedStateType × List (List PartialPtr)))
    (parametersToEstimate : EstimatableParameterSet ρ)
    (stateTypeStartIndices : List (IntegratedStateType × Int))
    (objects : PartialPtr → σ) (cerr : List Diagnostic) (calls : List (ProviderCall ρ)) :
    Option (VariationalEquations σ ρ) :=
  let numberOfParameterValues := parametersToEstimate.singleArcParameterSetSize
  let dynamicalStatesToEstimate :=
    parametersToEstimate.listOfInitialDynamicalStateParametersEstimate
  let sized := accumulateStateSizes env dynamicalStatesToEstimate
    stateDerivativePartialList (0, cerr)
  let totalDynamicalStateSize := sized.1
  match MatrixXd.Zero totalDynamicalStateSize numberOfParameterValues with
  | none => none
  | some currentMatrixDerivative =>
    match MatrixXd.Zero totalDynamicalStateSize numberOfParameterValues with
    | none => none
    | some currentLongMatrixDerivative =>
      match MatrixXd.Zero totalDynamicalStateSize totalDynamicalStateSize with
      | none => none
      | some variationalMatrix =>
        match MatrixXd.Zero totalDynamicalStateSize
            (numberOfParameterValues - totalDynamicalStateSize) with
        | none => none
        | some variationalParameterMatrix =>
          let allocated : VariationalEquations σ ρ :=
            { stateDerivativePartialList_ := stateDerivativePartialList
              stateTypeStartIndices_ := stateTypeStartIndices
              statePartialList_ := []
              statePartialAdditionIndices_ := []
              parameterPartialList_ := []
              dynamicalStatesToEstimate_ := dynamicalStatesToEstimate
              estimatedUnintegratedBodies_ := []
              numberOfParameterValues_ := numberOfParameterValues
              estimatedUnintegratedBodiesVectorSize_ := 0
              totalDynamicalStateSize_ := totalDynamicalStateSize
              currentMatrixDerivative_ := currentMatrixDerivative
              currentLongMatrixDerivative_ := currentLongMatrixDerivative
              variationalMatrix_ := variationalMatrix
              variationalParameterMatrix_ := variationalParameterMatrix
              partialObjects := objects
              cerr := sized.2
              providerCalls := calls
              lastUpdateTime_ := none }
          match env.setStatePartialFunctionList allocated with
          | none => none
          | some statePartialList =>
            match setTranslationalStatePartialFrameScalingFunctions env
                parametersToEstimate stateTypeStartIndices [] with
            | none => none
            | some frames =>
              let registered := setParameterPartialFunctionList env objects
                parametersToEstimate stateDerivativePartialList calls
              some
                { allocated with
                  stateTypeStartIndices_ := frames.1
                  statePartialList_ := statePartialList
                  statePartialAdditionIndices_ := frames.2
                  parameterPartialList_ := registered.1
                  providerCalls := registered.2 }

/-- Modelled from the spec: the refresh of "all registered partial providers" in
`update` (§4.4); every provider listed for a body is asked to update itself at
`currentTime`, in the order of the list. -/
def refreshProviders (env : Collaborators σ ρ) (currentTime : Time) :
    List PartialPtr → (PartialPtr → σ) × List (ProviderCall ρ) →
      (PartialPtr → σ) × List (ProviderCall ρ)
  | [], st => st
  | partialObject :: rest, st =>
    refreshProviders env currentTime rest
      (Function.update st.1 partialObject (env.update currentTime (st.1 partialObject)),
        st.2 ++ [ProviderCall.update partialObject currentTime])

/-- Modelled from the spec: `update( currentTime )` of §4.4, the member function
`updatePartials( currentTime )` whose body is in the missing `variationalEquations.cpp`.
"If currentTime differs from the last cached time (compared for exact equality), triggers
all registered partial providers to refresh their internal state at currentTime, then
rebuilds the A-matrix." -/
def updatePartials (env : Collaborators σ ρ) (s : VariationalEquations σ ρ)
    (currentTime : Time) : VariationalEquations σ ρ :=
  if s.lastUpdateTime_ = some currentTime then s
  else
    let refreshed := refreshProviders env currentTime
      (s.stateDerivativePartialList_.flatMap (fun entry => entry.2.flatMap id))
      (s.partialObjects, s.providerCalls)
    let rebuilt := setBodyStatePartialMatrix env
      { s with partialObjects := refreshed.1, providerCalls := refreshed.2 }
    { rebuilt with lastUpdateTime_ := some currentTime }

/-- The member function `getNumberOfParameterValues( )`; its `double` result holds the
`int` exactly. -/
def getNumberOfParameterValues (s : VariationalEquations σ ρ) : Int :=
  s.numberOfParameterValues_

end VariationalEquations

/-! ## Vocabulary of the statements -/

/-- Record of the call of a bound function on the block with first row `startRow` and
`blockRows` rows, at the columns given by the key of the entry. -/
def blockCallOf (totalDynamicalStateSize startRow blockRows : Int)
    (entry : (Int × Int) × BoundFunction ρ) : ProviderCall ρ :=
  ProviderCall.getCurrentParameterPartial entry.2.partialObject entry.2.parameter startRow
    (entry.1.1 - totalDynamicalStateSize) blockRows entry.1.2

/-- The recorded call handed a block that contains position `(i, j)`. -/
def ProviderCall.covers : ProviderCall ρ → Int → Int → Prop
  | ProviderCall.getCurrentParameterPartial _ _ startRow startCol blockRows blockCols, i, j =>
    MatrixXd.inBlock startRow startCol blockRows blockCols i j
  | _, _, _ => False

/-- What the recorded call adds at position `(i, j)` when the provider's partial with
respect to the parameter has the coefficients `partialOf object parameter`. -/
def ProviderCall.contribution (partialOf : σ → ρ → Int → Int → Scalar)
    (objects : PartialPtr → σ) : ProviderCall ρ → Int → Int → Scalar
  | ProviderCall.getCurrentParameterPartial partialObject parameter startRow startCol
      blockRows blockCols, i, j =>
    if MatrixXd.inBlock startRow startCol blockRows blockCols i j
    then partialOf (objects partialObject) parameter (i - startRow) (j - startCol) else 0
  | _, _, _ => 0

/-- The provider functions write by addition: `getCurrentParameterPartial` leaves in the
block what it held plus the provider's partial. -/
def WritesByAddition (env : Collaborators σ ρ)
    (partialOf : σ → ρ → Int → Int → Scalar) : Prop :=
  ∀ (object : σ) (parameter : ρ) (block : MatrixXd) (a b : Int),
    MatrixXd.inBlock 0 0 block.rows block.cols a b →
      (env.getCurrentParameterPartial object parameter block).coeff a b =
        block.coeff a b + partialOf object parameter a b

/-- The run from `st` to `st'` made exactly the calls `calls`, kept the size of the
matrix, and left every coefficient outside the blocks handed as it was. -/
def Fills (st st' : FillState ρ) (calls : List (ProviderCall ρ)) : Prop :=
  st'.2 = st.2 ++ calls ∧ st'.1.rows = st.1.rows ∧ st'.1.cols = st.1.cols ∧
    ∀ i j, (∀ c ∈ calls, ¬ c.covers i j) → st'.1.coeff i j = st.1.coeff i j

/-- Every coefficient grew by the sum of the contributions of the calls `calls`. -/
def Accumulates (partialOf : σ → ρ → Int → Int → Scalar) (objects : PartialPtr → σ)
    (st st' : FillState ρ) (calls : List (ProviderCall ρ)) : Prop :=
  ∀ i j, st'.1.coeff i j =
    st.1.coeff i j + (calls.map (fun c => c.contribution partialOf objects i j)).sum

/-- Calls made for the bodies of one state type, body `i` being the first of the list. -/
def callsOfBodies (totalDynamicalStateSize startIndex currentStateSize
    entriesToSkipPerEntry : Int) : Nat → List (FunctionList ρ) → List (ProviderCall ρ)
  | _, [] => []
  | i, functionList :: rest =>
    functionList.map (blockCallOf totalDynamicalStateSize
        (startIndex + entriesToSkipPerEntry + currentStateSize * i)
        (currentStateSize - entriesToSkipPerEntry)) ++
      callsOfBodies totalDynamicalStateSize startIndex currentStateSize
        entriesToSkipPerEntry (i + 1) rest

/-- Calls made for all state types of `parameterPartialList_`. -/
def callsOfStateTypes (env : Collaborators σ ρ)
    (stateTypeStartIndices : List (IntegratedStateType × Int))
    (totalDynamicalStateSize : Int) :
    List (IntegratedStateType × List (FunctionList ρ)) → List (ProviderCall ρ)
  | [] => []
  | (type, bodies) :: rest =>
    (match mapAt stateTypeStartIndices type with
      | none => []
      | some startIndex =>
        callsOfBodies totalDynamicalStateSize startIndex (env.getSingleIntegrationSize type)
          (env.getSingleIntegrationSize type - (env.getSingleIntegrationSize type).tdiv
            (env.getSingleIntegrationDifferentialEquationOrder type)) 0 bodies) ++
      callsOfStateTypes env stateTypeStartIndices totalDynamicalStateSize rest

/-- Entry that `addParameterPartialToList` makes for the provider `partialObject` and
the parameter `parameter.2` with start index `parameter.1`: none when the provider reports
the width 0, else the key and the bound function. -/
def registeredEntry (env : Collaborators σ ρ) (objects : PartialPtr → σ)
    (totalParameterVectorIndicesToSubtract : Int) (partialObject : PartialPtr)
    (parameter : Int × ρ) : Option ((Int × Int) × BoundFunction ρ) :=
  if env.setParameterPartialUpdateFunction (objects partialObject) parameter.2 ≠ 0 then
    some ((parameter.1 - totalParameterVectorIndicesToSubtract,
        env.setParameterPartialUpdateFunction (objects partialObject) parameter.2),
      ⟨partialObject, parameter.2⟩)
  else none

/-- All entries due to the providers of one body, in the order of registration: for each
provider, the double parameters and then the vector parameters with a non-zero width. -/
def registeredEntries (env : Collaborators σ ρ) (objects : PartialPtr → σ)
    (doubleParametersToEstimate vectorParametersToEstimate : List (Int × ρ))
    (totalParameterVectorIndicesToSubtract : Int) (providers : List PartialPtr) :
    List ((Int × Int) × BoundFunction ρ) :=
  providers.flatMap (fun partialObject =>
    (doubleParametersToEstimate ++ vectorParametersToEstimate).filterMap
      (registeredEntry env objects totalParameterVectorIndicesToSubtract partialObject))

/-- Message that the constructor writes for one state type of the providers map: one
when the initial-state list has no entry of that type, another when its entry lists a
different number of entities, none otherwise. -/
def consistencyMessage
    (dynamicalStatesToEstimate : List (IntegratedStateType × List (String × String)))
    (entry : IntegratedStateType × List (List PartialPtr)) : Option Diagnostic :=
  match mapAt dynamicalStatesToEstimate entry.1 with
  | none => some (Diagnostic.noStateToEstimateOfType entry.1)
  | some states =>
    if states.length ≠ entry.2.length
    then some Diagnostic.inputPartialListSizeInconsistent else none

/-- Messages for all state types of the providers map, in its order. -/
def consistencyMessages
    (dynamicalStatesToEstimate : List (IntegratedStateType × List (String × String)))
    (stateDerivativePartialList : List (IntegratedStateType × List (List PartialPtr))) :
    List Diagnostic :=
  stateDerivativePartialList.filterMap (consistencyMessage dynamicalStatesToEstimate)

/-- The row blocks of the entities do not overlap: for two different entities (state
type and position among the bodies of the type) of `parameterPartialList_`, the rows
from `startIndex + size * i` on, `size` of them, have no row in common. -/
def EntityRowBlocksDisjoint (env : Collaborators σ ρ) (s : VariationalEquations σ ρ) :
    Prop :=
  ∀ (typeA typeB : IntegratedStateType) (bodiesA bodiesB : List (FunctionList ρ))
    (iA iB : Nat) (startA startB : Int),
    (typeA, bodiesA) ∈ s.parameterPartialList_ → (typeB, bodiesB) ∈ s.parameterPartialList_ →
    iA < bodiesA.length → iB < bodiesB.length →
    mapAt s.stateTypeStartIndices_ typeA = some startA →
    mapAt s.stateTypeStartIndices_ typeB = some startB →
    (typeA, iA) ≠ (typeB, iB) →
      startA + env.getSingleIntegrationSize typeA * iA + env.getSingleIntegrationSize typeA ≤
          startB + env.getSingleIntegrationSize typeB * iB ∨
        startB + env.getSingleIntegrationSize typeB * iB + env.getSingleIntegrationSize typeB ≤
          startA + env.getSingleIntegrationSize typeA * iA

/-! ## Concrete engines -/

namespace Example

open IntegratedStateType

/-- Size table of the examples: 6 for a translational state, 7 for a rotational state,
1 for the others. -/
def sizes : IntegratedStateType → Int
  | transational_state => 6
  | rotational_state => 7
  | body_mass_state => 1
  | custom_state => 1

/-- Differential orders of the examples: 2 for a translational state, 1 for the others. -/
def orders : IntegratedStateType → Int
  | transational_state => 2
  | _ => 1

/-- Collaborators of the examples. A provider object is the time of its last update; it
reports the width `width object parameter`, adds `object + 1` to every coefficient of the
block it is handed, and the state partial matrix holds the object of provider 0
everywhere. The set-up of the state partial functions returns with no function bound,
and the update order is the order of the bodies. -/
def collaborators (width : Int → Nat → Int) : Collaborators Int Nat where
  getSingleIntegrationSize := sizes
  getSingleIntegrationDifferentialEquationOrder := orders
  update := fun currentTime _ => currentTime
  setParameterPartialUpdateFunction := width
  getCurrentParameterPartial := fun object _ block =>
    ⟨block.rows, block.cols, fun i j => block.coeff i j + (object + 1)⟩
  bodyStatePartialCoefficients := fun s _ _ => s.partialObjects 0
  setStatePartialFunctionList := fun _ => some []
  determineEphemerisUpdateorder := fun bodies _ _ => some bodies

/-- One vehicle with a translational state and one scalar parameter (index 6) on which
its only provider depends: 7 parameter values, 6 of them the initial state. -/
def vehicleParameters : EstimatableParameterSet Nat where
  singleArcParameterSetSize := 7
  listOfInitialDynamicalStateParametersEstimate := [(transational_state, [("Vehicle", "")])]
  doubleParameters := [(6, 0)]
  vectorParameters := []
  initialDynamicalStateParameterSize := 6
  singleArcInitialDynamicalStateParameterSetSize := 6
  estimatedInitialStateParameters := [⟨true, "Vehicle", some "Earth"⟩]

/-- Providers of the vehicle engine report the width 1 for every parameter. -/
def vehicleCollaborators : Collaborators Int Nat :=
  collaborators (fun _ _ => 1)

/-- Result of constructing the engine of the vehicle. -/
def vehicleConstruction : Option (VariationalEquations Int Nat) :=
  VariationalEquations.constructor vehicleCollaborators [(transational_state, [[0]])]
    vehicleParameters [(transational_state, 0)] (fun _ => 0) [] []

/-- The engine of the vehicle. -/
def vehicleEngine : VariationalEquations Int Nat :=
  vehicleConstruction.get (by decide)

/-- Composite matrix `[Identity | Zero]` of the vehicle, 6 by 7. -/
def vehicleComposite : MatrixXd :=
  ⟨6, 7, fun i j => if i = j then 1 else 0⟩

/-- A 6 by 7 block for the derivative of the composite matrix. -/
def vehicleDerivative : MatrixXd :=
  ⟨6, 7, fun _ _ => 0⟩

/-- One body with a mass state and no further parameter: 1 parameter value. -/
def massParameters : EstimatableParameterSet Nat where
  singleArcParameterSetSize := 1
  listOfInitialDynamicalStateParametersEstimate := [(body_mass_state, [("Vehicle", "")])]
  doubleParameters := []
  vectorParameters := []
  initialDynamicalStateParameterSize := 1
  singleArcInitialDynamicalStateParameterSetSize := 1
  estimatedInitialStateParameters := [⟨false, "Vehicle", none⟩]

/-- Result of constructing the engine of the body with a mass state; its provider holds
the partial of time 0. -/
def massConstruction : Option (VariationalEquations Int Nat) :=
  VariationalEquations.constructor vehicleCollaborators [(body_mass_state, [[0]])]
    massParameters [(body_mass_state, 0)] (fun _ => 0) [] []

/-- The engine of the body with a mass state. -/
def massEngine : VariationalEquations Int Nat :=
  massConstruction.get (by decide)

/-- Composite matrix `[1]` of the body with a mass state. -/
def massComposite : MatrixXd :=
  ⟨1, 1, fun _ _ => 1⟩

/-- A 1 by 1 block for the derivative of the composite matrix. -/
def massDerivative : MatrixXd :=
  ⟨1, 1, fun _ _ => 0⟩

/-- One vehicle with a translational state and two scalar parameters, at the indices
6 and 7: 8 parameter values. -/
def twoParameters : EstimatableParameterSet Nat where
  singleArcParameterSetSize := 8
  listOfInitialDynamicalStateParametersEstimate := [(transational_state, [("Vehicle", "")])]
  doubleParameters := [(6, 0), (7, 1)]
  vectorParameters := []
  initialDynamicalStateParameterSize := 6
  singleArcInitialDynamicalStateParameterSetSize := 6
  estimatedInitialStateParameters := [⟨true, "Vehicle", some "Earth"⟩]

/-- Providers report the width 2 for parameter 0 and no dependency on parameter 1. -/
def wideCollaborators : Collaborators Int Nat :=
  collaborators (fun _ parameter => if parameter = 0 then 2 else 0)

/-- Construction of the engine whose only provider reports the width 2 for the scalar
parameter 0. -/
def wideConstruction : Option (VariationalEquations Int Nat) :=
  VariationalEquations.constructor wideCollaborators [(transational_state, [[0]])]
    twoParameters [(transational_state, 0)] (fun _ => 0) [] []

/-- The engine whose only provider reports the width 2 for the scalar parameter 0. -/
def wideEngine : VariationalEquations Int Nat :=
  wideConstruction.get (by decide)

/-- Providers report the width 1 for parameter 0 and no dependency on parameter 1. -/
def sparseCollaborators : Collaborators Int Nat :=
  collaborators (fun _ parameter => if parameter = 0 then 1 else 0)

/-- Construction of the engine whose only provider depends on parameter 0 alone. -/
def sparseConstruction : Option (VariationalEquations Int Nat) :=
  VariationalEquations.constructor sparseCollaborators [(transational_state, [[0]])]
    twoParameters [(transational_state, 0)] (fun _ => 0) [] []

/-- The engine whose only provider depends on parameter 0 alone. -/
def sparseEngine : VariationalEquations Int Nat :=
  sparseConstruction.get (by decide)

/-- Construction of the engine of a vehicle with two providers, the objects 0 and 1, that
both depend on the scalar parameter at index 6. -/
def sharedConstruction : Option (VariationalEquations Int Nat) :=
  VariationalEquations.constructor vehicleCollaborators [(transational_state, [[0, 1]])]
    vehicleParameters [(transational_state, 0)] (fun partialObject => partialObject) [] []

/-- The engine of a vehicle with two providers that depend on the same parameter. -/
def sharedEngine : VariationalEquations Int Nat :=
  sharedConstruction.get (by decide)

end Example

/-! ## Vocabulary of the statements on the start indices -/

/-- The cumulative offsets of the state types of the providers map, in its order: a
state type starts at `start` and the next one where the entities of this one end, each
entity taking the size of a state of the type. -/
def cumulativeOffsets (env : Collaborators σ ρ) :
    Int → List (IntegratedStateType × List (List PartialPtr)) →
      List (IntegratedStateType × Int)
  | _, [] => []
  | start, (type, bodies) :: rest =>
    (type, start) ::
      cumulativeOffsets env (start + env.getSingleIntegrationSize type * bodies.length) rest

/-! ## Vocabulary of the statements on the frame corrections -/

/-- Pairs recorded for the body at position `a` with central body `central`, when the
inner loop runs over `bodies` with the counter starting at `j`: one pair for every
position of `bodies` that holds `central`. `start` is the translational start index and
`size` the size of a translational state. -/
def matchingPairs (start size : Int) (a : Nat) (central : String) :
    Nat → List String → List (Int × Int)
  | _, [] => []
  | j, body :: rest =>
    (if central = body then [(start + a * size, start + j * size)] else []) ++
      matchingPairs start size a central (j + 1) rest

/-- Pairs recorded when the body `name` of the update order is handled: `name` stands at
the position `propagatedBodies.indexOf name`, and a pair is recorded for every position
of `propagatedBodies` that holds its central body. -/
def pairsOfBody (start size : Int) (propagatedBodies centralBodies : List String)
    (name : String) : List (Int × Int) :=
  match centralBodies[propagatedBodies.indexOf name]? with
  | none => []
  | some central =>
    matchingPairs start size (propagatedBodies.indexOf name) central 0 propagatedBodies

namespace Example

open IntegratedStateType

/-- Three bodies with a translational state, listed in the order C, B, A: C is defined
relative to the Sun (not propagated), B relative to C and A relative to B. -/
def chainParameters : EstimatableParameterSet Nat where
  singleArcParameterSetSize := 18
  listOfInitialDynamicalStateParametersEstimate :=
    [(transational_state, [("C", ""), ("B", ""), ("A", "")])]
  doubleParameters := []
  vectorParameters := []
  initialDynamicalStateParameterSize := 18
  singleArcInitialDynamicalStateParameterSetSize := 18
  estimatedInitialStateParameters :=
    [⟨true, "C", some "Sun"⟩, ⟨true, "B", some "C"⟩, ⟨true, "A", some "B"⟩]

/-- Construction of the engine of the three bodies; the update order found is C, B, A,
every referenced body before the bodies defined relative to it. -/
def chainConstruction : Option (VariationalEquations Int Nat) :=
  VariationalEquations.constructor vehicleCollaborators
    [(transational_state, [[], [], []])] chainParameters [(transational_state, 0)]
    (fun _ => 0) [] []

/-- Two bodies with a translational state that are defined relative to each other. -/
def cycleParameters : EstimatableParameterSet Nat where
  singleArcParameterSetSize := 12
  listOfInitialDynamicalStateParametersEstimate :=
    [(transational_state, [("A", ""), ("B", "")])]
  doubleParameters := []
  vectorParameters := []
  initialDynamicalStateParameterSize := 12
  singleArcInitialDynamicalStateParameterSetSize := 12
  estimatedInitialStateParameters := [⟨true, "A", some "B"⟩, ⟨true, "B", some "A"⟩]

end Example

/-! ## The central-body update order -/

/-- Modelled from the spec: a body that waits to be placed in the update order is
resolved in a pass of the traversal of §4.1 when the body it is defined relative to is
not itself waiting. The entries pair a body with its central body. -/
def isResolved (waiting : List (String × String)) (entry : String × String) : Bool :=
  !(waiting.any (fun other => other.1 == entry.2))

/-- Modelled from the spec: the "dependency graph traversal" of §4.1, of which no source
is given. Each pass appends the resolved bodies to the order and leaves the others
waiting; a pass that resolves no body although bodies wait has met a cycle, the
"structural error" of §4.1, and there is no order. -/
def traverseDependencies :
    Nat → List (String × String) → List String → Option (List String)
  | 0, waiting, order => if waiting.isEmpty then some order else none
  | passes + 1, waiting, order =>
    if waiting.isEmpty then some order
    else if (waiting.filter (isResolved waiting)).isEmpty then none
    else
      traverseDependencies passes (waiting.filter (fun entry => !isResolved waiting entry))
        (order ++ (waiting.filter (isResolved waiting)).map Prod.fst)

/-- Modelled from the spec: the function `determineEphemerisUpdateorder( bodies,
centralBodies, ephemerisOrigins )` that line 310 of `variationalEquations.h` calls and
whose body is not among the source files. §4.1: "given each propagated entity's declared
central (reference) body, produces a sequence such that an entity's contribution is
resolved before any entity defined relative to it, using a dependency graph traversal
(cycle among propagated bodies is a structural error — a body cannot, directly or
indirectly, be defined relative to itself)". The call hands the central bodies over as
origins too. -/
def determineEphemerisUpdateorder (bodies centralBodies _ephemerisOrigins : List String) :
    Option (List String) :=
  traverseDependencies bodies.length (bodies.zip centralBodies) []

namespace Example

/-- The collaborators of the vehicle, with the update order determined by the
traversal. -/
def orderedCollaborators : Collaborators Int Nat :=
  { vehicleCollaborators with determineEphemerisUpdateorder := determineEphemerisUpdateorder }

end Example

/-! ## The cannonball radiation pressure partial -/

/-- The statement `m.block( startRow, startCol, blockRows, blockCols ) -= src`. -/
def MatrixXd.subAssignBlock (m : MatrixXd) (startRow startCol blockRows blockCols : Int)
    (src : MatrixXd) : Option MatrixXd :=
  if m.validBlock startRow startCol blockRows blockCols ∧
      src.rows = blockRows ∧ src.cols = blockCols then
    some (m.writeBlock startRow startCol blockRows blockCols
      ⟨blockRows, blockCols, fun i j =>
        (m.blockView startRow startCol blockRows blockCols).coeff i j - src.coeff i j⟩)
  else none

/-- The function members of a `CannonBallRadiationPressurePartial`, bound by its
constructor to the radiation pressure interface and to the mass of the body. -/
inductive BoundQuantity where
  | sourceBodyState_
  | acceleratedBodyState_
  | areaFunction_
  | radiationPressureCoefficientFunction_
  | radiationPressureFunction_
  | acceleratedBodyMassFunction_
  deriving DecidableEq, Repr

/-- A `CannonBallRadiationPressurePartial` of
`radiationPressureAccelerationPartial.h`: the members that `update` and the partials
with respect to the positions read and write. The function members are fixed by the
constructor; what they return is given to `update`, and the calls made to them are
counted in `evaluations`. -/
structure CannonBallRadiationPressurePartial where
  /-- The member `Eigen::Matrix3d currentPartialWrtPosition_`: its coefficients, of
  which those with row and column 0, 1, 2 are meaningful. -/
  currentPartialWrtPosition_ : Int → Int → Scalar
  /-- The member `currentTime_` of the base class; `none` is a value that is not a
  number, which compares unequal to every time. -/
  currentTime_ : Option Time
  /-- Number of calls made so far to each function member (kept to observe the calls;
  it has no influence on any computed value). The order in which the operands of one
  expression are evaluated is left open by the language and is not recorded. -/
  evaluations : BoundQuantity → Nat

namespace CannonBallRadiationPressurePartial

/-- The member function `wrtPositionOfAcceleratedBody( partialMatrix, addContribution,
startRow, startColumn )`; the result is the content of `partialMatrix` afterwards. -/
def wrtPositionOfAcceleratedBody (self : CannonBallRadiationPressurePartial)
    (partialMatrix : MatrixXd) (addContribution : Bool) (startRow startColumn : Int) :
    Option MatrixXd :=
  if addContribution then
    partialMatrix.addAssignBlock startRow startColumn 3 3
      ⟨3, 3, self.currentPartialWrtPosition_⟩
  else
    partialMatrix.subAssignBlock startRow startColumn 3 3
      ⟨3, 3, self.currentPartialWrtPosition_⟩

/-- The member function `wrtPositionOfAcceleratingBody( partialMatrix, addContribution,
startRow, startColumn )`; the result is the content of `partialMatrix` afterwards. -/
def wrtPositionOfAcceleratingBody (self : CannonBallRadiationPressurePartial)
    (partialMatrix : MatrixXd) (addContribution : Bool) (startRow startColumn : Int) :
    Option MatrixXd :=
  if addContribution then
    partialMatrix.subAssignBlock startRow startColumn 3 3
      ⟨3, 3, self.currentPartialWrtPosition_⟩
  else
    partialMatrix.addAssignBlock startRow startColumn 3 3
      ⟨3, 3, self.currentPartialWrtPosition_⟩

end CannonBallRadiationPressurePartial

namespace Example

/-- A radiation pressure partial whose position partial has the coefficient
`3 * i + j + 1` in row `i` and column `j`. -/
def pressurePartial : CannonBallRadiationPressurePartial where
  currentPartialWrtPosition_ := fun i j => 3 * i + j + 1
  currentTime_ := some 5
  evaluations := fun _ => 0

/-- A 6 by 6 matrix with the coefficient `i - j` in row `i` and column `j`. -/
def stateBlock : MatrixXd :=
  ⟨6, 6, fun i j => i - j⟩

end Example

/-! ## The spherical harmonics gravity field -/

/-- How a member function of the gravity field ends when it does not return. -/
inductive Failure where
  /-- The statement `throw std::runtime_error( what )`. -/
  | runtime_error (what : String)
  /-- A violated precondition of an Eigen operation (`eigen_assert`). -/
  | eigen_assert
  deriving DecidableEq, Repr

/-- The expression `m.block( startRow, startCol, blockRows, blockCols )` read as a
value, as when it initialises an `Eigen::MatrixXd`. -/
def MatrixXd.block (m : MatrixXd) (startRow startCol blockRows blockCols : Int) :
    Except Failure MatrixXd :=
  if m.validBlock startRow startCol blockRows blockCols then
    .ok (m.blockView startRow startCol blockRows blockCols)
  else .error .eigen_assert

/-- A three-dimensional vector `Eigen::Vector3d`. -/
abbrev Vector3d := Fin 3 → Scalar

/-- A `basic_mathematics::SphericalHarmonicsCache`, as far as the gravity field
touches it: the degree and order it was last reset to. The class is not among the
source files. -/
structure SphericalHarmonicsCache where
  maximumDegree_ : Int
  maximumOrder_ : Int
  deriving DecidableEq, Repr

/-- The call `cache->resetMaximumDegreeAndOrder( maximumDegree, maximumOrder )`. -/
def SphericalHarmonicsCache.resetMaximumDegreeAndOrder (_cache : SphericalHarmonicsCache)
    (maximumDegree maximumOrder : Int) : SphericalHarmonicsCache :=
  ⟨maximumDegree, maximumOrder⟩

/-- The free functions declared at the head of `sphericalHarmonicsGravityField.h`
whose bodies are not among the source files; the trailing arguments the gravity field
leaves at their defaults or passes as a dummy are not listed. -/
structure GravityCollaborators where
  /-- The function `calculateSphericalHarmonicGravitationalPotential( bodyFixedPosition,
  gravitationalParameter, referenceRadius, cosineCoefficients, sineCoefficients,
  sphericalHarmonicsCache, minimumumDegree, minimumumOrder )`. -/
  calculateSphericalHarmonicGravitationalPotential :
    Vector3d → Scalar → Scalar → MatrixXd → MatrixXd → SphericalHarmonicsCache →
      Int → Int → Scalar
  /-- The function `computeGeodesyNormalizedGravitationalAccelerationSum(
  positionOfBodySubjectToAcceleration, gravitationalParameter, equatorialRadius,
  cosineHarmonicCoefficients, sineHarmonicCoefficients, sphericalHarmonicsCache,
  accelerationPerTerm )`. -/
  computeGeodesyNormalizedGravitationalAccelerationSum :
    Vector3d → Scalar → Scalar → MatrixXd → MatrixXd → SphericalHarmonicsCache →
      Vector3d

/-- An object of class `SphericalHarmonicsGravityField`. The first two members are
those of the base class `GravityFieldModel` the class reads; `updateInertiaTensor_`
tells whether the stored `std::function` is non-empty, and `inertiaTensorUpdates`
counts the calls made to it. -/
structure SphericalHarmonicsGravityField where
  gravitationalParameter_ : Scalar
  updateInertiaTensor_ : Bool
  inertiaTensorUpdates : Nat
  referenceRadius_ : Scalar
  cosineCoefficients_ : MatrixXd
  sineCoefficients_ : MatrixXd
  fixedReferenceFrame_ : String
  maximumDegree_ : Int
  maximumOrder_ : Int
  sphericalHarmonicsCache_ : SphericalHarmonicsCache

namespace SphericalHarmonicsGravityField

/-- The constructor `SphericalHarmonicsGravityField( gravitationalParameter,
referenceRadius, cosineCoefficients, sineCoefficients, fixedReferenceFrame,
updateInertiaTensor )`. -/
def constructor (gravitationalParameter referenceRadius : Scalar)
    (cosineCoefficients sineCoefficients : MatrixXd) (fixedReferenceFrame : String)
    (updateInertiaTensor : Bool) : Except Failure SphericalHarmonicsGravityField :=
  if cosineCoefficients.rows ≠ sineCoefficients.rows ∨
      cosineCoefficients.cols ≠ sineCoefficients.cols then
    .error (.runtime_error
      "Error when creating spherical harmonics gravity field; sine and cosine sizes are incompatible")
  else
    .ok
      { gravitationalParameter_ := gravitationalParameter
        updateInertiaTensor_ := updateInertiaTensor
        inertiaTensorUpdates := 0
        referenceRadius_ := referenceRadius
        cosineCoefficients_ := cosineCoefficients
        sineCoefficients_ := sineCoefficients
        fixedReferenceFrame_ := fixedReferenceFrame
        maximumDegree_ := cosineCoefficients.rows - 1
        maximumOrder_ := cosineCoefficients.cols - 1
        sphericalHarmonicsCache_ :=
          SphericalHarmonicsCache.resetMaximumDegreeAndOrder ⟨0, 0⟩
            (cosineCoefficients.rows - 1 + 2) (cosineCoefficients.cols - 1 + 2) }

/-- The member function `getCosineCoefficients( )`. -/
def getCosineCoefficients (self : SphericalHarmonicsGravityField) : MatrixXd :=
  self.cosineCoefficients_

/-- The member function `getSineCoefficients( )`. -/
def getSineCoefficients (self : SphericalHarmonicsGravityField) : MatrixXd :=
  self.sineCoefficients_

/-- The statements `if( !( updateInertiaTensor_ == nullptr ) ) updateInertiaTensor_( )`
that end both setters. -/
def callUpdateInertiaTensor (self : SphericalHarmonicsGravityField) :
    SphericalHarmonicsGravityField :=
  if self.updateInertiaTensor_ then
    { self with inertiaTensorUpdates := self.inertiaTensorUpdates + 1 }
  else self

/-- The member function `setCosineCoefficients( cosineCoefficients )`: the object when
the call ends, and the exception the call ends with, if any. -/
def setCosineCoefficients (self : SphericalHarmonicsGravityField)
    (cosineCoefficients : MatrixXd) : SphericalHarmonicsGravityField × Option Failure :=
  if cosineCoefficients.rows ≠ self.cosineCoefficients_.rows ∨
      cosineCoefficients.cols ≠ self.cosineCoefficients_.cols then
    (self, some (.runtime_error
      "Error when resettings spherical harmonics gravity field cosine coefficients; sizes are incompatible"))
  else
    (callUpdateInertiaTensor { self with cosineCoefficients_ := cosineCoefficients }, none)

/-- The member function `setSineCoefficients( sineCoefficients )`: the object when the
call ends, and the exception the call ends with, if any. -/
def setSineCoefficients (self : SphericalHarmonicsGravityField)
    (sineCoefficients : MatrixXd) : SphericalHarmonicsGravityField × Option Failure :=
  if sineCoefficients.rows ≠ self.sineCoefficients_.rows ∨
      sineCoefficients.cols ≠ self.sineCoefficients_.cols then
    (self, some (.runtime_error
      "Error when resettings spherical harmonics gravity field cosine coefficients; sizes are incompatible"))
  else
    (callUpdateInertiaTensor { self with sineCoefficients_ := sineCoefficients }, none)

/-- The member function `getCosineCoefficientsBlock( maximumDegree, maximumOrder )`. -/
def getCosineCoefficientsBlock (self : SphericalHarmonicsGravityField)
    (maximumDegree maximumOrder : Int) : Except Failure MatrixXd :=
  if maximumDegree > self.maximumDegree_ ∨ maximumOrder > self.maximumOrder_ then
    .error (.runtime_error
      ("Error when retrieving cosine spherical harmonic coefficients up to D/O " ++
        toString maximumDegree ++ "/" ++ toString maximumOrder ++ " maximum D/O is " ++
        toString self.maximumDegree_ ++ "/" ++ toString self.maximumOrder_))
  else
    self.cosineCoefficients_.block 0 0 (maximumDegree + 1) (maximumOrder + 1)

/-- The member function `getSineCoefficientsBlock( maximumDegree, maximumOrder )`. -/
def getSineCoefficientsBlock (self : SphericalHarmonicsGravityField)
    (maximumDegree maximumOrder : Int) : Except Failure MatrixXd :=
  if maximumDegree > self.maximumDegree_ ∨ maximumOrder > self.maximumOrder_ then
    .error (.runtime_error
      ("Error when retrieving sine spherical harmonic coefficients up to D/O " ++
        toString maximumDegree ++ "/" ++ toString maximumOrder ++ " maximum D/O is " ++
        toString self.maximumDegree_ ++ "/" ++ toString self.maximumOrder_))
  else
    self.sineCoefficients_.block 0 0 (maximumDegree + 1) (maximumOrder + 1)

/-- The member function `getDegreeOfExpansion( )`. -/
def getDegreeOfExpansion (self : SphericalHarmonicsGravityField) : Scalar :=
  self.maximumDegree_

/-- The member function `getOrderOfExpansion( )`. -/
def getOrderOfExpansion (self : SphericalHarmonicsGravityField) : Scalar :=
  self.maximumOrder_

/-- The member function `getGravitationalPotential( bodyFixedPosition, maximumDegree,
maximumOrder, minimumDegree, minimumOrder )`; the degrees and orders arrive as `double`
and are integral here. -/
def getGravitationalPotential (env : GravityCollaborators)
    (self : SphericalHarmonicsGravityField) (bodyFixedPosition : Vector3d)
    (maximumDegree maximumOrder : Int) (minimumDegree : Int) (minimumOrder : Int) :
    Except Failure Scalar :=
  match self.cosineCoefficients_.block 0 0 (maximumDegree + 1) (maximumOrder + 1),
      self.sineCoefficients_.block 0 0 (maximumDegree + 1) (maximumOrder + 1) with
  | .ok cosineBlock, .ok sineBlock =>
    .ok (env.calculateSphericalHarmonicGravitationalPotential bodyFixedPosition
      self.gravitationalParameter_ self.referenceRadius_ cosineBlock sineBlock
      self.sphericalHarmonicsCache_ minimumDegree minimumOrder)
  | .error failure, _ => .error failure
  | _, .error failure => .error failure

/-- The member function `getGravitationalPotential( bodyFixedPosition )`. -/
def getGravitationalPotentialAtMaximum (env : GravityCollaborators)
    (self : SphericalHarmonicsGravityField) (bodyFixedPosition : Vector3d) :
    Except Failure Scalar :=
  getGravitationalPotential env self bodyFixedPosition (self.cosineCoefficients_.rows - 1)
    (self.sineCoefficients_.cols - 1) 0 0

/-- The member function `getGradientOfPotential( bodyFixedPosition, maximumDegree,
maximumOrder )`; the degree and order arrive as `double` and are integral here. -/
def getGradientOfPotential (env : GravityCollaborators)
    (self : SphericalHarmonicsGravityField) (bodyFixedPosition : Vector3d)
    (maximumDegree maximumOrder : Int) : Except Failure Vector3d :=
  match self.cosineCoefficients_.block 0 0 maximumDegree maximumOrder,
      self.sineCoefficients_.block 0 0 maximumDegree maximumOrder with
  | .ok cosineBlock, .ok sineBlock =>
    .ok (env.computeGeodesyNormalizedGravitationalAccelerationSum bodyFixedPosition
      self.gravitationalParameter_ self.referenceRadius_ cosineBlock sineBlock
      self.sphericalHarmonicsCache_)
  | .error failure, _ => .error failure
  | _, .error failure => .error failure

/-- The member function `getGradientOfPotential( bodyFixedPosition )`. -/
def getGradientOfPotentialAtMaximum (env : GravityCollaborators)
    (self : SphericalHarmonicsGravityField) (bodyFixedPosition : Vector3d) :
    Except Failure Vector3d :=
  getGradientOfPotential env self bodyFixedPosition self.cosineCoefficients_.rows
    self.sineCoefficients_.cols

/-- The stored coefficient matrices have the shape the maximum degree and order
announce. -/
def HasDeclaredShape (self : SphericalHarmonicsGravityField) : Prop :=
  self.cosineCoefficients_.rows = self.maximumDegree_ + 1 ∧
    self.cosineCoefficients_.cols = self.maximumOrder_ + 1 ∧
    self.sineCoefficients_.rows = self.maximumDegree_ + 1 ∧
    self.sineCoefficients_.cols = self.maximumOrder_ + 1

instance (self : SphericalHarmonicsGravityField) : Decidable self.HasDeclaredShape := by
  unfold HasDeclaredShape; infer_instance

end SphericalHarmonicsGravityField

/-- The objects a program can hold: those the constructor returns, and those a call of
a setter leaves, whether it returns or throws. -/
inductive Constructed : SphericalHarmonicsGravityField → Prop where
  | constructor (gravitationalParameter referenceRadius : Scalar)
      (cosineCoefficients sineCoefficients : MatrixXd) (fixedReferenceFrame : String)
      (updateInertiaTensor : Bool) (field : SphericalHarmonicsGravityField) :
      SphericalHarmonicsGravityField.constructor gravitationalParameter referenceRadius
          cosineCoefficients sineCoefficients fixedReferenceFrame updateInertiaTensor =
        .ok field →
      Constructed field
  | setCosineCoefficients (field : SphericalHarmonicsGravityField)
      (cosineCoefficients : MatrixXd) :
      Constructed field → Constructed (field.setCosineCoefficients cosineCoefficients).1
  | setSineCoefficients (field : SphericalHarmonicsGravityField)
      (sineCoefficients : MatrixXd) :
      Constructed field → Constructed (field.setSineCoefficients sineCoefficients).1

namespace Example

/-- Cosine coefficients up to degree and order 2: the coefficient of degree `n` and
order `m` is `10 * n + m + 1`. -/
def cosineCoefficients : MatrixXd :=
  ⟨3, 3, fun n m => 10 * n + m + 1⟩

/-- Sine coefficients up to degree and order 2: the coefficient of degree `n` and
order `m` is `100 + 10 * n + m`. -/
def sineCoefficients : MatrixXd :=
  ⟨3, 3, fun n m => 100 + 10 * n + m⟩

/-- Sine coefficients with one column less than `cosineCoefficients`. -/
def narrowSineCoefficients : MatrixXd :=
  ⟨3, 2, fun n m => 100 + 10 * n + m⟩

/-- The result of constructing a gravity field of degree and order 2. -/
def gravityConstruction : Except Failure SphericalHarmonicsGravityField :=
  SphericalHarmonicsGravityField.constructor 398600 6378 cosineCoefficients
    sineCoefficients "IAU_Earth" false

/-- The gravity field of degree and order 2, written out. -/
def gravityField : SphericalHarmonicsGravityField where
  gravitationalParameter_ := 398600
  updateInertiaTensor_ := false
  inertiaTensorUpdates := 0
  referenceRadius_ := 6378
  cosineCoefficients_ := cosineCoefficients
  sineCoefficients_ := sineCoefficients
  fixedReferenceFrame_ := "IAU_Earth"
  maximumDegree_ := 2
  maximumOrder_ := 2
  sphericalHarmonicsCache_ := ⟨4, 4⟩

/-- Collaborators that report what they are handed: the potential is
`10 * rows + columns` of the cosine block, the acceleration lists the rows and the
columns of the cosine block and the rows of the sine block. -/
def probe : GravityCollaborators where
  calculateSphericalHarmonicGravitationalPotential :=
    fun _ _ _ cosineBlock _ _ _ _ => 10 * cosineBlock.rows + cosineBlock.cols
  computeGeodesyNormalizedGravitationalAccelerationSum :=
    fun _ _ _ cosineBlock sineBlock _ => ![cosineBlock.rows, cosineBlock.cols, sineBlock.rows]

/-- A position in the body-fixed frame. -/
def position : Vector3d :=
  ![7000, 0, 0]

end Example

/-! ## Sequences of calls on a gravity field -/

/-- A call of one of the two setters of the coefficients. -/
inductive SetterCall where
  | setCosineCoefficients (cosineCoefficients : MatrixXd)
  | setSineCoefficients (sineCoefficients : MatrixXd)

/-- The object after a sequence of setter calls, made one after the other whether the
previous one returned or threw. -/
def SphericalHarmonicsGravityField.afterCalls (self : SphericalHarmonicsGravityField) :
    List SetterCall → SphericalHarmonicsGravityField
  | [] => self
  | SetterCall.setCosineCoefficients cosineCoefficients :: rest =>
    SphericalHarmonicsGravityField.afterCalls
      (self.setCosineCoefficients cosineCoefficients).1 rest
  | SetterCall.setSineCoefficients sineCoefficients :: rest =>
    SphericalHarmonicsGravityField.afterCalls
      (self.setSineCoefficients sineCoefficients).1 rest

namespace Example

/-- The gravity field of degree and order 2 with a function to update the inertia
tensor. -/
def trackedField : SphericalHarmonicsGravityField :=
  { gravityField with updateInertiaTensor_ := true }

/-- New 3 by 3 coefficients: the coefficient of degree `n` and order `m` is `n * m`. -/
def newCoefficients : MatrixXd :=
  ⟨3, 3, fun n m => n * m⟩

end Example

/-! ## Full propagation against the Lambert targeter -/

/-- A six-dimensional vector `Eigen::Vector6d`: a Cartesian state. -/
abbrev Vector6d := Fin 6 → Scalar

/-- The statement `map[ key ] = value` on a `std::map< double, T >`, whose entries
are kept in ascending order of the keys. -/
def mapAssign {β : Type} : List (Time × β) → Time → β → List (Time × β)
  | [], key, value => [(key, value)]
  | (k, v) :: rest, key, value =>
    if key < k then (key, value) :: (k, v) :: rest
    else if key = k then (key, value) :: rest
    else (k, v) :: mapAssign rest key value

/-- The values that the local variables of `propagateLambertTargeterAndFullProblem`
hold when its two loops run; they come from the Lambert targeter, the element
conversions and the dynamics simulator, none of which is among the source files. The
state histories are listed in the iteration order of their `std::map`, and their states
have the six components the assignment to a `Vector6d` requires. -/
structure LambertPropagation where
  initialTime : Scalar
  halvedTimeOfFlight : Scalar
  gravitationalParameterCentralBody : Scalar
  initialStatePropagationCartesianElements : Vector6d
  stateHistoryFullProblemForwardPropagation : List (Time × Vector6d)
  stateHistoryFullProblemBackwardPropagation : List (Time × Vector6d)
  /-- The function `propagateLambertTargeterSolution( initialState,
  finalPropagationTime, gravitationalParameter )`, whose body calls the element
  conversions. -/
  propagateLambertTargeterSolution : Vector6d → Scalar → Scalar → Vector6d

/-- One of the two loops of `propagateLambertTargeterAndFullProblem` over a state
history: for each entry, `lambertTargeterResult[ itr->first ]` receives the Lambert
state of that epoch and `fullProblemResult[ itr->first ]` the propagated state. -/
def fillResults (lambertState : Time → Vector6d) (history : List (Time × Vector6d))
    (results : List (Time × Vector6d) × List (Time × Vector6d)) :
    List (Time × Vector6d) × List (Time × Vector6d) :=
  history.foldl (fun maps entry =>
    (mapAssign maps.1 entry.1 (lambertState entry.1),
      mapAssign maps.2 entry.1 entry.2)) results

/-- The function `propagateLambertTargeterAndFullProblem`, from the two `clear( )`
calls on: the result is the content of `lambertTargeterResult` and of
`fullProblemResult` afterwards. -/
def propagateLambertTargeterAndFullProblem (run : LambertPropagation)
    (_lambertTargeterResult _fullProblemResult : List (Time × Vector6d)) :
    List (Time × Vector6d) × List (Time × Vector6d) :=
  let cleared : List (Time × Vector6d) × List (Time × Vector6d) := ([], [])
  let afterForward := fillResults
    (fun epoch => run.propagateLambertTargeterSolution
      run.initialStatePropagationCartesianElements
      (epoch - (run.initialTime + run.halvedTimeOfFlight))
      run.gravitationalParameterCentralBody)
    run.stateHistoryFullProblemForwardPropagation cleared
  fillResults
    (fun epoch => run.propagateLambertTargeterSolution
      run.initialStatePropagationCartesianElements
      (-(run.initialTime + run.halvedTimeOfFlight) + epoch)
      run.gravitationalParameterCentralBody)
    run.stateHistoryFullProblemBackwardPropagation afterForward

/-- The function `getDifferenceFullPropagationWrtLambertTargeterAtDepartureAndArrival`;
dereferencing `begin( )` or `rbegin( )` of an empty map yields no result. -/
def getDifferenceFullPropagationWrtLambertTargeterAtDepartureAndArrival
    (run : LambertPropagation) : Option (Vector6d × Vector6d) :=
  let results := propagateLambertTargeterAndFullProblem run [] []
  match results.1.head?, results.2.head?, results.1.getLast?, results.2.getLast? with
  | some stateLambertTargeterAtDeparture, some propagatedStateFullProblemAtDeparture,
      some stateLambertTargeterAtArrival, some propagatedStateFullProblemAtArrival =>
    some (stateLambertTargeterAtDeparture.2 - propagatedStateFullProblemAtDeparture.2,
      stateLambertTargeterAtArrival.2 - propagatedStateFullProblemAtArrival.2)
  | _, _, _, _ => none

namespace Example

/-- A transfer from epoch 0 to epoch 10, propagated from epoch 5: the forward history
has the epochs 5 and 10, the backward history the epochs 0 and 5, and the Lambert state
after an elapsed time adds that time to every component of the initial state. -/
def transfer : LambertPropagation where
  initialTime := 0
  halvedTimeOfFlight := 5
  gravitationalParameterCentralBody := 1
  initialStatePropagationCartesianElements := fun _ => 100
  stateHistoryFullProblemForwardPropagation := [(5, fun _ => 50), (10, fun _ => 7)]
  stateHistoryFullProblemBackwardPropagation := [(0, fun _ => 3), (5, fun _ => 50)]
  propagateLambertTargeterSolution := fun initialState elapsed _ =>
    fun i => initialState i + elapsed

end Example

/-! ## The update of the radiation pressure partial -/

/-- What the function members of a `CannonBallRadiationPressurePartial` return when
they are called: the current values held by the radiation pressure interface and the
mass of the body. -/
structure RadiationPressureReadings where
  sourceBodyState : Vector3d
  acceleratedBodyState : Vector3d
  area : Scalar
  radiationPressureCoefficient : Scalar
  radiationPressure : Scalar
  acceleratedBodyMass : Scalar

/-- The operations on `double` in `update` that have no exact counterpart on the
integers: the Euclidean norm of a vector and the division. -/
structure ScalarOperations where
  norm : Vector3d → Scalar
  divide : Scalar → Scalar → Scalar

/-- Component of a vector at an index given as an integer. -/
def Vector3d.component (v : Vector3d) (i : Int) : Scalar :=
  if i = 0 then v 0 else if i = 1 then v 1 else v 2

/-- The position partial computed at lines 163-172 of `update`:
`( Cr * A * P / m ) * ( Identity * rangeInverse - 3.0 * rangeVector *
rangeVector.transpose( ) * rangeInverse / ( range * range ) )`. -/
def positionPartial (ops : ScalarOperations) (readings : RadiationPressureReadings) :
    Int → Int → Scalar :=
  let rangeVector : Vector3d := readings.acceleratedBodyState - readings.sourceBodyState
  let range := ops.norm rangeVector
  let rangeInverse := ops.divide 1 range
  fun i j =>
    ops.divide
        (readings.radiationPressureCoefficient * readings.area * readings.radiationPressure)
        readings.acceleratedBodyMass *
      ((if i = j then 1 else 0) * rangeInverse -
        ops.divide (3 * rangeVector.component i * rangeVector.component j * rangeInverse)
          (range * range))

/-- The member function `update( currentTime )`; the result is the object afterwards.
The argument is a `double`, which holds a time or is not a number. Under the test of
line 160 each of the six function members is called once. -/
def CannonBallRadiationPressurePartial.update (ops : ScalarOperations)
    (readings : RadiationPressureReadings) (self : CannonBallRadiationPressurePartial)
    (currentTime : Option Time) : CannonBallRadiationPressurePartial :=
  if !(doubleEq self.currentTime_ currentTime) then
    { currentPartialWrtPosition_ := positionPartial ops readings
      currentTime_ := currentTime
      evaluations := fun quantity => self.evaluations quantity + 1 }
  else self

namespace Example

/-- Operations of the examples: the sum of the absolute values of the components, which
is the Euclidean norm for the vectors along an axis that the examples use, and the
division of integers. -/
def operations : ScalarOperations where
  norm := fun v => |v 0| + |v 1| + |v 2|
  divide := fun a b => a.tdiv b

/-- The source at the origin, the body at distance 1 on the first axis, area 4,
coefficient 1, pressure 6 and mass 3. -/
def readings : RadiationPressureReadings where
  sourceBodyState := ![0, 0, 0]
  acceleratedBodyState := ![1, 0, 0]
  area := 4
  radiationPressureCoefficient := 1
  radiationPressure := 6
  acceleratedBodyMass := 3

/-- The same as `readings`, after the body has lost a third of its mass. -/
def laterReadings : RadiationPressureReadings where
  sourceBodyState := ![0, 0, 0]
  acceleratedBodyState := ![1, 0, 0]
  area := 4
  radiationPressureCoefficient := 1
  radiationPressure := 6
  acceleratedBodyMass := 2

end Example

/-! ## The aerodynamic angle rotational ephemeris -/

/-- Record of one call made on the `AerodynamicAngleCalculator` (kept to observe the
calls; the class is not among the source files). -/
inductive CalculatorCall where
  | setAerodynamicAngleClosureIsIncomplete
  | update (currentTime : Option Time) (updateBodyOrientation : Bool)
  | resetCurrentTime (currentTime : Option Time)
  deriving DecidableEq, Repr

/-- An object of class `AerodynamicAngleRotationalEphemeris` of
`aeordynamicAngleRotationalEphemeris.h`: its members and the record of the calls made
on its angle calculator. An empty `std::function` is `none`. What the member functions
print is left out. -/
structure AerodynamicAngleRotationalEphemeris where
  aerodynamicAngleFunction_ : Option (Option Time → Vector3d)
  currentBodyAngles_ : Vector3d
  currentTime_ : Option Time
  calculatorCalls : List CalculatorCall

namespace AerodynamicAngleRotationalEphemeris

/-- The constructor; `indeterminate` is the value of the member `currentBodyAngles_`,
which the constructor does not initialise. -/
def constructor (aerodynamicAngleFunction : Option (Option Time → Vector3d))
    (indeterminate : Vector3d) : AerodynamicAngleRotationalEphemeris where
  aerodynamicAngleFunction_ := aerodynamicAngleFunction
  currentBodyAngles_ := indeterminate
  currentTime_ := none
  calculatorCalls := [CalculatorCall.setAerodynamicAngleClosureIsIncomplete]

/-- The member function `updateBodyAngles( currentTime )`; the result is the object
afterwards. -/
def updateBodyAngles (self : AerodynamicAngleRotationalEphemeris)
    (_currentTime : Option Time) : AerodynamicAngleRotationalEphemeris :=
  match self.aerodynamicAngleFunction_ with
  | some aerodynamicAngleFunction =>
    { self with currentBodyAngles_ := aerodynamicAngleFunction self.currentTime_ }
  | none => { self with currentBodyAngles_ := fun _ => 0 }

/-- The member function `resetCurrentTime( currentTime )`; the result is the object
afterwards. -/
def resetCurrentTime (self : AerodynamicAngleRotationalEphemeris)
    (currentTime : Option Time) : AerodynamicAngleRotationalEphemeris :=
  if !(doubleEq currentTime self.currentTime_) then
    if doubleEq currentTime currentTime then
      let updated := updateBodyAngles
        { self with
          currentTime_ := currentTime
          calculatorCalls := self.calculatorCalls ++
            [CalculatorCall.update currentTime false] } currentTime
      { updated with
        calculatorCalls := updated.calculatorCalls ++
          [CalculatorCall.update currentTime true] }
    else
      { self with
        currentTime_ := currentTime
        calculatorCalls := self.calculatorCalls ++ [CalculatorCall.resetCurrentTime none] }
  else self

/-- The member function `getBodyAngles( currentTime )`: the vector returned and the
object afterwards. -/
def getBodyAngles (self : AerodynamicAngleRotationalEphemeris)
    (currentTime : Option Time) : Vector3d × AerodynamicAngleRotationalEphemeris :=
  if !(doubleEq currentTime self.currentTime_) then
    ((self.updateBodyAngles currentTime).currentBodyAngles_,
      self.updateBodyAngles currentTime)
  else (self.currentBodyAngles_, self)

/-- The member function `setAerodynamicAngleFunction( aerodynamicAngleFunction )`. -/
def setAerodynamicAngleFunction (self : AerodynamicAngleRotationalEphemeris)
    (aerodynamicAngleFunction : Option (Option Time → Vector3d)) :
    AerodynamicAngleRotationalEphemeris :=
  { self with aerodynamicAngleFunction_ := aerodynamicAngleFunction }

end AerodynamicAngleRotationalEphemeris

namespace Example

/-- An angle function: the angles at time `t` are `t`, `2 t` and `3 t`, and -1 each
when the time is not a number. -/
def angles : Option Time → Vector3d
  | some t => ![t, 2 * t, 3 * t]
  | none => ![-1, -1, -1]

/-- An ephemeris constructed with the angle function `angles`, after
`resetCurrentTime( 0 )`. -/
def ephemeris : AerodynamicAngleRotationalEphemeris :=
  (AerodynamicAngleRotationalEphemeris.constructor (some angles) ![9, 9, 9]
    ).resetCurrentTime (some 0)

end Example

/-! ## Basic facts about blocks and the filling loops -/

theorem MatrixXd.applyToBlock_some {m m' : MatrixXd} {startRow startCol blockRows blockCols : Int}
    {f : MatrixXd → MatrixXd}
    (h : m.applyToBlock startRow startCol blockRows blockCols f = some m') :
    m.validBlock startRow startCol blockRows blockCols ∧
      m' = m.writeBlock startRow startCol blockRows blockCols
        (f (m.blockView startRow startCol blockRows blockCols)) := by
  unfold MatrixXd.applyToBlock at h
  split at h
  · rename_i hv
    exact ⟨hv, (Option.some.inj h).symm⟩
  · cases h

theorem fills_refl (st : FillState ρ) : Fills st st [] := by
  refine ⟨by simp, rfl, rfl, ?_⟩
  intro i j _
  rfl

theorem fills_trans {st st' st'' : FillState ρ} {c c' : List (ProviderCall ρ)}
    (h : Fills st st' c) (h' : Fills st' st'' c') : Fills st st'' (c ++ c') := by
  obtain ⟨h1, h2, h3, h4⟩ := h
  obtain ⟨h1', h2', h3', h4'⟩ := h'
  refine ⟨by rw [h1', h1, List.append_assoc], h2'.trans h2, h3'.trans h3, ?_⟩
  intro i j hc
  rw [h4' i j (fun x hx => hc x (List.mem_append_right _ hx)),
    h4 i j (fun x hx => hc x (List.mem_append_left _ hx))]

theorem accumulates_refl (partialOf : σ → ρ → Int → Int → Scalar) (objects : PartialPtr → σ)
    (st : FillState ρ) : Accumulates partialOf objects st st [] := by
  intro i j
  simp

theorem accumulates_trans {partialOf : σ → ρ → Int → Int → Scalar} {objects : PartialPtr → σ}
    {st st' st'' : FillState ρ} {c c' : List (ProviderCall ρ)}
    (h : Accumulates partialOf objects st st' c)
    (h' : Accumulates partialOf objects st' st'' c') :
    Accumulates partialOf objects st st'' (c ++ c') := by
  intro i j
  rw [h' i j, h i j, List.map_append, List.sum_append]
  ring

/-- One call of a bound function on its block. -/
theorem applyToBlock_fills (env : Collaborators σ ρ) (objects : PartialPtr → σ)
    (total startRow blockRows : Int) (entry : (Int × Int) × BoundFunction ρ)
    (st : FillState ρ) {filled : MatrixXd}
    (h : st.1.applyToBlock startRow (entry.1.1 - total) blockRows entry.1.2
      (env.getCurrentParameterPartial (objects entry.2.partialObject) entry.2.parameter)
        = some filled) :
    Fills st (filled, st.2 ++ [blockCallOf total startRow blockRows entry])
      [blockCallOf total startRow blockRows entry] := by
  obtain ⟨_, rfl⟩ := MatrixXd.applyToBlock_some h
  refine ⟨rfl, rfl, rfl, ?_⟩
  intro i j hc
  have hn := hc _ (List.mem_singleton.mpr rfl)
  simp only [blockCallOf, ProviderCall.covers] at hn
  simp only [MatrixXd.writeBlock, if_neg hn]

theorem applyToBlock_accumulates (env : Collaborators σ ρ) (objects : PartialPtr → σ)
    {partialOf : σ → ρ → Int → Int → Scalar} (hadd : WritesByAddition env partialOf)
    (total startRow blockRows : Int) (entry : (Int × Int) × BoundFunction ρ)
    (st : FillState ρ) {filled : MatrixXd}
    (h : st.1.applyToBlock startRow (entry.1.1 - total) blockRows entry.1.2
      (env.getCurrentParameterPartial (objects entry.2.partialObject) entry.2.parameter)
        = some filled) :
    Accumulates partialOf objects st
      (filled, st.2 ++ [blockCallOf total startRow blockRows entry])
      [blockCallOf total startRow blockRows entry] := by
  obtain ⟨_, rfl⟩ := MatrixXd.applyToBlock_some h
  intro i j
  simp only [blockCallOf, ProviderCall.contribution, List.map_cons, List.map_nil,
    List.sum_cons, List.sum_nil, add_zero, MatrixXd.writeBlock]
  by_cases hin : MatrixXd.inBlock startRow (entry.1.1 - total) blockRows entry.1.2 i j
  · rw [if_pos hin, if_pos hin]
    have hloc : MatrixXd.inBlock 0 0
        (st.1.blockView startRow (entry.1.1 - total) blockRows entry.1.2).rows
        (st.1.blockView startRow (entry.1.1 - total) blockRows entry.1.2).cols
        (i - startRow) (j - (entry.1.1 - total)) := by
      simp only [MatrixXd.inBlock, MatrixXd.blockView] at hin ⊢
      omega
    rw [hadd _ _ _ _ _ hloc]
    have hloc' : MatrixXd.inBlock 0 0 blockRows entry.1.2
        (i - startRow) (j - (entry.1.1 - total)) := hloc
    simp only [MatrixXd.blockView, if_pos hloc']
    congr 2 <;> omega
  · rw [if_neg hin, if_neg hin]
    simp

theorem invokeFunctionList_fills (env : Collaborators σ ρ) (objects : PartialPtr → σ)
    (total startRow blockRows : Int) :
    ∀ (functionList : FunctionList ρ) (st st' : FillState ρ),
      invokeFunctionList env objects total startRow blockRows functionList st = some st' →
        Fills st st' (functionList.map (blockCallOf total startRow blockRows)) := by
  intro functionList
  induction functionList with
  | nil =>
    intro st st' h
    simp only [invokeFunctionList, Option.some.injEq] at h
    subst h
    exact fills_refl st
  | cons entry rest ih =>
    intro st st' h
    obtain ⟨key, fn⟩ := entry
    simp only [invokeFunctionList] at h
    split at h
    · cases h
    · rename_i filled hfilled
      have h1 := applyToBlock_fills env objects total startRow blockRows (key, fn) st
        hfilled
      have h2 := ih _ _ h
      exact fills_trans h1 h2

theorem invokeFunctionList_accumulates (env : Collaborators σ ρ) (objects : PartialPtr → σ)
    {partialOf : σ → ρ → Int → Int → Scalar} (hadd : WritesByAddition env partialOf)
    (total startRow blockRows : Int) :
    ∀ (functionList : FunctionList ρ) (st st' : FillState ρ),
      invokeFunctionList env objects total startRow blockRows functionList st = some st' →
        Accumulates partialOf objects st st'
          (functionList.map (blockCallOf total startRow blockRows)) := by
  intro functionList
  induction functionList with
  | nil =>
    intro st st' h
    simp only [invokeFunctionList, Option.some.injEq] at h
    subst h
    exact accumulates_refl partialOf objects st
  | cons entry rest ih =>
    intro st st' h
    obtain ⟨key, fn⟩ := entry
    simp only [invokeFunctionList] at h
    split at h
    · cases h
    · rename_i filled hfilled
      have h1 := applyToBlock_accumulates env objects hadd total startRow blockRows
        (key, fn) st hfilled
      have h2 := ih _ _ h
      exact accumulates_trans h1 h2

theorem invokeBodies_fills (env : Collaborators σ ρ) (objects : PartialPtr → σ)
    (total startIndex currentStateSize entriesToSkipPerEntry : Int) :
    ∀ (bodies : List (FunctionList ρ)) (i : Nat) (st st' : FillState ρ),
      invokeBodies env objects total startIndex currentStateSize entriesToSkipPerEntry
          i bodies st = some st' →
        Fills st st' (callsOfBodies total startIndex currentStateSize
          entriesToSkipPerEntry i bodies) := by
  intro bodies
  induction bodies with
  | nil =>
    intro i st st' h
    simp only [invokeBodies, Option.some.injEq] at h
    subst h
    exact fills_refl st
  | cons functionList rest ih =>
    intro i st st' h
    simp only [invokeBodies] at h
    split at h
    · cases h
    · rename_i mid hmid
      exact fills_trans (invokeFunctionList_fills env objects total _ _ _ _ _ hmid)
        (ih _ _ _ h)

theorem invokeBodies_accumulates (env : Collaborators σ ρ) (objects : PartialPtr → σ)
    {partialOf : σ → ρ → Int → Int → Scalar} (hadd : WritesByAddition env partialOf)
    (total startIndex currentStateSize entriesToSkipPerEntry : Int) :
    ∀ (bodies : List (FunctionList ρ)) (i : Nat) (st st' : FillState ρ),
      invokeBodies env objects total startIndex currentStateSize entriesToSkipPerEntry
          i bodies st = some st' →
        Accumulates partialOf objects st st' (callsOfBodies total startIndex
          currentStateSize entriesToSkipPerEntry i bodies) := by
  intro bodies
  induction bodies with
  | nil =>
    intro i st st' h
    simp only [invokeBodies, Option.some.injEq] at h
    subst h
    exact accumulates_refl partialOf objects st
  | cons functionList rest ih =>
    intro i st st' h
    simp only [invokeBodies] at h
    split at h
    · cases h
    · rename_i mid hmid
      exact accumulates_trans
        (invokeFunctionList_accumulates env objects hadd total _ _ _ _ _ hmid) (ih _ _ _ h)

/-- A successful run over the state types found a start index and a non-zero
differential order for each of them. -/
theorem invokeStateTypes_lookup (env : Collaborators σ ρ) (objects : PartialPtr → σ)
    (startIndices : List (IntegratedStateType × Int)) (total : Int) :
    ∀ (types : List (IntegratedStateType × List (FunctionList ρ))) (st st' : FillState ρ),
      invokeStateTypes env objects startIndices total types st = some st' →
        ∀ entry ∈ types, (∃ startIndex, mapAt startIndices entry.1 = some startIndex) ∧
          env.getSingleIntegrationDifferentialEquationOrder entry.1 ≠ 0 := by
  intro types
  induction types with
  | nil => intro st st' _ entry hmem; cases hmem
  | cons head rest ih =>
    intro st st' h entry hmem
    obtain ⟨type, bodies⟩ := head
    simp only [invokeStateTypes] at h
    split at h
    · cases h
    · rename_i startIndex hstart
      split at h
      · cases h
      · rename_i horder
        split at h
        · cases h
        · rcases List.mem_cons.mp hmem with rfl | hin
          · exact ⟨⟨startIndex, hstart⟩, horder⟩
          · exact ih _ _ h entry hin

theorem invokeStateTypes_fills (env : Collaborators σ ρ) (objects : PartialPtr → σ)
    (startIndices : List (IntegratedStateType × Int)) (total : Int) :
    ∀ (types : List (IntegratedStateType × List (FunctionList ρ))) (st st' : FillState ρ),
      invokeStateTypes env objects startIndices total types st = some st' →
        Fills st st' (callsOfStateTypes env startIndices total types) := by
  intro types
  induction types with
  | nil =>
    intro st st' h
    simp only [invokeStateTypes, Option.some.injEq] at h
    subst h
    exact fills_refl st
  | cons head rest ih =>
    intro st st' h
    obtain ⟨type, bodies⟩ := head
    simp only [invokeStateTypes] at h
    split at h
    · cases h
    · rename_i startIndex hstart
      split at h
      · cases h
      · split at h
        · cases h
        · rename_i mid hmid
          simp only [callsOfStateTypes, hstart]
          exact fills_trans (invokeBodies_fills env objects total _ _ _ _ _ _ _ hmid)
            (ih _ _ h)

theorem invokeStateTypes_accumulates (env : Collaborators σ ρ) (objects : PartialPtr → σ)
    {partialOf : σ → ρ → Int → Int → Scalar} (hadd : WritesByAddition env partialOf)
    (startIndices : List (IntegratedStateType × Int)) (total : Int) :
    ∀ (types : List (IntegratedStateType × List (FunctionList ρ))) (st st' : FillState ρ),
      invokeStateTypes env objects startIndices total types st = some st' →
        Accumulates partialOf objects st st'
          (callsOfStateTypes env startIndices total types) := by
  intro types
  induction types with
  | nil =>
    intro st st' h
    simp only [invokeStateTypes, Option.some.injEq] at h
    subst h
    exact accumulates_refl partialOf objects st
  | cons head rest ih =>
    intro st st' h
    obtain ⟨type, bodies⟩ := head
    simp only [invokeStateTypes] at h
    split at h
    · cases h
    · rename_i startIndex hstart
      split at h
      · cases h
      · split at h
        · cases h
        · rename_i mid hmid
          simp only [callsOfStateTypes, hstart]
          exact accumulates_trans
            (invokeBodies_accumulates env objects hadd total _ _ _ _ _ _ _ hmid) (ih _ _ h)

theorem callsOfBodies_mem (total startIndex currentStateSize entriesToSkipPerEntry : Int)
    (c : ProviderCall ρ) :
    ∀ (bodies : List (FunctionList ρ)) (i : Nat),
      c ∈ callsOfBodies total startIndex currentStateSize entriesToSkipPerEntry i bodies ↔
        ∃ (k : Nat) (functionList : FunctionList ρ), bodies[k]? = some functionList ∧
          ∃ entry ∈ functionList,
            c = blockCallOf total
              (startIndex + entriesToSkipPerEntry + currentStateSize * ((i + k : Nat) : Int))
              (currentStateSize - entriesToSkipPerEntry) entry := by
  intro bodies
  induction bodies with
  | nil =>
    intro i
    simp [callsOfBodies]
  | cons functionList rest ih =>
    intro i
    simp only [callsOfBodies, List.mem_append, List.mem_map, ih (i + 1)]
    constructor
    · rintro (⟨entry, hentry, rfl⟩ | ⟨k, fl, hk, entry, hentry, rfl⟩)
      · exact ⟨0, functionList, by simp, entry, hentry, by simp⟩
      · refine ⟨k + 1, fl, by simpa using hk, entry, hentry, ?_⟩
        have : i + 1 + k = i + (k + 1) := by omega
        rw [this]
    · rintro ⟨k, fl, hk, entry, hentry, rfl⟩
      cases k with
      | zero =>
        simp only [List.getElem?_cons_zero, Option.some.injEq] at hk
        subst hk
        exact Or.inl ⟨entry, hentry, by simp⟩
      | succ k =>
        simp only [List.getElem?_cons_succ] at hk
        refine Or.inr ⟨k, fl, hk, entry, hentry, ?_⟩
        have : i + 1 + k = i + (k + 1) := by omega
        rw [this]

theorem callsOfStateTypes_mem (env : Collaborators σ ρ)
    (startIndices : List (IntegratedStateType × Int)) (total : Int) (c : ProviderCall ρ) :
    ∀ (types : List (IntegratedStateType × List (FunctionList ρ))),
      c ∈ callsOfStateTypes env startIndices total types ↔
        ∃ (type : IntegratedStateType) (bodies : List (FunctionList ρ)),
          (type, bodies) ∈ types ∧
          ∃ startIndex, mapAt startIndices type = some startIndex ∧
          ∃ (k : Nat) (functionList : FunctionList ρ), bodies[k]? = some functionList ∧
          ∃ entry ∈ functionList,
            c = blockCallOf total
              (startIndex + (env.getSingleIntegrationSize type -
                  (env.getSingleIntegrationSize type).tdiv
                    (env.getSingleIntegrationDifferentialEquationOrder type)) +
                env.getSingleIntegrationSize type * (k : Int))
              ((env.getSingleIntegrationSize type).tdiv
                (env.getSingleIntegrationDifferentialEquationOrder type)) entry := by
  intro types
  induction types with
  | nil => simp [callsOfStateTypes]
  | cons head rest ih =>
    obtain ⟨type, bodies⟩ := head
    simp only [callsOfStateTypes, List.mem_append, ih, List.mem_cons, Prod.mk.injEq]
    constructor
    · rintro (hhere | ⟨t, b, hmem, hrest⟩)
      · cases hstart : mapAt startIndices type with
        | none => simp [hstart] at hhere
        | some startIndex =>
          simp only [hstart] at hhere
          obtain ⟨k, fl, hk, entry, hentry, rfl⟩ := (callsOfBodies_mem _ _ _ _ _ _ _).mp hhere
          refine ⟨type, bodies, Or.inl ⟨rfl, rfl⟩, startIndex, hstart, k, fl, hk, entry,
            hentry, ?_⟩
          simp only [Nat.zero_add, sub_sub_cancel]
      · exact ⟨t, b, Or.inr hmem, hrest⟩
    · rintro ⟨t, b, (⟨rfl, rfl⟩ | hmem), startIndex, hstart, k, fl, hk, entry, hentry, rfl⟩
      · left
        simp only [hstart]
        refine (callsOfBodies_mem _ _ _ _ _ _ _).mpr ⟨k, fl, hk, entry, hentry, ?_⟩
        simp only [Nat.zero_add, sub_sub_cancel]
      · exact Or.inr ⟨t, b, hmem, startIndex, hstart, k, fl, hk, entry, hentry, rfl⟩

/-- What a successful assembly of the parameter partials leaves: the state is changed in
`variationalParameterMatrix_`, the error stream and the call record only, and the matrix
is filled from zero by the calls of `callsOfStateTypes`. -/
theorem VariationalEquations.assembleParameterPartials_some {env : Collaborators σ ρ}
    {s s' : VariationalEquations σ ρ}
    (h : s.assembleParameterPartials env = some s') :
    (∃ filled messages calls, s' =
        { s with variationalParameterMatrix_ := filled
                 cerr := messages
                 providerCalls := calls }) ∧
      invokeStateTypes env s.partialObjects s.stateTypeStartIndices_
        s.totalDynamicalStateSize_ s.parameterPartialList_
        (s.variationalParameterMatrix_.setZero, s.providerCalls) =
          some (s'.variationalParameterMatrix_, s'.providerCalls) := by
  unfold VariationalEquations.assembleParameterPartials at h
  cases hst : invokeStateTypes env s.partialObjects s.stateTypeStartIndices_
      s.totalDynamicalStateSize_ s.parameterPartialList_
      (s.variationalParameterMatrix_.setZero, s.providerCalls) with
  | none => simp [hst] at h
  | some st =>
    simp only [hst, Option.some.injEq] at h
    subst h
    exact ⟨⟨_, _, _, rfl⟩, rfl⟩

/-! ## Registration of the bound functions -/

theorem multimapInsert_perm (entry : (Int × Int) × BoundFunction ρ) :
    ∀ (functionList : FunctionList ρ),
      (multimapInsert entry functionList).Perm (functionList ++ [entry]) := by
  intro functionList
  induction functionList with
  | nil => exact List.Perm.refl _
  | cons e rest ih =>
    simp only [multimapInsert]
    split
    · exact (List.perm_append_comm :
        ([entry] ++ (e :: rest)).Perm ((e :: rest) ++ [entry]))
    · exact List.Perm.cons e ih

theorem addParameterPartialToList_perm (env : Collaborators σ ρ) (objects : PartialPtr → σ)
    (partialObject : PartialPtr) (sub : Int) :
    ∀ (parameterList : List (Int × ρ)) (st : VariationalEquations.RegisterState ρ),
      (VariationalEquations.addParameterPartialToList env objects partialObject sub
          parameterList st).1.Perm
        (st.1 ++ parameterList.filterMap (registeredEntry env objects sub partialObject)) := by
  intro parameterList
  induction parameterList with
  | nil =>
    intro st
    simp [VariationalEquations.addParameterPartialToList]
  | cons head rest ih =>
    intro st
    obtain ⟨index, parameter⟩ := head
    simp only [VariationalEquations.addParameterPartialToList]
    by_cases hw : env.setParameterPartialUpdateFunction (objects partialObject) parameter = 0
    · rw [if_neg (by simpa using hw)]
      have hnone : registeredEntry env objects sub partialObject (index, parameter) = none := by
        simp [registeredEntry, hw]
      rw [List.filterMap_cons_none hnone]
      exact ih _
    · rw [if_pos hw]
      have hsome : registeredEntry env objects sub partialObject (index, parameter) =
          some ((index - sub,
            env.setParameterPartialUpdateFunction (objects partialObject) parameter),
            ⟨partialObject, parameter⟩) := by
        simp [registeredEntry, hw]
      rw [List.filterMap_cons_some hsome]
      refine (ih _).trans ?_
      have := multimapInsert_perm ((index - sub,
        env.setParameterPartialUpdateFunction (objects partialObject) parameter),
        (⟨partialObject, parameter⟩ : BoundFunction ρ)) st.1
      simpa using List.Perm.append_right _ this

theorem registerProviders_perm (env : Collaborators σ ρ) (objects : PartialPtr → σ)
    (doubles vectors : List (Int × ρ)) (sub : Int) :
    ∀ (providers : List PartialPtr) (st : VariationalEquations.RegisterState ρ),
      (VariationalEquations.registerProviders env objects doubles vectors sub
          providers st).1.Perm
        (st.1 ++ registeredEntries env objects doubles vectors sub providers) := by
  intro providers
  induction providers with
  | nil =>
    intro st
    simp [VariationalEquations.registerProviders, registeredEntries]
  | cons partialObject rest ih =>
    intro st
    simp only [VariationalEquations.registerProviders]
    refine (ih _).trans ?_
    have h1 := addParameterPartialToList_perm env objects partialObject sub doubles st
    have h2 := addParameterPartialToList_perm env objects partialObject sub vectors
      (VariationalEquations.addParameterPartialToList env objects partialObject sub doubles st)
    have h3 := h2.trans (List.Perm.append_right _ h1)
    have h4 : registeredEntries env objects doubles vectors sub (partialObject :: rest) =
        (doubles.filterMap (registeredEntry env objects sub partialObject) ++
          vectors.filterMap (registeredEntry env objects sub partialObject)) ++
          registeredEntries env objects doubles vectors sub rest := by
      simp [registeredEntries, List.filterMap_append]
    rw [h4]
    simpa [List.append_assoc] using List.Perm.append_right _ h3

/-- Every function list built for the bodies of one state type stands at the place of its
body and holds, up to order, the entries registered for the providers of that body. -/
theorem registerBodies_getElem (env : Collaborators σ ρ) (objects : PartialPtr → σ)
    (doubles vectors : List (Int × ρ)) (sub : Int) :
    ∀ (bodies : List (List PartialPtr)) (calls : List (ProviderCall ρ)) (k : Nat)
      (functionList : FunctionList ρ),
      (VariationalEquations.registerBodies env objects doubles vectors sub bodies calls).1[k]?
          = some functionList →
        ∃ providers, bodies[k]? = some providers ∧
          functionList.Perm (registeredEntries env objects doubles vectors sub providers) := by
  intro bodies
  induction bodies with
  | nil =>
    intro calls k functionList h
    simp [VariationalEquations.registerBodies] at h
  | cons providers rest ih =>
    intro calls k functionList h
    simp only [VariationalEquations.registerBodies] at h
    cases k with
    | zero =>
      simp only [List.getElem?_cons_zero, Option.some.injEq] at h
      subst h
      refine ⟨providers, by simp, ?_⟩
      simpa using registerProviders_perm env objects doubles vectors sub providers ([], calls)
    | succ k =>
      simp only [List.getElem?_cons_succ] at h ⊢
      exact ih _ _ _ h

theorem registerStateTypes_mem (env : Collaborators σ ρ) (objects : PartialPtr → σ)
    (doubles vectors : List (Int × ρ)) (sub : Int) :
    ∀ (types : List (IntegratedStateType × List (List PartialPtr)))
      (calls : List (ProviderCall ρ)) (type : IntegratedStateType)
      (functionLists : List (FunctionList ρ)),
      (type, functionLists) ∈
          (VariationalEquations.registerStateTypes env objects doubles vectors sub
            types calls).1 →
        ∃ bodies calls', (type, bodies) ∈ types ∧ functionLists =
          (VariationalEquations.registerBodies env objects doubles vectors sub
            bodies calls').1 := by
  intro types
  induction types with
  | nil =>
    intro calls type functionLists h
    simp [VariationalEquations.registerStateTypes] at h
  | cons head rest ih =>
    intro calls type functionLists h
    obtain ⟨t, bodies⟩ := head
    simp only [VariationalEquations.registerStateTypes, List.mem_cons, Prod.mk.injEq] at h
    rcases h with ⟨rfl, rfl⟩ | h
    · exact ⟨bodies, calls, List.mem_cons_self _ _, rfl⟩
    · obtain ⟨b, c, hb, hc⟩ := ih _ _ _ h
      exact ⟨b, c, List.mem_cons_of_mem _ hb, hc⟩

/-! ## Evaluation of the variational equations -/

theorem VariationalEquations.getBodyInitialStatePartialMatrix_some
    {env : Collaborators σ ρ} {s s' : VariationalEquations σ ρ}
    {composite derivative derivative' : MatrixXd}
    (h : s.getBodyInitialStatePartialMatrix env composite derivative =
      some (s', derivative')) :
    s' = s.setBodyStatePartialMatrix env := by
  unfold VariationalEquations.getBodyInitialStatePartialMatrix at h
  simp only at h
  split at h
  · cases h
  · split at h
    · cases h
    · simp only [Option.some.injEq, Prod.mk.injEq] at h
      exact h.1.symm

theorem VariationalEquations.getParameterPartialMatrix_none
    (env : Collaborators σ ρ) (s : VariationalEquations σ ρ) (derivative : MatrixXd)
    (h : s.totalDynamicalStateSize_ < s.numberOfParameterValues_) :
    s.getParameterPartialMatrix env derivative = none := by
  unfold VariationalEquations.getParameterPartialMatrix
  cases hs : s.assembleParameterPartials env with
  | none => rfl
  | some s' =>
    obtain ⟨⟨filled, messages, calls, rfl⟩, _⟩ :=
      VariationalEquations.assembleParameterPartials_some hs
    simp only [MatrixXd.addAssignBlock, MatrixXd.validBlock]
    rw [if_neg]
    intro hv
    have := hv.1.2.2.2.2.1
    omega

/-- What a successful evaluation leaves of the state: the state partial matrix has been
rebuilt, the parameter partial matrix and the error stream may have changed, and the
calls made on providers are calls of bound functions on blocks. -/
theorem VariationalEquations.evaluateVariationalEquations_some
    {env : Collaborators σ ρ} {s s' : VariationalEquations σ ρ} {time : Time}
    {composite derivative derivative' : MatrixXd}
    (h : s.evaluateVariationalEquations env time composite derivative =
      some (s', derivative')) :
    ∃ filled messages calls,
      s' = { s.setBodyStatePartialMatrix env with
              variationalParameterMatrix_ := filled
              cerr := messages
              providerCalls := s.providerCalls ++ calls } ∧
      ∀ c ∈ calls, ∃ total startRow blockRows entry,
        c = blockCallOf total startRow blockRows entry := by
  unfold VariationalEquations.evaluateVariationalEquations at h
  cases hb : s.getBodyInitialStatePartialMatrix env composite derivative with
  | none => simp [hb] at h
  | some r =>
    obtain ⟨s1, d1⟩ := r
    have hs1 := VariationalEquations.getBodyInitialStatePartialMatrix_some hb
    subst hs1
    simp only [hb] at h
    split at h
    · rename_i hlt
      rw [VariationalEquations.getParameterPartialMatrix_none env _ d1 (by simpa using hlt)] at h
      cases h
    · simp only [Option.some.injEq, Prod.mk.injEq] at h
      refine ⟨s.variationalParameterMatrix_, s.cerr, [], ?_, by simp⟩
      rw [← h.1]
      simp [VariationalEquations.setBodyStatePartialMatrix]

/-- C1 (the code departs from the claim): as soon as there are auxiliary parameters,
that is `numberOfParameterValues_ > totalDynamicalStateSize_`,
`evaluateVariationalEquations` yields no result at all: the block of the derivative to
which B is to be added is requested with `totalDynamicalStateSize_ -
numberOfParameterValues_` columns, a negative number. The claim has the last
`numberOfParameterValues_ - totalDynamicalStateSize_` columns equal to A·S + B. -/
theorem evaluateVariationalEquations_fails_with_parameters (env : Collaborators σ ρ)
    (s : VariationalEquations σ ρ) (time : Time) (composite derivative : MatrixXd)
    (h : s.totalDynamicalStateSize_ < s.numberOfParameterValues_) :
    s.evaluateVariationalEquations env time composite derivative = none := by
  unfold VariationalEquations.evaluateVariationalEquations
  cases hb : s.getBodyInitialStatePartialMatrix env composite derivative with
  | none => rfl
  | some r =>
    obtain ⟨s1, d1⟩ := r
    have hs1 := VariationalEquations.getBodyInitialStatePartialMatrix_some hb
    subst hs1
    have hlt : (s.setBodyStatePartialMatrix env).totalDynamicalStateSize_ <
        (s.setBodyStatePartialMatrix env).numberOfParameterValues_ := h
    simp only [gt_iff_lt, if_pos hlt]
    exact VariationalEquations.getParameterPartialMatrix_none env _ d1 hlt

/-- C1, at the failing input: the engine constructed for one vehicle with a translational
state and one scalar parameter (6 state columns, 7 parameter values), evaluated on the
composite matrix `[Identity | Zero]`, yields no derivative. -/
theorem evaluateVariationalEquations_fails_for_vehicle :
    Example.vehicleEngine.totalDynamicalStateSize_ = 6 ∧
      Example.vehicleEngine.numberOfParameterValues_ = 7 ∧
      Example.vehicleEngine.evaluateVariationalEquations Example.vehicleCollaborators 0
        Example.vehicleComposite Example.vehicleDerivative = none :=
  ⟨by decide, by decide,
    evaluateVariationalEquations_fails_with_parameters _ _ _ _ _ (by decide)⟩

/-- C2 (counterexample): the engine of the body with a mass state holds the partial of
time 0. Evaluated for time 5 it returns the derivative coefficient 0, formed from that
partial, whereas calling `updatePartials( 5 )` first and evaluating then returns 5: the
evaluation did not bring the partials to the requested time. -/
theorem evaluateVariationalEquations_does_not_update :
    (Example.massEngine.evaluateVariationalEquations Example.vehicleCollaborators 5
        Example.massComposite Example.massDerivative).map (fun r => r.2.coeff 0 0) = some 0 ∧
      ((Example.massEngine.updatePartials Example.vehicleCollaborators 5
        ).evaluateVariationalEquations Example.vehicleCollaborators 5
        Example.massComposite Example.massDerivative).map (fun r => r.2.coeff 0 0) = some 5 := by
  constructor <;> decide

/-- C2 (amended): `evaluateVariationalEquations` does not call the update operation and
does not use `time`. Its result is the same for every time, and a successful evaluation
leaves the provider objects and the last update time as they were and records no call
of a provider's `update`: the partials combined are those the providers hold from the
last update. -/
theorem evaluateVariationalEquations_uses_held_partials (env : Collaborators σ ρ)
    (s : VariationalEquations σ ρ) (time time' : Time) (composite derivative : MatrixXd) :
    s.evaluateVariationalEquations env time composite derivative =
        s.evaluateVariationalEquations env time' composite derivative ∧
      ∀ s' derivative',
        s.evaluateVariationalEquations env time composite derivative =
            some (s', derivative') →
          s'.partialObjects = s.partialObjects ∧
          s'.lastUpdateTime_ = s.lastUpdateTime_ ∧
          ∀ partialObject currentTime,
            ProviderCall.update partialObject currentTime ∈ s'.providerCalls →
              ProviderCall.update partialObject currentTime ∈ s.providerCalls := by
  refine ⟨rfl, ?_⟩
  intro s' derivative' h
  obtain ⟨filled, messages, calls, rfl, hcalls⟩ :=
    VariationalEquations.evaluateVariationalEquations_some h
  refine ⟨rfl, rfl, ?_⟩
  intro partialObject currentTime hmem
  rcases List.mem_append.mp hmem with hold | hnew
  · exact hold
  · obtain ⟨total, startRow, blockRows, entry, hc⟩ := hcalls _ hnew
    simp [blockCallOf] at hc

/-- C2 (amended), on the engine of the body with a mass state: the evaluation for time 5
succeeds, equals the evaluation for time 0, and leaves the provider of time 0 in place. -/
theorem evaluateVariationalEquations_uses_held_partials_for_mass :
    (Example.massEngine.evaluateVariationalEquations Example.vehicleCollaborators 5
        Example.massComposite Example.massDerivative).isSome = true ∧
      Example.massEngine.evaluateVariationalEquations Example.vehicleCollaborators 5
          Example.massComposite Example.massDerivative =
        Example.massEngine.evaluateVariationalEquations Example.vehicleCollaborators 0
          Example.massComposite Example.massDerivative :=
  ⟨by decide,
    (evaluateVariationalEquations_uses_held_partials Example.vehicleCollaborators
      Example.massEngine 5 0 Example.massComposite Example.massDerivative).1⟩

/-! ## The update operation -/

theorem VariationalEquations.updatePartials_lastUpdateTime (env : Collaborators σ ρ)
    (s : VariationalEquations σ ρ) (currentTime : Time) :
    (s.updatePartials env currentTime).lastUpdateTime_ = some currentTime := by
  unfold VariationalEquations.updatePartials
  split
  · assumption
  · rfl

theorem VariationalEquations.updatePartials_of_cached (env : Collaborators σ ρ)
    (s : VariationalEquations σ ρ) (currentTime : Time)
    (h : s.lastUpdateTime_ = some currentTime) :
    s.updatePartials env currentTime = s := by
  unfold VariationalEquations.updatePartials
  rw [if_pos h]

/-- C3: the update is idempotent per timestamp. A second `updatePartials( t )` with the
same `t` returns the state unchanged: no provider object and no coefficient of the state
partial matrix changes, and the record of provider calls gains no entry, so no provider
is asked to update a second time. -/
theorem updatePartials_idempotent (env : Collaborators σ ρ)
    (s : VariationalEquations σ ρ) (currentTime : Time) :
    (s.updatePartials env currentTime).updatePartials env currentTime =
        s.updatePartials env currentTime ∧
      ((s.updatePartials env currentTime).updatePartials env currentTime).partialObjects =
        (s.updatePartials env currentTime).partialObjects ∧
      ((s.updatePartials env currentTime).updatePartials env currentTime).variationalMatrix_ =
        (s.updatePartials env currentTime).variationalMatrix_ ∧
      ((s.updatePartials env currentTime).updatePartials env currentTime).providerCalls =
        (s.updatePartials env currentTime).providerCalls := by
  have h : (s.updatePartials env currentTime).updatePartials env currentTime =
      s.updatePartials env currentTime :=
    VariationalEquations.updatePartials_of_cached env _ currentTime
      (VariationalEquations.updatePartials_lastUpdateTime env s currentTime)
  exact ⟨h, by rw [h], by rw [h], by rw [h]⟩

/-- C3, on the engine of the body with a mass state: the first update for time 5 asks the
provider to update once, the second asks nothing more. -/
theorem updatePartials_idempotent_for_mass :
    (Example.massEngine.updatePartials Example.vehicleCollaborators 5).providerCalls.length
        = Example.massEngine.providerCalls.length + 1 ∧
      ((Example.massEngine.updatePartials Example.vehicleCollaborators 5).updatePartials
          Example.vehicleCollaborators 5).providerCalls =
        (Example.massEngine.updatePartials Example.vehicleCollaborators 5).providerCalls :=
  ⟨by decide,
    (updatePartials_idempotent Example.vehicleCollaborators Example.massEngine 5).2.2.2⟩

/-! ## Construction -/

theorem VariationalEquations.accumulateStateSizes_fst (env : Collaborators σ ρ)
    (dynamicalStatesToEstimate : List (IntegratedStateType × List (String × String))) :
    ∀ (types : List (IntegratedStateType × List (List PartialPtr)))
      (acc : Int × List Diagnostic),
      (VariationalEquations.accumulateStateSizes env dynamicalStatesToEstimate types acc).1 =
        acc.1 + (types.map (fun entry =>
          env.getSingleIntegrationSize entry.1 * (entry.2.length : Int))).sum := by
  intro types
  induction types with
  | nil => intro acc; simp [VariationalEquations.accumulateStateSizes]
  | cons head rest ih =>
    intro acc
    obtain ⟨type, bodies⟩ := head
    simp only [VariationalEquations.accumulateStateSizes, ih, List.map_cons, List.sum_cons]
    ring

theorem VariationalEquations.accumulateStateSizes_snd (env : Collaborators σ ρ)
    (dynamicalStatesToEstimate : List (IntegratedStateType × List (String × String))) :
    ∀ (types : List (IntegratedStateType × List (List PartialPtr)))
      (acc : Int × List Diagnostic),
      (VariationalEquations.accumulateStateSizes env dynamicalStatesToEstimate types acc).2 =
        acc.2 ++ consistencyMessages dynamicalStatesToEstimate types := by
  intro types
  induction types with
  | nil =>
    intro acc
    simp [VariationalEquations.accumulateStateSizes, consistencyMessages]
  | cons head rest ih =>
    intro acc
    obtain ⟨type, bodies⟩ := head
    simp only [VariationalEquations.accumulateStateSizes, ih, consistencyMessages]
    cases hm : mapAt dynamicalStatesToEstimate type with
    | none =>
      have : consistencyMessage dynamicalStatesToEstimate (type, bodies) =
          some (Diagnostic.noStateToEstimateOfType type) := by
        simp [consistencyMessage, hm]
      rw [List.filterMap_cons_some this]
      simp
    | some states =>
      by_cases hl : states.length ≠ bodies.length
      · have : consistencyMessage dynamicalStatesToEstimate (type, bodies) =
            some Diagnostic.inputPartialListSizeInconsistent := by
          simp [consistencyMessage, hm, hl]
        rw [List.filterMap_cons_some this]
        simp [hl]
      · have : consistencyMessage dynamicalStatesToEstimate (type, bodies) = none := by
          simp [consistencyMessage, hm, hl]
        rw [List.filterMap_cons_none this]
        simp [hl]

/-- What a successful construction leaves in the members of the engine. -/
theorem VariationalEquations.constructor_some {env : Collaborators σ ρ}
    {stateDerivativePartialList : List (IntegratedStateType × List (List PartialPtr))}
    {parametersToEstimate : EstimatableParameterSet ρ}
    {stateTypeStartIndices : List (IntegratedStateType × Int)}
    {objects : PartialPtr → σ} {cerr : List Diagnostic} {calls : List (ProviderCall ρ)}
    {e : VariationalEquations σ ρ}
    (h : VariationalEquations.constructor env stateDerivativePartialList
      parametersToEstimate stateTypeStartIndices objects cerr calls = some e) :
    e.totalDynamicalStateSize_ = (stateDerivativePartialList.map (fun entry =>
        env.getSingleIntegrationSize entry.1 * (entry.2.length : Int))).sum ∧
      e.numberOfParameterValues_ = parametersToEstimate.singleArcParameterSetSize ∧
      MatrixXd.Zero e.totalDynamicalStateSize_ e.numberOfParameterValues_ =
        some e.currentMatrixDerivative_ ∧
      MatrixXd.Zero e.totalDynamicalStateSize_ e.totalDynamicalStateSize_ =
        some e.variationalMatrix_ ∧
      MatrixXd.Zero e.totalDynamicalStateSize_
        (e.numberOfParameterValues_ - e.totalDynamicalStateSize_) =
          some e.variationalParameterMatrix_ ∧
      e.stateDerivativePartialList_ = stateDerivativePartialList ∧
      e.parameterPartialList_ = (VariationalEquations.setParameterPartialFunctionList env
        objects parametersToEstimate stateDerivativePartialList calls).1 ∧
      e.partialObjects = objects ∧
      e.cerr = cerr ++ consistencyMessages
        parametersToEstimate.listOfInitialDynamicalStateParametersEstimate
        stateDerivativePartialList := by
  unfold VariationalEquations.constructor at h
  simp only [VariationalEquations.accumulateStateSizes_fst,
    VariationalEquations.accumulateStateSizes_snd, zero_add] at h
  split at h
  · cases h
  · split at h
    · cases h
    · split at h
      · cases h
      · split at h
        · cases h
        · split at h
          · cases h
          · split at h
            · cases h
            · simp only [Option.some.injEq] at h
              subst h
              refine ⟨rfl, rfl, ?_, ?_, ?_, rfl, rfl, rfl, rfl⟩ <;> assumption

/-- What a successful construction has called: the set-up of the state partial
functions on the object as allocated, and the set-up of the frame corrections from the
start indices given and no pair, whose results are stored. -/
theorem VariationalEquations.constructor_frames {env : Collaborators σ ρ}
    {stateDerivativePartialList : List (IntegratedStateType × List (List PartialPtr))}
    {parametersToEstimate : EstimatableParameterSet ρ}
    {stateTypeStartIndices : List (IntegratedStateType × Int)}
    {objects : PartialPtr → σ} {cerr : List Diagnostic} {calls : List (ProviderCall ρ)}
    {e : VariationalEquations σ ρ}
    (h : VariationalEquations.constructor env stateDerivativePartialList
      parametersToEstimate stateTypeStartIndices objects cerr calls = some e) :
    ∃ frames, VariationalEquations.setTranslationalStatePartialFrameScalingFunctions env
        parametersToEstimate stateTypeStartIndices [] = some frames ∧
      e.stateTypeStartIndices_ = frames.1 ∧ e.statePartialAdditionIndices_ = frames.2 ∧
      e.dynamicalStatesToEstimate_ =
        parametersToEstimate.listOfInitialDynamicalStateParametersEstimate := by
  unfold VariationalEquations.constructor at h
  simp only at h
  split at h
  · cases h
  · split at h
    · cases h
    · split at h
      · cases h
      · split at h
        · cases h
        · split at h
          · cases h
          · split at h
            · cases h
            · rename_i frames hframes
              simp only [Option.some.injEq] at h
              subst h
              exact ⟨frames, hframes, rfl, rfl, rfl⟩

theorem MatrixXd.Zero_some {rows cols : Int} {m : MatrixXd}
    (h : MatrixXd.Zero rows cols = some m) :
    0 ≤ rows ∧ 0 ≤ cols ∧ m.rows = rows ∧ m.cols = cols := by
  unfold MatrixXd.Zero at h
  split at h
  · rename_i hnn
    simp only [Option.some.injEq] at h
    subst h
    exact ⟨hnn.1, hnn.2, rfl, rfl⟩
  · cases h

/-- C6: after construction `totalDynamicalStateSize_` is the sum, over the state types
of the partial-providers map, of `getSingleIntegrationSize( type )` times the number of
entities listed for the type; with translational states only, of size 6, it is 6 times
the number of bodies. -/
theorem totalDynamicalStateSize_is_sum (env : Collaborators σ ρ)
    (stateDerivativePartialList : List (IntegratedStateType × List (List PartialPtr)))
    (parametersToEstimate : EstimatableParameterSet ρ)
    (stateTypeStartIndices : List (IntegratedStateType × Int))
    (objects : PartialPtr → σ) (cerr : List Diagnostic) (calls : List (ProviderCall ρ))
    (e : VariationalEquations σ ρ)
    (h : VariationalEquations.constructor env stateDerivativePartialList
      parametersToEstimate stateTypeStartIndices objects cerr calls = some e) :
    e.totalDynamicalStateSize_ = (stateDerivativePartialList.map (fun entry =>
        env.getSingleIntegrationSize entry.1 * (entry.2.length : Int))).sum ∧
      ((∀ entry ∈ stateDerivativePartialList,
          entry.1 = IntegratedStateType.transational_state) →
        env.getSingleIntegrationSize IntegratedStateType.transational_state = 6 →
        e.totalDynamicalStateSize_ =
          6 * (stateDerivativePartialList.map (fun entry => (entry.2.length : Int))).sum) := by
  have hsum := (VariationalEquations.constructor_some h).1
  refine ⟨hsum, ?_⟩
  intro honly hsix
  rw [hsum]
  clear hsum h
  induction stateDerivativePartialList with
  | nil => simp
  | cons head rest ih =>
    have hhead := honly head (List.mem_cons_self _ _)
    have hrest := ih (fun entry hmem => honly entry (List.mem_cons_of_mem _ hmem))
    simp only [List.map_cons, List.sum_cons, hrest, hhead, hsix]
    ring

/-- C6, on the vehicle: one body with a translational state gives the size 6. -/
theorem totalDynamicalStateSize_is_sum_for_vehicle :
    Example.vehicleEngine.totalDynamicalStateSize_ = 6 * 1 :=
  ((totalDynamicalStateSize_is_sum Example.vehicleCollaborators
    [(IntegratedStateType.transational_state, [[0]])] Example.vehicleParameters
    [(IntegratedStateType.transational_state, 0)] (fun _ => 0) [] []
    Example.vehicleEngine (Option.some_get _).symm).2 (by simp) rfl).trans (by decide)

/-- C7: for every constructed engine `getNumberOfParameterValues( )` is the size of the
parameter set, which is the number of columns of the derivative of the composite matrix
and of every composite matrix the engine accepts, and it is at least
`totalDynamicalStateSize_`: the B-matrix, allocated with `numberOfParameterValues_ -
totalDynamicalStateSize_` columns, has that non-negative number of columns. -/
theorem numberOfParameterValues_at_least_state_size (env : Collaborators σ ρ)
    (stateDerivativePartialList : List (IntegratedStateType × List (List PartialPtr)))
    (parametersToEstimate : EstimatableParameterSet ρ)
    (stateTypeStartIndices : List (IntegratedStateType × Int))
    (objects : PartialPtr → σ) (cerr : List Diagnostic) (calls : List (ProviderCall ρ))
    (e : VariationalEquations σ ρ)
    (h : VariationalEquations.constructor env stateDerivativePartialList
      parametersToEstimate stateTypeStartIndices objects cerr calls = some e) :
    e.getNumberOfParameterValues = parametersToEstimate.singleArcParameterSetSize ∧
      e.currentMatrixDerivative_.cols = e.getNumberOfParameterValues ∧
      e.totalDynamicalStateSize_ ≤ e.getNumberOfParameterValues ∧
      e.variationalParameterMatrix_.cols =
        e.getNumberOfParameterValues - e.totalDynamicalStateSize_ ∧
      0 ≤ e.variationalParameterMatrix_.cols ∧
      ∀ (composite derivative derivative' : MatrixXd) (e' : VariationalEquations σ ρ),
        e.getBodyInitialStatePartialMatrix env composite derivative =
            some (e', derivative') →
          composite.cols = e.getNumberOfParameterValues := by
  obtain ⟨_, hp, hderivative, _, hB, _⟩ := VariationalEquations.constructor_some h
  obtain ⟨_, _, _, hcols⟩ := MatrixXd.Zero_some hderivative
  obtain ⟨_, hnonneg, _, hBcols⟩ := MatrixXd.Zero_some hB
  refine ⟨hp, hcols, ?_, hBcols, ?_, ?_⟩
  · simp only [VariationalEquations.getNumberOfParameterValues]
    omega
  · rw [hBcols]
    exact hnonneg
  · intro composite derivative derivative' e' hbody
    unfold VariationalEquations.getBodyInitialStatePartialMatrix at hbody
    simp only at hbody
    split at hbody
    · cases hbody
    · rename_i product hproduct
      split at hbody
      · cases hbody
      · rename_i assigned hassigned
        unfold MatrixXd.assignBlock at hassigned
        split at hassigned
        · rename_i hvalid
          unfold MatrixXd.mul at hproduct
          split at hproduct
          · simp only [Option.some.injEq] at hproduct
            subst hproduct
            exact hvalid.2.2
          · cases hproduct
        · cases hassigned

/-- C7, on the vehicle: 7 parameter values, 6 of them state columns, 1 column of B. -/
theorem numberOfParameterValues_at_least_state_size_for_vehicle :
    Example.vehicleEngine.getNumberOfParameterValues = 7 ∧
      Example.vehicleEngine.totalDynamicalStateSize_ ≤
        Example.vehicleEngine.getNumberOfParameterValues ∧
      Example.vehicleEngine.variationalParameterMatrix_.cols = 1 :=
  ⟨(numberOfParameterValues_at_least_state_size Example.vehicleCollaborators
      [(IntegratedStateType.transational_state, [[0]])] Example.vehicleParameters
      [(IntegratedStateType.transational_state, 0)] (fun _ => 0) [] []
      Example.vehicleEngine (Option.some_get _).symm).1,
    (numberOfParameterValues_at_least_state_size Example.vehicleCollaborators
      [(IntegratedStateType.transational_state, [[0]])] Example.vehicleParameters
      [(IntegratedStateType.transational_state, 0)] (fun _ => 0) [] []
      Example.vehicleEngine (Option.some_get _).symm).2.2.1,
    by decide⟩

/-! ## The matrix of parameter partials -/

theorem tdiv_bounds {n k : Int} (hn : 0 ≤ n) (hk : 0 < k) :
    0 ≤ n.tdiv k ∧ n.tdiv k ≤ n := by
  rw [Int.tdiv_eq_ediv hn (le_of_lt hk)]
  exact ⟨Int.ediv_nonneg hn (le_of_lt hk), Int.ediv_le_self _ hn⟩

/-- A successful assembly is a filling of the zero matrix by the calls of
`callsOfStateTypes`. -/
theorem VariationalEquations.assembleParameterPartials_fills {env : Collaborators σ ρ}
    {s s' : VariationalEquations σ ρ}
    (h : s.assembleParameterPartials env = some s') :
    Fills (s.variationalParameterMatrix_.setZero, s.providerCalls)
      (s'.variationalParameterMatrix_, s'.providerCalls)
      (callsOfStateTypes env s.stateTypeStartIndices_ s.totalDynamicalStateSize_
        s.parameterPartialList_) :=
  invokeStateTypes_fills env s.partialObjects s.stateTypeStartIndices_
    s.totalDynamicalStateSize_ s.parameterPartialList_ _ _
    (VariationalEquations.assembleParameterPartials_some h).2

/-- A coefficient that no call of the assembly covers is zero afterwards. -/
theorem VariationalEquations.assembleParameterPartials_zero {env : Collaborators σ ρ}
    {s s' : VariationalEquations σ ρ}
    (h : s.assembleParameterPartials env = some s') (row col : Int)
    (hfree : ∀ c ∈ callsOfStateTypes env s.stateTypeStartIndices_
      s.totalDynamicalStateSize_ s.parameterPartialList_, ¬ c.covers row col) :
    s'.variationalParameterMatrix_.coeff row col = 0 := by
  have hfill := VariationalEquations.assembleParameterPartials_fills h
  rw [hfill.2.2.2 row col hfree]
  rfl

/-- C8: the kinematic rows of B are zero. After the parameter partials have been
assembled, the first `n - n/k` rows of the row block of every entity (`n` the size and
`k` the differential order of its state type) hold zeros only, whatever the registered
providers write, provided sizes are non-negative, orders positive and the row blocks of
the entities do not overlap. -/
theorem kinematic_rows_are_zero (env : Collaborators σ ρ)
    (s s' : VariationalEquations σ ρ)
    (h : s.assembleParameterPartials env = some s')
    (hsize : ∀ entry ∈ s.parameterPartialList_,
      0 ≤ env.getSingleIntegrationSize entry.1 ∧
        0 < env.getSingleIntegrationDifferentialEquationOrder entry.1)
    (hdisjoint : EntityRowBlocksDisjoint env s)
    (type : IntegratedStateType) (bodies : List (FunctionList ρ))
    (hmem : (type, bodies) ∈ s.parameterPartialList_)
    (i : Nat) (hi : i < bodies.length)
    (startIndex : Int) (hstart : mapAt s.stateTypeStartIndices_ type = some startIndex)
    (row col : Int)
    (hfirst : startIndex + env.getSingleIntegrationSize type * i ≤ row)
    (hlast : row < startIndex + env.getSingleIntegrationSize type * i +
      (env.getSingleIntegrationSize type - (env.getSingleIntegrationSize type).tdiv
        (env.getSingleIntegrationDifferentialEquationOrder type))) :
    s'.variationalParameterMatrix_.coeff row col = 0 := by
  apply VariationalEquations.assembleParameterPartials_zero h
  intro c hc hcovers
  obtain ⟨type', bodies', hmem', start', hstart', k, functionList, hk, entry, _, rfl⟩ :=
    (callsOfStateTypes_mem env _ _ c _).mp hc
  simp only [blockCallOf, ProviderCall.covers, MatrixXd.inBlock] at hcovers
  obtain ⟨hlow, hhigh, _, _⟩ := hcovers
  obtain ⟨hk', _⟩ := List.getElem?_eq_some.mp hk
  have hb := tdiv_bounds (hsize _ hmem).1 (hsize _ hmem).2
  have hb' := tdiv_bounds (hsize _ hmem').1 (hsize _ hmem').2
  simp only at hb hb'
  by_cases hsame : (type, i) = (type', k)
  · simp only [Prod.mk.injEq] at hsame
    obtain ⟨rfl, rfl⟩ := hsame
    rw [hstart] at hstart'
    simp only [Option.some.injEq] at hstart'
    subst hstart'
    omega
  · rcases hdisjoint type type' bodies bodies' i k startIndex start' hmem hmem' hi hk'
      hstart hstart' hsame with hlt | hlt <;> omega

/-- C8, on the vehicle: the three position rows of its six rows of B are zero after the
assembly, here row 2. -/
theorem kinematic_rows_are_zero_for_vehicle :
    ((Example.vehicleEngine.assembleParameterPartials Example.vehicleCollaborators).get
      (by decide)).variationalParameterMatrix_.coeff 2 0 = 0 := by
  have hlist : Example.vehicleEngine.parameterPartialList_ =
      [(IntegratedStateType.transational_state, [[((6, 1), ⟨0, 0⟩)]])] := rfl
  refine kinematic_rows_are_zero Example.vehicleCollaborators Example.vehicleEngine _
    (Option.some_get _).symm ?_ ?_ IntegratedStateType.transational_state
    [[((6, 1), ⟨0, 0⟩)]] (by rw [hlist]; exact List.mem_singleton.mpr rfl) 0 (by decide) 0
    (by decide) 2 0 (by decide) (by decide)
  · intro entry hentry
    rw [hlist] at hentry
    obtain rfl := List.mem_singleton.mp hentry
    decide
  · intro typeA typeB bodiesA bodiesB iA iB startA startB hA hB hiA hiB _ _ hne
    rw [hlist] at hA hB
    obtain ⟨rfl, rfl⟩ := Prod.mk.inj (List.mem_singleton.mp hA)
    obtain ⟨rfl, rfl⟩ := Prod.mk.inj (List.mem_singleton.mp hB)
    simp only [List.length_singleton, Nat.lt_one_iff] at hiA hiB
    subst hiA hiB
    exact absurd rfl hne

/-- C9: block placement in B. A successful assembly of the parameter partials calls the
bound functions on blocks of `variationalParameterMatrix_`, and the calls it makes are
exactly these: for each state type with start index `s`, size `n` and order `k`, each
entity `i` of the type and each registered entry with key `(c, w)`, one call on the
block with first row `s + (n - n/k) + n·i`, `n/k` rows, first column
`c - totalDynamicalStateSize_` and `w` columns. -/
theorem blocks_handed_to_providers (env : Collaborators σ ρ)
    (s s' : VariationalEquations σ ρ)
    (h : s.assembleParameterPartials env = some s') :
    ∃ handed, s'.providerCalls = s.providerCalls ++ handed ∧
      ∀ c, c ∈ handed ↔
        ∃ (type : IntegratedStateType) (bodies : List (FunctionList ρ)),
          (type, bodies) ∈ s.parameterPartialList_ ∧
          ∃ startIndex, mapAt s.stateTypeStartIndices_ type = some startIndex ∧
          ∃ (i : Nat) (functionList : FunctionList ρ), bodies[i]? = some functionList ∧
          ∃ entry ∈ functionList,
            c = ProviderCall.getCurrentParameterPartial entry.2.partialObject
              entry.2.parameter
              (startIndex + (env.getSingleIntegrationSize type -
                  (env.getSingleIntegrationSize type).tdiv
                    (env.getSingleIntegrationDifferentialEquationOrder type)) +
                env.getSingleIntegrationSize type * (i : Int))
              (entry.1.1 - s.totalDynamicalStateSize_)
              ((env.getSingleIntegrationSize type).tdiv
                (env.getSingleIntegrationDifferentialEquationOrder type))
              entry.1.2 := by
  refine ⟨callsOfStateTypes env s.stateTypeStartIndices_ s.totalDynamicalStateSize_
    s.parameterPartialList_, (VariationalEquations.assembleParameterPartials_fills h).1, ?_⟩
  intro c
  exact callsOfStateTypes_mem env _ _ c _

/-- C9, on the vehicle (start index 0, size 6, order 2, key (6, 1), 6 state columns):
the provider is handed the block with first row 3, 3 rows, first column 0, 1 column. -/
theorem blocks_handed_to_providers_for_vehicle :
    ∃ handed,
      ((Example.vehicleEngine.assembleParameterPartials Example.vehicleCollaborators).get
          (by decide)).providerCalls = Example.vehicleEngine.providerCalls ++ handed ∧
        ProviderCall.getCurrentParameterPartial 0 0 3 0 3 1 ∈ handed := by
  obtain ⟨handed, hcalls, hmem⟩ := blocks_handed_to_providers Example.vehicleCollaborators
    Example.vehicleEngine _ (Option.some_get _).symm
  refine ⟨handed, hcalls, (hmem _).mpr ?_⟩
  exact ⟨IntegratedStateType.transational_state, [[((6, 1), ⟨0, 0⟩)]],
    List.mem_singleton.mpr rfl, 0, rfl, 0, [((6, 1), ⟨0, 0⟩)], rfl, ((6, 1), ⟨0, 0⟩),
    List.mem_singleton.mpr rfl, rfl⟩

/-- C10: providers of one entity that depend on the same parameter accumulate. Every
provider and parameter with a non-zero reported width has its own entry in the function
list of the entity (the list is a rearrangement of all of them, an entry never replaces
another with the same key); every entry is called once per assembly, entries with the
same key on the same block; and when the providers write by addition, every coefficient
of B ends as the sum of the partials of all calls whose block contains it. -/
theorem providers_accumulate (env : Collaborators σ ρ) :
    (∀ (objects : PartialPtr → σ) (doubles vectors : List (Int × ρ)) (sub : Int)
        (providers : List PartialPtr) (calls : List (ProviderCall ρ)),
        (VariationalEquations.registerProviders env objects doubles vectors sub providers
          ([], calls)).1.Perm (registeredEntries env objects doubles vectors sub providers)) ∧
      (∀ (objects : PartialPtr → σ) (total startRow blockRows : Int)
        (functionList : FunctionList ρ) (st st' : FillState ρ),
        invokeFunctionList env objects total startRow blockRows functionList st = some st' →
          st'.2 = st.2 ++ functionList.map (fun entry =>
            ProviderCall.getCurrentParameterPartial entry.2.partialObject entry.2.parameter
              startRow (entry.1.1 - total) blockRows entry.1.2)) ∧
      (∀ (partialOf : σ → ρ → Int → Int → Scalar), WritesByAddition env partialOf →
        ∀ (s s' : VariationalEquations σ ρ), s.assembleParameterPartials env = some s' →
          ∃ handed, s'.providerCalls = s.providerCalls ++ handed ∧
            ∀ i j, s'.variationalParameterMatrix_.coeff i j =
              (handed.map (fun c => c.contribution partialOf s.partialObjects i j)).sum) := by
  refine ⟨?_, ?_, ?_⟩
  · intro objects doubles vectors sub providers calls
    simpa using registerProviders_perm env objects doubles vectors sub providers ([], calls)
  · intro objects total startRow blockRows functionList st st' h
    exact (invokeFunctionList_fills env objects total startRow blockRows _ _ _ h).1
  · intro partialOf hadd s s' h
    refine ⟨callsOfStateTypes env s.stateTypeStartIndices_ s.totalDynamicalStateSize_
      s.parameterPartialList_, (VariationalEquations.assembleParameterPartials_fills h).1, ?_⟩
    intro i j
    have hacc := invokeStateTypes_accumulates env s.partialObjects hadd
      s.stateTypeStartIndices_ s.totalDynamicalStateSize_ s.parameterPartialList_ _ _
      (VariationalEquations.assembleParameterPartials_some h).2 i j
    simpa [MatrixXd.setZero] using hacc

/-- C10, on the vehicle with two providers for the same parameter: both entries are kept
under the key (6, 1), and the coefficient of B in row 3 is 1 + 2, the sum of what the
two providers add. -/
theorem providers_accumulate_for_shared_parameter :
    Example.sharedEngine.parameterPartialList_ =
        [(IntegratedStateType.transational_state,
          [[((6, 1), ⟨0, 0⟩), ((6, 1), ⟨1, 0⟩)]])] ∧
      (Example.sharedEngine.assembleParameterPartials Example.vehicleCollaborators).map
        (fun e => e.variationalParameterMatrix_.coeff 3 0) = some 3 ∧
      (VariationalEquations.registerProviders Example.vehicleCollaborators
        (fun partialObject => partialObject) [(6, 0)] [] 0 [0, 1] ([], [])).1.Perm
        (registeredEntries Example.vehicleCollaborators (fun partialObject => partialObject)
          [(6, 0)] [] 0 [0, 1]) :=
  ⟨rfl, by decide,
    (providers_accumulate Example.vehicleCollaborators).1 _ _ _ _ _ _⟩

/-- Every entry of the constructed `parameterPartialList_` is the entry registered for
some provider of the body it belongs to and some parameter of the parameter set. -/
theorem VariationalEquations.setParameterPartialFunctionList_entry
    (env : Collaborators σ ρ) (objects : PartialPtr → σ)
    (parametersToEstimate : EstimatableParameterSet ρ)
    (stateDerivativePartialList : List (IntegratedStateType × List (List PartialPtr)))
    (calls : List (ProviderCall ρ))
    {type : IntegratedStateType} {functionLists : List (FunctionList ρ)} {k : Nat}
    {functionList : FunctionList ρ} {entry : (Int × Int) × BoundFunction ρ}
    (hmem : (type, functionLists) ∈ (VariationalEquations.setParameterPartialFunctionList
      env objects parametersToEstimate stateDerivativePartialList calls).1)
    (hk : functionLists[k]? = some functionList) (hentry : entry ∈ functionList) :
    ∃ bodies providers partialObject parameter,
      (type, bodies) ∈ stateDerivativePartialList ∧ providers ∈ bodies ∧
      partialObject ∈ providers ∧
      parameter ∈ parametersToEstimate.doubleParameters ++
        parametersToEstimate.vectorParameters ∧
      registeredEntry env objects
        (parametersToEstimate.initialDynamicalStateParameterSize -
          parametersToEstimate.singleArcInitialDynamicalStateParameterSetSize)
        partialObject parameter = some entry := by
  unfold VariationalEquations.setParameterPartialFunctionList at hmem
  obtain ⟨bodies, calls', hbodies, rfl⟩ := registerStateTypes_mem env objects _ _ _ _ _ _ _ hmem
  obtain ⟨providers, hproviders, hperm⟩ := registerBodies_getElem env objects _ _ _ _ _ _ _ hk
  have hin := hperm.mem_iff.mp hentry
  simp only [registeredEntries, List.mem_flatMap, List.mem_filterMap] at hin
  obtain ⟨partialObject, hobject, parameter, hparameter, hregistered⟩ := hin
  exact ⟨bodies, providers, partialObject, parameter, hbodies,
    List.mem_iff_getElem?.mpr ⟨k, hproviders⟩, hobject, hparameter, hregistered⟩

/-- C4 (counterexample): the only provider reports the width 2 for the scalar parameter
at index 6 and no dependency on the scalar parameter at index 7, so no provider reports
a dependency on the latter. Its column of B, column 1, is nevertheless not zero after
the assembly: the block registered for the first parameter reaches into it. -/
theorem undeclared_column_written_by_wide_block :
    Example.wideCollaborators.setParameterPartialUpdateFunction
        (Example.wideEngine.partialObjects 0) 1 = 0 ∧
      Example.wideEngine.stateDerivativePartialList_ =
        [(IntegratedStateType.transational_state, [[0]])] ∧
      (Example.wideEngine.assembleParameterPartials Example.wideCollaborators).map
        (fun e => e.variationalParameterMatrix_.coeff 3 1) = some 1 := by
  refine ⟨by decide, by decide, by decide⟩

/-- C4 (amended): zero-column invariant. Let the function lists be those made at
construction from the providers map and the parameter set. If no provider of any
entity reported a non-zero width for a parameter, and no block registered for another
parameter reaches into the columns of that parameter (its first column plus the width
reported stays before them, or it starts after them), then after every assembly of the
parameter partials the columns of the parameter in B are zero in every row, whatever
the providers write into the blocks they are handed. -/
theorem undeclared_parameter_columns_are_zero (env : Collaborators σ ρ)
    (objects : PartialPtr → σ) (parametersToEstimate : EstimatableParameterSet ρ)
    (stateDerivativePartialList : List (IntegratedStateType × List (List PartialPtr)))
    (calls : List (ProviderCall ρ)) (s s' : VariationalEquations σ ρ)
    (hlist : s.parameterPartialList_ = (VariationalEquations.setParameterPartialFunctionList
      env objects parametersToEstimate stateDerivativePartialList calls).1)
    (hrun : s.assembleParameterPartials env = some s')
    (index size : Int) (parameter : ρ)
    (hnone : ∀ entry ∈ stateDerivativePartialList, ∀ providers ∈ entry.2,
      ∀ partialObject ∈ providers,
        env.setParameterPartialUpdateFunction (objects partialObject) parameter = 0)
    (hother : ∀ other ∈ parametersToEstimate.doubleParameters ++
        parametersToEstimate.vectorParameters, other.2 ≠ parameter →
      ∀ entry ∈ stateDerivativePartialList, ∀ providers ∈ entry.2,
      ∀ partialObject ∈ providers,
        env.setParameterPartialUpdateFunction (objects partialObject) other.2 ≠ 0 →
          other.1 + env.setParameterPartialUpdateFunction (objects partialObject) other.2
              ≤ index ∨ index + size ≤ other.1)
    (row col : Int)
    (hfirst : index - (parametersToEstimate.initialDynamicalStateParameterSize -
        parametersToEstimate.singleArcInitialDynamicalStateParameterSetSize) -
          s.totalDynamicalStateSize_ ≤ col)
    (hlast : col < index - (parametersToEstimate.initialDynamicalStateParameterSize -
        parametersToEstimate.singleArcInitialDynamicalStateParameterSetSize) -
          s.totalDynamicalStateSize_ + size) :
    s'.variationalParameterMatrix_.coeff row col = 0 := by
  apply VariationalEquations.assembleParameterPartials_zero hrun
  intro c hc hcovers
  obtain ⟨type, functionLists, hmem, startIndex, _, k, functionList, hk, entry, hentry, rfl⟩ :=
    (callsOfStateTypes_mem env _ _ c _).mp hc
  rw [hlist] at hmem
  obtain ⟨bodies, providers, partialObject, other, hbodies, hproviders, hobject, hparameter,
    hregistered⟩ := VariationalEquations.setParameterPartialFunctionList_entry env objects
      parametersToEstimate stateDerivativePartialList calls hmem hk hentry
  simp only [blockCallOf, ProviderCall.covers, MatrixXd.inBlock] at hcovers
  obtain ⟨_, _, hlow, hhigh⟩ := hcovers
  unfold registeredEntry at hregistered
  split at hregistered
  · rename_i hwidth
    simp only [Option.some.injEq] at hregistered
    subst hregistered
    simp only at hlow hhigh
    by_cases hsame : other.2 = parameter
    · rw [hsame] at hwidth
      exact hwidth (hnone _ hbodies providers hproviders partialObject hobject)
    · rcases hother other hparameter hsame _ hbodies providers hproviders partialObject
        hobject hwidth with hlt | hlt <;> omega
  · cases hregistered

/-- C4 (amended), on the vehicle whose provider depends on the parameter at index 6 with
width 1 and not on the parameter at index 7: column 1 of B is zero after the assembly,
here in row 3. -/
theorem undeclared_parameter_columns_are_zero_for_vehicle :
    ((Example.sparseEngine.assembleParameterPartials Example.sparseCollaborators).get
      (by decide)).variationalParameterMatrix_.coeff 3 1 = 0 := by
  refine undeclared_parameter_columns_are_zero Example.sparseCollaborators (fun _ => 0)
    Example.twoParameters [(IntegratedStateType.transational_state, [[0]])] []
    Example.sparseEngine _ rfl (Option.some_get _).symm 7 1 1 ?_ ?_ 3 1 (by decide)
    (by decide)
  · intro entry _ providers _ partialObject _
    rfl
  · intro other hother hne entry _ providers _ partialObject _ _
    have hcases : other = (6, 0) ∨ other = (7, 1) := by
      simpa [Example.twoParameters] using hother
    rcases hcases with rfl | rfl
    · left
      show (6 : Int) + 1 ≤ 7
      decide
    · exact absurd rfl hne

/-! ## The frame corrections -/

theorem mapAt_append_of_none {κ β : Type} [DecidableEq κ] (key : κ) (value : β) :
    ∀ (map : List (κ × β)), mapAt map key = none →
      mapAt (map ++ [(key, value)]) key = some value := by
  intro map
  induction map with
  | nil => intro _; simp [mapAt]
  | cons head rest ih =>
    intro h
    obtain ⟨k, v⟩ := head
    simp only [mapAt, List.cons_append] at h ⊢
    split at h
    · cases h
    · rename_i hne
      rw [if_neg hne]
      exact ih h

/-- Indexing a map twice with the same key gives the same value, and the second
indexing leaves the map as the first left it. -/
theorem mapIndex_stable (map : List (IntegratedStateType × Int))
    (key : IntegratedStateType) :
    VariationalEquations.mapIndex (VariationalEquations.mapIndex map key).2 key =
      VariationalEquations.mapIndex map key := by
  unfold VariationalEquations.mapIndex
  cases h : mapAt map key with
  | none => simp [mapAt_append_of_none key (0 : Int) map h]
  | some value => simp [h]

theorem matchingPairs_mem (start size : Int) (a : Nat) (central : String)
    (p : Int × Int) :
    ∀ (bodies : List String) (j : Nat),
      p ∈ matchingPairs start size a central j bodies ↔
        ∃ k : Nat, bodies[k]? = some central ∧
          p = (start + a * size, start + ((j + k : Nat) : Int) * size) := by
  intro bodies
  induction bodies with
  | nil => intro j; simp [matchingPairs]
  | cons body rest ih =>
    intro j
    simp only [matchingPairs, List.mem_append, ih (j + 1)]
    constructor
    · rintro (hhead | ⟨k, hk, rfl⟩)
      · by_cases hc : central = body
        · rw [if_pos hc, List.mem_singleton] at hhead
          exact ⟨0, by simp [hc], by simpa using hhead⟩
        · rw [if_neg hc] at hhead
          cases hhead
      · refine ⟨k + 1, by simpa using hk, ?_⟩
        have : j + 1 + k = j + (k + 1) := by omega
        rw [this]
    · rintro ⟨k, hk, rfl⟩
      cases k with
      | zero =>
        simp only [List.getElem?_cons_zero, Option.some.injEq] at hk
        left
        rw [if_pos hk.symm]
        simp
      | succ k =>
        simp only [List.getElem?_cons_succ] at hk
        right
        refine ⟨k, hk, ?_⟩
        have : j + 1 + k = j + (k + 1) := by omega
        rw [this]

theorem matchingPairs_nodup (start size : Int) (hsize : size ≠ 0) (a : Nat)
    (central : String) :
    ∀ (bodies : List String) (j : Nat),
      (matchingPairs start size a central j bodies).Nodup := by
  intro bodies
  induction bodies with
  | nil => intro j; simp [matchingPairs]
  | cons body rest ih =>
    intro j
    simp only [matchingPairs]
    by_cases hc : central = body
    · rw [if_pos hc]
      simp only [List.singleton_append, List.nodup_cons]
      refine ⟨?_, ih (j + 1)⟩
      intro hmem
      obtain ⟨k, _, hk⟩ := (matchingPairs_mem start size a central _ rest (j + 1)).mp hmem
      simp only [Prod.mk.injEq, add_right_inj, true_and] at hk
      have h2 : ((j : Int) - ((j + 1 + k : Nat) : Int)) * size = 0 := by
        rw [sub_mul, hk]; ring
      rcases mul_eq_zero.mp h2 with h3 | h3
      · push_cast at h3
        omega
      · exact hsize h3
    · rw [if_neg hc]
      simpa using ih (j + 1)

/-- The inner loop for one body of the update order: it completes when the body has a
central body on record, appends the matching pairs, and leaves the translational start
index as it was. -/
theorem addPartialAdditionIndices_spec (env : Collaborators σ ρ)
    (centralBodies : List String) (a : Nat) (central : String)
    (hcentral : centralBodies[a]? = some central) (start : Int) :
    ∀ (bodies : List String) (j : Nat)
      (st : List (IntegratedStateType × Int) × List (Int × Int)),
      (VariationalEquations.mapIndex st.1 IntegratedStateType.transational_state).1 = start →
        ∃ map', VariationalEquations.addPartialAdditionIndices env centralBodies a j bodies st =
            some (map', st.2 ++ matchingPairs start
              (env.getSingleIntegrationSize IntegratedStateType.transational_state)
              a central j bodies) ∧
          (VariationalEquations.mapIndex map' IntegratedStateType.transational_state).1 =
            start := by
  intro bodies
  induction bodies with
  | nil =>
    intro j st hst
    exact ⟨st.1, by simp [VariationalEquations.addPartialAdditionIndices, matchingPairs], hst⟩
  | cons body rest ih =>
    intro j st hst
    simp only [VariationalEquations.addPartialAdditionIndices, List.get?_eq_getElem?,
      hcentral, matchingPairs]
    by_cases hc : central = body
    · rw [if_pos hc, if_pos hc]
      have hstable := mapIndex_stable st.1 IntegratedStateType.transational_state
      obtain ⟨map', hrun, hmap'⟩ := ih (j + 1)
        ((VariationalEquations.mapIndex (VariationalEquations.mapIndex st.1
            IntegratedStateType.transational_state).2
            IntegratedStateType.transational_state).2,
          st.2 ++ [((VariationalEquations.mapIndex st.1
              IntegratedStateType.transational_state).1 + a *
              env.getSingleIntegrationSize IntegratedStateType.transational_state,
            (VariationalEquations.mapIndex (VariationalEquations.mapIndex st.1
              IntegratedStateType.transational_state).2
              IntegratedStateType.transational_state).1 + j *
              env.getSingleIntegrationSize IntegratedStateType.transational_state)])
        (by rw [hstable, hstable]; exact hst)
      refine ⟨map', ?_, hmap'⟩
      rw [hrun]
      simp only [hstable, hst, List.append_assoc]
    · rw [if_neg hc, if_neg hc]
      obtain ⟨map', hrun, hmap'⟩ := ih (j + 1) st hst
      exact ⟨map', by simpa using hrun, hmap'⟩

/-- The outer loop over the bodies of the (reversed) update order. -/
theorem addPartialAdditionIndicesInOrder_spec (env : Collaborators σ ρ)
    (propagatedBodies centralBodies : List String) (start : Int) :
    ∀ (names : List String) (st : List (IntegratedStateType × Int) × List (Int × Int)),
      (VariationalEquations.mapIndex st.1 IntegratedStateType.transational_state).1 = start →
      (∀ name ∈ names, ∃ central,
        centralBodies[propagatedBodies.indexOf name]? = some central) →
        ∃ map', VariationalEquations.addPartialAdditionIndicesInOrder env propagatedBodies
            centralBodies names st =
            some (map', st.2 ++ names.flatMap (pairsOfBody start
              (env.getSingleIntegrationSize IntegratedStateType.transational_state)
              propagatedBodies centralBodies)) ∧
          (VariationalEquations.mapIndex map' IntegratedStateType.transational_state).1 =
            start := by
  intro names
  induction names with
  | nil =>
    intro st hst _
    exact ⟨st.1, by simp [VariationalEquations.addPartialAdditionIndicesInOrder], hst⟩
  | cons name rest ih =>
    intro st hst hall
    obtain ⟨central, hcentral⟩ := hall name (List.mem_cons_self _ _)
    obtain ⟨mid, hmid, hmidStart⟩ := addPartialAdditionIndices_spec env centralBodies
      (propagatedBodies.indexOf name) central hcentral start propagatedBodies 0 st hst
    obtain ⟨map', hrun, hmap'⟩ := ih
      (mid, st.2 ++ matchingPairs start
        (env.getSingleIntegrationSize IntegratedStateType.transational_state)
        (propagatedBodies.indexOf name) central 0 propagatedBodies) hmidStart
      (fun n hn => hall n (List.mem_cons_of_mem _ hn))
    refine ⟨map', ?_, hmap'⟩
    simp only [VariationalEquations.addPartialAdditionIndicesInOrder, hmid, hrun,
      List.flatMap_cons, pairsOfBody, hcentral, List.append_assoc]

theorem collectPropagatedBodies_length :
    ∀ (parameters : List InitialStateParameter) (acc result : List String × List String),
      VariationalEquations.collectPropagatedBodies parameters acc = some result →
      acc.1.length = acc.2.length → result.1.length = result.2.length := by
  intro parameters
  induction parameters with
  | nil =>
    intro acc result h hacc
    simp only [VariationalEquations.collectPropagatedBodies, Option.some.injEq] at h
    subst h
    exact hacc
  | cons parameter rest ih =>
    intro acc result h hacc
    simp only [VariationalEquations.collectPropagatedBodies] at h
    split at h
    · split at h
      · cases h
      · exact ih _ _ h (by simp [hacc])
    · exact ih _ _ h hacc

/-- The function `setTranslationalStatePartialFrameScalingFunctions` completes whenever
the bodies have been collected and the update order found holds propagated bodies only;
the pairs it records are those of the bodies of the update order, last body first. -/
theorem VariationalEquations.setTranslationalStatePartialFrameScalingFunctions_spec
    (env : Collaborators σ ρ) (parametersToEstimate : EstimatableParameterSet ρ)
    (stateTypeStartIndices : List (IntegratedStateType × Int))
    (existing : List (Int × Int))
    (propagatedBodies centralBodies updateOrder : List String)
    (hcollect : VariationalEquations.collectPropagatedBodies
      parametersToEstimate.estimatedInitialStateParameters ([], []) =
        some (propagatedBodies, centralBodies))
    (horder : env.determineEphemerisUpdateorder propagatedBodies centralBodies
      centralBodies = some updateOrder)
    (hmembers : ∀ name ∈ updateOrder, name ∈ propagatedBodies) :
    ∃ map', VariationalEquations.setTranslationalStatePartialFrameScalingFunctions env
        parametersToEstimate stateTypeStartIndices existing =
        some (map', existing ++ updateOrder.reverse.flatMap (pairsOfBody
          (VariationalEquations.mapIndex stateTypeStartIndices
            IntegratedStateType.transational_state).1
          (env.getSingleIntegrationSize IntegratedStateType.transational_state)
          propagatedBodies centralBodies)) := by
  have hlength := collectPropagatedBodies_length _ _ _ hcollect rfl
  simp only at hlength
  obtain ⟨map', hrun, _⟩ := addPartialAdditionIndicesInOrder_spec env propagatedBodies
    centralBodies (VariationalEquations.mapIndex stateTypeStartIndices
      IntegratedStateType.transational_state).1 updateOrder.reverse
    (stateTypeStartIndices, existing) rfl (by
      intro name hname
      have hin := hmembers name (List.mem_reverse.mp hname)
      have hlt : propagatedBodies.indexOf name < centralBodies.length := by
        rw [← hlength]
        exact List.indexOf_lt_length.mpr hin
      exact ⟨_, List.getElem?_eq_getElem hlt⟩)
  refine ⟨map', ?_⟩
  unfold VariationalEquations.setTranslationalStatePartialFrameScalingFunctions
  simp only [hcollect, horder]
  exact hrun

theorem pairsOfBody_mem (start size : Int) (propagatedBodies centralBodies : List String)
    (name : String) (p : Int × Int) :
    p ∈ pairsOfBody start size propagatedBodies centralBodies name ↔
      ∃ (central : String) (k : Nat),
        centralBodies[propagatedBodies.indexOf name]? = some central ∧
        propagatedBodies[k]? = some central ∧
        p = (start + (propagatedBodies.indexOf name : Int) * size, start + (k : Int) * size) := by
  unfold pairsOfBody
  cases hc : centralBodies[propagatedBodies.indexOf name]? with
  | none => simp
  | some central =>
    simp only [matchingPairs_mem, Nat.zero_add, Option.some.injEq]
    constructor
    · rintro ⟨k, hk, rfl⟩
      exact ⟨central, k, rfl, hk, rfl⟩
    · rintro ⟨c, k, rfl, hk, rfl⟩
      exact ⟨k, hk, rfl⟩

/-- The pairs recorded for the bodies of a list of distinct names are distinct. -/
theorem pairsOfBody_flatMap_nodup (start size : Int) (hsize : size ≠ 0)
    (propagatedBodies centralBodies : List String)
    (hlength : propagatedBodies.length = centralBodies.length)
    (names : List String) (hnames : names.Nodup) :
    (names.flatMap (pairsOfBody start size propagatedBodies centralBodies)).Nodup := by
  rw [List.nodup_flatMap]
  constructor
  · intro name _
    unfold pairsOfBody
    split
    · exact List.nodup_nil
    · exact matchingPairs_nodup start size hsize _ _ _ _
  · refine List.Pairwise.imp ?_ hnames
    intro x y hxy p hpx hpy
    obtain ⟨cx, kx, hcx, _, rfl⟩ := (pairsOfBody_mem _ _ _ _ _ _).mp hpx
    obtain ⟨cy, ky, hcy, _, hp⟩ := (pairsOfBody_mem _ _ _ _ _ _).mp hpy
    simp only [Prod.mk.injEq, add_right_inj] at hp
    have hindex : propagatedBodies.indexOf x = propagatedBodies.indexOf y := by
      have h1 := mul_right_cancel₀ hsize hp.1
      exact_mod_cast h1
    have hx : propagatedBodies.indexOf x < propagatedBodies.length := by
      rw [hlength]
      exact (List.getElem?_eq_some.mp hcx).1
    have hy : propagatedBodies.indexOf y < propagatedBodies.length := by
      rw [hlength]
      exact (List.getElem?_eq_some.mp hcy).1
    have ex := List.getElem_indexOf hx
    have ey := List.getElem_indexOf hy
    apply hxy
    rw [← ex, ← ey]
    simp only [hindex]

/-- The pairs that the set-up of the frame corrections builds from the empty list. With
distinct names of the propagated bodies, an update order that is a rearrangement of them
and a translational state of size 6, the set-up completes, and the list of pairs holds
no pair twice and holds exactly the pairs `(s + 6·a, s + 6·b)` for which the central
body of the body at position `a` is the propagated body at position `b`. -/
theorem VariationalEquations.setTranslationalStatePartialFrameScalingFunctions_pairs
    (env : Collaborators σ ρ)
    (parametersToEstimate : EstimatableParameterSet ρ)
    (stateTypeStartIndices : List (IntegratedStateType × Int))
    (propagatedBodies centralBodies updateOrder : List String)
    (hcollect : VariationalEquations.collectPropagatedBodies
      parametersToEstimate.estimatedInitialStateParameters ([], []) =
        some (propagatedBodies, centralBodies))
    (horder : env.determineEphemerisUpdateorder propagatedBodies centralBodies
      centralBodies = some updateOrder)
    (hperm : updateOrder.Perm propagatedBodies)
    (hdistinct : propagatedBodies.Nodup)
    (hsize : env.getSingleIntegrationSize IntegratedStateType.transational_state = 6) :
    ∃ frames, VariationalEquations.setTranslationalStatePartialFrameScalingFunctions env
        parametersToEstimate stateTypeStartIndices [] = some frames ∧
      frames.2.Nodup ∧
      ∀ p, p ∈ frames.2 ↔
        ∃ (a b : Nat) (referenced : String),
          centralBodies[a]? = some referenced ∧ propagatedBodies[b]? = some referenced ∧
          p = ((VariationalEquations.mapIndex stateTypeStartIndices
                IntegratedStateType.transational_state).1 + 6 * (a : Int),
              (VariationalEquations.mapIndex stateTypeStartIndices
                IntegratedStateType.transational_state).1 + 6 * (b : Int)) := by
  have hlength := collectPropagatedBodies_length _ _ _ hcollect rfl
  simp only at hlength
  obtain ⟨map', hrun⟩ :=
    VariationalEquations.setTranslationalStatePartialFrameScalingFunctions_spec env
      parametersToEstimate stateTypeStartIndices [] propagatedBodies centralBodies
      updateOrder hcollect horder (fun name hname => hperm.mem_iff.mp hname)
  refine ⟨_, hrun, ?_, ?_⟩
  · simp only [List.nil_append, hsize]
    exact pairsOfBody_flatMap_nodup _ 6 (by decide) _ _ hlength _
      (List.nodup_reverse.mpr (hperm.nodup_iff.mpr hdistinct))
  · intro p
    simp only [List.nil_append, hsize, List.mem_flatMap, List.mem_reverse, pairsOfBody_mem]
    constructor
    · rintro ⟨name, _, central, k, hcentral, hk, rfl⟩
      exact ⟨_, k, central, hcentral, hk, by simp only [mul_comm]⟩
    · rintro ⟨a, b, referenced, ha, hb, rfl⟩
      have halt : a < propagatedBodies.length := by
        rw [hlength]
        exact (List.getElem?_eq_some.mp ha).1
      have hindex := List.indexOf_getElem hdistinct a halt
      refine ⟨propagatedBodies[a], hperm.mem_iff.mpr (List.getElem_mem _), referenced, b,
        ?_, hb, ?_⟩
      · rw [hindex]
        exact ha
      · rw [hindex]
        simp only [mul_comm]

/-- C11: the index pairs of the central-body chain correction. In an engine that the
constructor returns, with distinct names of the propagated bodies, an update order that
is a rearrangement of them and a translational state of size 6, the member
`statePartialAdditionIndices_` holds no pair twice and holds exactly the pairs
`(s + 6·a, s + 6·b)` for which the central body of the body at position `a` is the
propagated body at position `b`; `s` is the translational start index given to the
constructor and the positions are those among the initial translational states of the
parameter set. For a body whose central body is not propagated it holds no pair. -/
theorem chain_correction_pairs (env : Collaborators σ ρ)
    (stateDerivativePartialList : List (IntegratedStateType × List (List PartialPtr)))
    (parametersToEstimate : EstimatableParameterSet ρ)
    (stateTypeStartIndices : List (IntegratedStateType × Int))
    (objects : PartialPtr → σ) (cerr : List Diagnostic) (calls : List (ProviderCall ρ))
    (e : VariationalEquations σ ρ)
    (hconstructed : VariationalEquations.constructor env stateDerivativePartialList
      parametersToEstimate stateTypeStartIndices objects cerr calls = some e)
    (propagatedBodies centralBodies updateOrder : List String)
    (hcollect : VariationalEquations.collectPropagatedBodies
      parametersToEstimate.estimatedInitialStateParameters ([], []) =
        some (propagatedBodies, centralBodies))
    (horder : env.determineEphemerisUpdateorder propagatedBodies centralBodies
      centralBodies = some updateOrder)
    (hperm : updateOrder.Perm propagatedBodies)
    (hdistinct : propagatedBodies.Nodup)
    (hsize : env.getSingleIntegrationSize IntegratedStateType.transational_state = 6) :
    e.statePartialAdditionIndices_.Nodup ∧
      (∀ p, p ∈ e.statePartialAdditionIndices_ ↔
        ∃ (a b : Nat) (referenced : String),
          centralBodies[a]? = some referenced ∧ propagatedBodies[b]? = some referenced ∧
          p = ((VariationalEquations.mapIndex stateTypeStartIndices
                IntegratedStateType.transational_state).1 + 6 * (a : Int),
              (VariationalEquations.mapIndex stateTypeStartIndices
                IntegratedStateType.transational_state).1 + 6 * (b : Int))) ∧
      ∀ (a : Nat) (central : String), centralBodies[a]? = some central →
        central ∉ propagatedBodies →
        ∀ p ∈ e.statePartialAdditionIndices_,
          p.1 ≠ (VariationalEquations.mapIndex stateTypeStartIndices
            IntegratedStateType.transational_state).1 + 6 * (a : Int) := by
  obtain ⟨frames, hrun, hnodup, hmem⟩ :=
    VariationalEquations.setTranslationalStatePartialFrameScalingFunctions_pairs env
      parametersToEstimate stateTypeStartIndices propagatedBodies centralBodies updateOrder
      hcollect horder hperm hdistinct hsize
  obtain ⟨built, hbuilt, _, hpairs, _⟩ := VariationalEquations.constructor_frames hconstructed
  rw [hrun] at hbuilt
  obtain rfl := Option.some.inj hbuilt
  rw [hpairs]
  refine ⟨hnodup, hmem, ?_⟩
  intro a central hcentral hfree p hp hfirst
  obtain ⟨a', b, referenced, ha', hb, rfl⟩ := (hmem p).mp hp
  simp only at hfirst
  have haa : a' = a := by omega
  subst haa
  rw [hcentral] at ha'
  obtain rfl := Option.some.inj ha'
  exact hfree (List.mem_iff_getElem?.mpr ⟨b, hb⟩)

/-- C11, on the engine constructed for the three bodies C, B, A (positions 0, 1, 2,
start index 0): its member `statePartialAdditionIndices_` holds the pair (12, 6) for A
relative to B and the pair (6, 0) for B relative to C, no pair twice, and no pair for C,
which is defined relative to the Sun. -/
theorem chain_correction_pairs_for_chain :
    ∃ e, Example.chainConstruction = some e ∧
      ((12, 6) : Int × Int) ∈ e.statePartialAdditionIndices_ ∧
      ((6, 0) : Int × Int) ∈ e.statePartialAdditionIndices_ ∧
      e.statePartialAdditionIndices_.Nodup ∧
      ∀ p ∈ e.statePartialAdditionIndices_, p.1 ≠ 0 := by
  obtain ⟨e, he⟩ := Option.isSome_iff_exists.mp
    (by decide : Example.chainConstruction.isSome = true)
  obtain ⟨hnodup, hmem, hnone⟩ := chain_correction_pairs Example.vehicleCollaborators
    [(IntegratedStateType.transational_state, [[], [], []])] Example.chainParameters
    [(IntegratedStateType.transational_state, 0)] (fun _ => 0) [] [] e he
    ["C", "B", "A"] ["Sun", "C", "B"] ["C", "B", "A"] rfl rfl (List.Perm.refl _)
    (by decide) rfl
  exact ⟨e, he, (hmem _).mpr ⟨2, 1, "B", rfl, rfl, rfl⟩,
    (hmem _).mpr ⟨1, 0, "C", rfl, rfl, rfl⟩, hnodup,
    fun p hp => hnone 0 "Sun" rfl (by decide) p hp⟩

/-- C12 (counterexample): for the bodies A relative to B and B relative to C, with the
update order C, B, A that lists every referenced body first, the pairs recorded at
construction are (rows of A, rows of B) = (12, 6) and then (rows of B, rows of C) =
(6, 0): the pair of B and C does not precede the pair of A and B, it follows it. -/
theorem pair_of_referenced_body_comes_second :
    Example.chainConstruction.map (fun e => e.statePartialAdditionIndices_) =
        some [(12, 6), (6, 0)] ∧
      Example.chainConstruction.map (fun e =>
        (e.statePartialAdditionIndices_.indexOf (6, 0),
          e.statePartialAdditionIndices_.indexOf (12, 6))) = some (1, 0) := by
  constructor <;> decide

/-- C12 (amended): the pairs are recorded in the reverse of the update order. When the
update order lists the body B before the body A, A is defined relative to B and B
relative to the propagated body C, the pair (rows of A, rows of B) precedes the pair
(rows of B, rows of C) in the list of pairs built: a body is handled before the body it
is defined relative to. -/
theorem dependent_pair_recorded_first (env : Collaborators σ ρ)
    (parametersToEstimate : EstimatableParameterSet ρ)
    (stateTypeStartIndices : List (IntegratedStateType × Int))
    (propagatedBodies centralBodies updateOrder : List String)
    (hcollect : VariationalEquations.collectPropagatedBodies
      parametersToEstimate.estimatedInitialStateParameters ([], []) =
        some (propagatedBodies, centralBodies))
    (horder : env.determineEphemerisUpdateorder propagatedBodies centralBodies
      centralBodies = some updateOrder)
    (hmembers : ∀ name ∈ updateOrder, name ∈ propagatedBodies)
    (bodyA bodyB bodyC : String) (before between after : List String)
    (hlisted : updateOrder = before ++ bodyB :: (between ++ bodyA :: after))
    (hA : centralBodies[propagatedBodies.indexOf bodyA]? = some bodyB)
    (hB : centralBodies[propagatedBodies.indexOf bodyB]? = some bodyC)
    (hC : bodyC ∈ propagatedBodies) :
    ∃ frames, VariationalEquations.setTranslationalStatePartialFrameScalingFunctions env
        parametersToEstimate stateTypeStartIndices [] = some frames ∧
      ∃ first middle last, frames.2 =
        first ++
          ((VariationalEquations.mapIndex stateTypeStartIndices
                IntegratedStateType.transational_state).1 +
              (propagatedBodies.indexOf bodyA : Int) *
                env.getSingleIntegrationSize IntegratedStateType.transational_state,
            (VariationalEquations.mapIndex stateTypeStartIndices
                IntegratedStateType.transational_state).1 +
              (propagatedBodies.indexOf bodyB : Int) *
                env.getSingleIntegrationSize IntegratedStateType.transational_state) ::
          (middle ++
            ((VariationalEquations.mapIndex stateTypeStartIndices
                  IntegratedStateType.transational_state).1 +
                (propagatedBodies.indexOf bodyB : Int) *
                  env.getSingleIntegrationSize IntegratedStateType.transational_state,
              (VariationalEquations.mapIndex stateTypeStartIndices
                  IntegratedStateType.transational_state).1 +
                (propagatedBodies.indexOf bodyC : Int) *
                  env.getSingleIntegrationSize IntegratedStateType.transational_state) ::
            last) := by
  obtain ⟨map', hrun⟩ :=
    VariationalEquations.setTranslationalStatePartialFrameScalingFunctions_spec env
      parametersToEstimate stateTypeStartIndices [] propagatedBodies centralBodies
      updateOrder hcollect horder hmembers
  have hBin : bodyB ∈ propagatedBodies := hmembers bodyB (by rw [hlisted]; simp)
  generalize (VariationalEquations.mapIndex stateTypeStartIndices
    IntegratedStateType.transational_state).1 = start at hrun ⊢
  generalize env.getSingleIntegrationSize IntegratedStateType.transational_state = size
    at hrun ⊢
  refine ⟨_, hrun, ?_⟩
  have hpairA := (pairsOfBody_mem start size propagatedBodies centralBodies bodyA _).mpr
    ⟨bodyB, propagatedBodies.indexOf bodyB, hA, by
      rw [List.getElem?_eq_getElem (List.indexOf_lt_length.mpr hBin),
        List.getElem_indexOf], rfl⟩
  have hpairB := (pairsOfBody_mem start size propagatedBodies centralBodies bodyB _).mpr
    ⟨bodyC, propagatedBodies.indexOf bodyC, hB, by
      rw [List.getElem?_eq_getElem (List.indexOf_lt_length.mpr hC),
        List.getElem_indexOf], rfl⟩
  obtain ⟨u, v, huv⟩ := List.append_of_mem hpairA
  obtain ⟨u', v', huv'⟩ := List.append_of_mem hpairB
  refine ⟨after.reverse.flatMap (pairsOfBody start size propagatedBodies centralBodies) ++ u,
    v ++ between.reverse.flatMap (pairsOfBody start size propagatedBodies centralBodies) ++ u',
    v' ++ before.reverse.flatMap (pairsOfBody start size propagatedBodies centralBodies), ?_⟩
  simp only [hlisted, List.nil_append, List.reverse_append, List.reverse_cons,
    List.flatMap_append, List.flatMap_cons, List.flatMap_nil, List.append_nil, huv, huv',
    List.append_assoc, List.cons_append]

/-- C12 (amended), on the three bodies C, B, A with the update order C, B, A: the pair
(12, 6) of A and B stands before the pair (6, 0) of B and C. -/
theorem dependent_pair_recorded_first_for_chain :
    ∃ frames, VariationalEquations.setTranslationalStatePartialFrameScalingFunctions
        Example.vehicleCollaborators Example.chainParameters
        [(IntegratedStateType.transational_state, 0)] [] = some frames ∧
      ∃ first middle last,
        frames.2 = first ++ ((12, 6) : Int × Int) :: (middle ++ ((6, 0) : Int × Int) :: last) :=
  dependent_pair_recorded_first Example.vehicleCollaborators Example.chainParameters
    [(IntegratedStateType.transational_state, 0)] ["C", "B", "A"] ["Sun", "C", "B"]
    ["C", "B", "A"] rfl rfl (by decide) "A" "B" "C" ["C"] [] [] rfl rfl rfl (by decide)

/-- Construction fails when determining the update order yields no order. -/
theorem VariationalEquations.constructor_none_of_no_order (env : Collaborators σ ρ)
    (parametersToEstimate : EstimatableParameterSet ρ)
    (stateTypeStartIndices : List (IntegratedStateType × Int))
    (propagatedBodies centralBodies : List String)
    (hcollect : VariationalEquations.collectPropagatedBodies
      parametersToEstimate.estimatedInitialStateParameters ([], []) =
        some (propagatedBodies, centralBodies))
    (hnone : env.determineEphemerisUpdateorder propagatedBodies centralBodies
      centralBodies = none) :
    (∀ indices, VariationalEquations.setTranslationalStatePartialFrameScalingFunctions env
        parametersToEstimate stateTypeStartIndices indices = none) ∧
      ∀ (stateDerivativePartialList : List (IntegratedStateType × List (List PartialPtr)))
        (objects : PartialPtr → σ) (cerr : List Diagnostic) (calls : List (ProviderCall ρ)),
        VariationalEquations.constructor env stateDerivativePartialList parametersToEstimate
          stateTypeStartIndices objects cerr calls = none := by
  have hframes : ∀ indices,
      VariationalEquations.setTranslationalStatePartialFrameScalingFunctions
        env parametersToEstimate stateTypeStartIndices indices = none := by
    intro indices
    unfold VariationalEquations.setTranslationalStatePartialFrameScalingFunctions
    simp only [hcollect, hnone]
  refine ⟨hframes, ?_⟩
  intro stateDerivativePartialList objects cerr calls
  cases hc : VariationalEquations.constructor env stateDerivativePartialList
      parametersToEstimate stateTypeStartIndices objects cerr calls with
  | none => rfl
  | some e =>
    obtain ⟨frames, hrun, _⟩ := VariationalEquations.constructor_frames hc
    rw [hframes []] at hrun
    cases hrun

/-- While every body of a group is defined relative to a body of the group and all of
them wait, no pass of the traversal resolves any of them, and the traversal ends without
an order. -/
theorem traverseDependencies_none_of_cycle (cycle : List String) (hne : cycle ≠ []) :
    ∀ (passes : Nat) (waiting : List (String × String)) (order : List String),
      (∀ name ∈ cycle, ∃ next ∈ cycle, (name, next) ∈ waiting) →
      traverseDependencies passes waiting order = none := by
  intro passes
  induction passes with
  | zero =>
    intro waiting order hclosed
    obtain ⟨name, hname⟩ := List.exists_mem_of_ne_nil cycle hne
    obtain ⟨next, _, hentry⟩ := hclosed name hname
    unfold traverseDependencies
    cases waiting with
    | nil => simp at hentry
    | cons head rest => simp
  | succ passes ih =>
    intro waiting order hclosed
    obtain ⟨name, hname⟩ := List.exists_mem_of_ne_nil cycle hne
    obtain ⟨next, _, hentry⟩ := hclosed name hname
    have hwaiting : waiting.isEmpty = false := by
      cases waiting with
      | nil => simp at hentry
      | cons head rest => rfl
    unfold traverseDependencies
    simp only [hwaiting, Bool.false_eq_true, if_false]
    split
    · rfl
    · apply ih
      intro name' hname'
      obtain ⟨next', hnext', hentry'⟩ := hclosed name' hname'
      obtain ⟨next'', _, hentry''⟩ := hclosed next' hnext'
      refine ⟨next', hnext', List.mem_filter.mpr ⟨hentry', ?_⟩⟩
      have hany : waiting.any (fun other => other.1 == next') = true :=
        List.any_eq_true.mpr ⟨(next', next''), hentry'', by simp⟩
      simp [isResolved, hany]

/-- C13: with the update order determined by the dependency graph traversal, a
dependency cycle among the propagated bodies makes construction fail before any
chain-correction pair is recorded. A cycle is given as a non-empty group of propagated
bodies each of which is defined relative to a body of the group, as A relative to B and B
relative to A; then the frame set-up, which asks for the update order before it records
a pair, yields nothing, and neither does the constructor. -/
theorem cycle_makes_construction_fail (env : Collaborators σ ρ)
    (henv : env.determineEphemerisUpdateorder = determineEphemerisUpdateorder)
    (parametersToEstimate : EstimatableParameterSet ρ)
    (stateTypeStartIndices : List (IntegratedStateType × Int))
    (propagatedBodies centralBodies : List String)
    (hcollect : VariationalEquations.collectPropagatedBodies
      parametersToEstimate.estimatedInitialStateParameters ([], []) =
        some (propagatedBodies, centralBodies))
    (cycle : List String) (hne : cycle ≠ [])
    (hclosed : ∀ name ∈ cycle, ∃ next ∈ cycle,
      (name, next) ∈ propagatedBodies.zip centralBodies) :
    (∀ indices, VariationalEquations.setTranslationalStatePartialFrameScalingFunctions env
        parametersToEstimate stateTypeStartIndices indices = none) ∧
      ∀ (stateDerivativePartialList : List (IntegratedStateType × List (List PartialPtr)))
        (objects : PartialPtr → σ) (cerr : List Diagnostic) (calls : List (ProviderCall ρ)),
        VariationalEquations.constructor env stateDerivativePartialList parametersToEstimate
          stateTypeStartIndices objects cerr calls = none := by
  apply VariationalEquations.constructor_none_of_no_order env parametersToEstimate
    stateTypeStartIndices propagatedBodies centralBodies hcollect
  rw [henv]
  unfold determineEphemerisUpdateorder
  exact traverseDependencies_none_of_cycle cycle hne _ _ _ hclosed

/-- C13, on the two bodies defined relative to each other: construction yields no
engine. The traversal is not one that always fails: for A relative to B, B relative to C
and C relative to the Sun it yields the order C, B, A, and the engine of the chain of
three bodies is constructed. -/
theorem cycle_makes_construction_fail_for_cycle :
    determineEphemerisUpdateorder ["A", "B", "C"] ["B", "C", "Sun"] ["B", "C", "Sun"] =
        some ["C", "B", "A"] ∧
      (VariationalEquations.constructor Example.orderedCollaborators
        [(IntegratedStateType.transational_state, [[], [], []])] Example.chainParameters
        [(IntegratedStateType.transational_state, 0)] (fun _ => 0) [] []).isSome = true ∧
      VariationalEquations.constructor Example.orderedCollaborators
        [(IntegratedStateType.transational_state, [[], []])] Example.cycleParameters
        [(IntegratedStateType.transational_state, 0)] (fun _ => 0) [] [] = none :=
  ⟨by decide, by decide,
    (cycle_makes_construction_fail Example.orderedCollaborators rfl Example.cycleParameters
      [(IntegratedStateType.transational_state, 0)] ["A", "B"] ["B", "A"] rfl ["A", "B"]
      (by decide) (by decide)).2 _ _ _ _⟩

/-! ## The dependency structure after construction -/

theorem VariationalEquations.getParameterPartialMatrix_some {env : Collaborators σ ρ}
    {s s' : VariationalEquations σ ρ} {derivative derivative' : MatrixXd}
    (h : s.getParameterPartialMatrix env derivative = some (s', derivative')) :
    s.assembleParameterPartials env = some s' := by
  unfold VariationalEquations.getParameterPartialMatrix at h
  cases hs : s.assembleParameterPartials env with
  | none => simp [hs] at h
  | some s1 =>
    simp only [hs] at h
    split at h
    · cases h
    · simp only [Option.some.injEq, Prod.mk.injEq] at h
      rw [h.1]

theorem blockCallOf_ne_query (total startRow blockRows : Int)
    (entry : (Int × Int) × BoundFunction ρ) (partialObject : PartialPtr) (parameter : ρ) :
    blockCallOf total startRow blockRows entry ≠
      ProviderCall.setParameterPartialUpdateFunction partialObject parameter := by
  simp [blockCallOf]

/-- The calls of an assembly are calls of bound functions: none of them asks a provider
for its parameter dependency. -/
theorem callsOfStateTypes_no_query (env : Collaborators σ ρ)
    (startIndices : List (IntegratedStateType × Int)) (total : Int)
    (types : List (IntegratedStateType × List (FunctionList ρ)))
    (partialObject : PartialPtr) (parameter : ρ) :
    ProviderCall.setParameterPartialUpdateFunction partialObject parameter ∉
      callsOfStateTypes env startIndices total types := by
  intro hmem
  obtain ⟨_, _, _, _, _, _, _, _, entry, _, hc⟩ :=
    (callsOfStateTypes_mem env startIndices total _ types).mp hmem
  exact blockCallOf_ne_query _ _ _ entry partialObject parameter hc.symm

/-- C14: the dependency structure is fixed at construction. The assembly of the
parameter partials, `getParameterPartialMatrix` and `evaluateVariationalEquations`
leave `parameterPartialList_` unchanged and record no call of a provider's
`setParameterPartialUpdateFunction`; the calls an assembly makes are determined by
`parameterPartialList_`, the start indices and `totalDynamicalStateSize_` alone, so
two assemblies from states that agree on these (in particular successive ones) call
the same entries on the same blocks. -/
theorem dependency_structure_fixed (env : Collaborators σ ρ)
    (s : VariationalEquations σ ρ) :
    (∀ s', s.assembleParameterPartials env = some s' →
      s'.parameterPartialList_ = s.parameterPartialList_ ∧
      s'.stateTypeStartIndices_ = s.stateTypeStartIndices_ ∧
      s'.totalDynamicalStateSize_ = s.totalDynamicalStateSize_ ∧
      ∀ partialObject parameter,
        ProviderCall.setParameterPartialUpdateFunction partialObject parameter ∈
            s'.providerCalls →
          ProviderCall.setParameterPartialUpdateFunction partialObject parameter ∈
            s.providerCalls) ∧
    (∀ derivative s' derivative',
      s.getParameterPartialMatrix env derivative = some (s', derivative') →
      s'.parameterPartialList_ = s.parameterPartialList_ ∧
      ∀ partialObject parameter,
        ProviderCall.setParameterPartialUpdateFunction partialObject parameter ∈
            s'.providerCalls →
          ProviderCall.setParameterPartialUpdateFunction partialObject parameter ∈
            s.providerCalls) ∧
    (∀ time composite derivative s' derivative',
      s.evaluateVariationalEquations env time composite derivative =
          some (s', derivative') →
      s'.parameterPartialList_ = s.parameterPartialList_ ∧
      ∀ partialObject parameter,
        ProviderCall.setParameterPartialUpdateFunction partialObject parameter ∈
            s'.providerCalls →
          ProviderCall.setParameterPartialUpdateFunction partialObject parameter ∈
            s.providerCalls) ∧
    (∀ (other s' other' : VariationalEquations σ ρ),
      other.parameterPartialList_ = s.parameterPartialList_ →
      other.stateTypeStartIndices_ = s.stateTypeStartIndices_ →
      other.totalDynamicalStateSize_ = s.totalDynamicalStateSize_ →
      s.assembleParameterPartials env = some s' →
      other.assembleParameterPartials env = some other' →
      ∃ handed, s'.providerCalls = s.providerCalls ++ handed ∧
        other'.providerCalls = other.providerCalls ++ handed) := by
  have hassemble : ∀ s', s.assembleParameterPartials env = some s' →
      s'.parameterPartialList_ = s.parameterPartialList_ ∧
      s'.stateTypeStartIndices_ = s.stateTypeStartIndices_ ∧
      s'.totalDynamicalStateSize_ = s.totalDynamicalStateSize_ ∧
      ∀ partialObject parameter,
        ProviderCall.setParameterPartialUpdateFunction partialObject parameter ∈
            s'.providerCalls →
          ProviderCall.setParameterPartialUpdateFunction partialObject parameter ∈
            s.providerCalls := by
    intro s' h
    have hcalls := (VariationalEquations.assembleParameterPartials_fills h).1
    obtain ⟨⟨filled, messages, calls, rfl⟩, _⟩ :=
      VariationalEquations.assembleParameterPartials_some h
    refine ⟨rfl, rfl, rfl, ?_⟩
    intro partialObject parameter hmem
    simp only at hcalls
    rw [hcalls] at hmem
    rcases List.mem_append.mp hmem with hold | hnew
    · exact hold
    · exact absurd hnew (callsOfStateTypes_no_query env _ _ _ partialObject parameter)
  refine ⟨hassemble, ?_, ?_, ?_⟩
  · intro derivative s' derivative' h
    obtain ⟨h1, _, _, h4⟩ :=
      hassemble s' (VariationalEquations.getParameterPartialMatrix_some h)
    exact ⟨h1, h4⟩
  · intro time composite derivative s' derivative' h
    obtain ⟨filled, messages, calls, rfl, hcalls⟩ :=
      VariationalEquations.evaluateVariationalEquations_some h
    refine ⟨rfl, ?_⟩
    intro partialObject parameter hmem
    rcases List.mem_append.mp hmem with hold | hnew
    · exact hold
    · obtain ⟨total, startRow, blockRows, entry, hc⟩ := hcalls _ hnew
      exact absurd hc.symm (blockCallOf_ne_query _ _ _ entry partialObject parameter)
  · intro other s' other' hlist hstart htotal h hother
    refine ⟨_, (VariationalEquations.assembleParameterPartials_fills h).1, ?_⟩
    have := (VariationalEquations.assembleParameterPartials_fills hother).1
    rw [hlist, hstart, htotal] at this
    exact this

/-- C14, on the vehicle: an assembly leaves the function lists as constructed, and a
second assembly calls the same entry on the same block as the first. -/
theorem dependency_structure_fixed_for_vehicle :
    ((Example.vehicleEngine.assembleParameterPartials Example.vehicleCollaborators).get
        (by decide)).parameterPartialList_ = Example.vehicleEngine.parameterPartialList_ ∧
      ((Example.vehicleEngine.assembleParameterPartials
          Example.vehicleCollaborators).bind (fun e =>
        e.assembleParameterPartials Example.vehicleCollaborators)).map
        (fun e => e.providerCalls.drop 1) =
      some [ProviderCall.getCurrentParameterPartial 0 0 3 0 3 1,
        ProviderCall.getCurrentParameterPartial 0 0 3 0 3 1] :=
  ⟨((dependency_structure_fixed Example.vehicleCollaborators Example.vehicleEngine).1 _
      (Option.some_get _).symm).1, rfl⟩

/-! ## The radiation pressure partial -/

theorem MatrixXd.addAssignBlock_some {m m' src : MatrixXd}
    {startRow startCol blockRows blockCols : Int}
    (h : m.addAssignBlock startRow startCol blockRows blockCols src = some m') :
    (m.validBlock startRow startCol blockRows blockCols ∧
        src.rows = blockRows ∧ src.cols = blockCols) ∧
      m'.rows = m.rows ∧ m'.cols = m.cols ∧
      ∀ i j, m'.coeff i j =
        if MatrixXd.inBlock startRow startCol blockRows blockCols i j
        then m.coeff i j + src.coeff (i - startRow) (j - startCol) else m.coeff i j := by
  unfold MatrixXd.addAssignBlock at h
  split at h
  · rename_i hvalid
    simp only [Option.some.injEq] at h
    subst h
    refine ⟨hvalid, rfl, rfl, ?_⟩
    intro i j
    simp only [MatrixXd.writeBlock, MatrixXd.blockView]
    by_cases hin : MatrixXd.inBlock startRow startCol blockRows blockCols i j
    · have hloc : MatrixXd.inBlock 0 0 blockRows blockCols (i - startRow) (j - startCol) := by
        simp only [MatrixXd.inBlock] at hin ⊢
        omega
      rw [if_pos hin, if_pos hin, if_pos hloc]
      congr 2 <;> omega
    · rw [if_neg hin, if_neg hin]
  · cases h

theorem MatrixXd.subAssignBlock_some {m m' src : MatrixXd}
    {startRow startCol blockRows blockCols : Int}
    (h : m.subAssignBlock startRow startCol blockRows blockCols src = some m') :
    (m.validBlock startRow startCol blockRows blockCols ∧
        src.rows = blockRows ∧ src.cols = blockCols) ∧
      m'.rows = m.rows ∧ m'.cols = m.cols ∧
      ∀ i j, m'.coeff i j =
        if MatrixXd.inBlock startRow startCol blockRows blockCols i j
        then m.coeff i j - src.coeff (i - startRow) (j - startCol) else m.coeff i j := by
  unfold MatrixXd.subAssignBlock at h
  split at h
  · rename_i hvalid
    simp only [Option.some.injEq] at h
    subst h
    refine ⟨hvalid, rfl, rfl, ?_⟩
    intro i j
    simp only [MatrixXd.writeBlock, MatrixXd.blockView]
    by_cases hin : MatrixXd.inBlock startRow startCol blockRows blockCols i j
    · have hloc : MatrixXd.inBlock 0 0 blockRows blockCols (i - startRow) (j - startCol) := by
        simp only [MatrixXd.inBlock] at hin ⊢
        omega
      rw [if_pos hin, if_pos hin, if_pos hloc]
      congr 2 <;> omega
    · rw [if_neg hin, if_neg hin]
  · cases h

/-- Subtracting from a block what has just been added to it restores the matrix. -/
theorem MatrixXd.subAssignBlock_addAssignBlock {m m' src : MatrixXd}
    {startRow startCol blockRows blockCols : Int}
    (h : m.addAssignBlock startRow startCol blockRows blockCols src = some m') :
    m'.subAssignBlock startRow startCol blockRows blockCols src = some m := by
  obtain ⟨hvalid, hrows, hcols, hcoeff⟩ := MatrixXd.addAssignBlock_some h
  have hvalid' : m'.validBlock startRow startCol blockRows blockCols ∧
      src.rows = blockRows ∧ src.cols = blockCols := by
    simp only [MatrixXd.validBlock, hrows, hcols] at hvalid ⊢
    exact hvalid
  cases hm : m'.subAssignBlock startRow startCol blockRows blockCols src with
  | none =>
    unfold MatrixXd.subAssignBlock at hm
    rw [if_pos hvalid'] at hm
    cases hm
  | some m'' =>
    obtain ⟨_, hrows', hcols', hcoeff'⟩ := MatrixXd.subAssignBlock_some hm
    have hfun : m''.coeff = m.coeff := by
      funext i j
      rw [hcoeff' i j, hcoeff i j]
      split <;> simp
    cases m
    cases m''
    simp only at hrows hcols hrows' hcols' hfun
    simp only [Option.some.injEq, MatrixXd.mk.injEq]
    exact ⟨hrows'.trans hrows, hcols'.trans hcols, hfun⟩

/-- Adding to a block what has just been subtracted from it restores the matrix. -/
theorem MatrixXd.addAssignBlock_subAssignBlock {m m' src : MatrixXd}
    {startRow startCol blockRows blockCols : Int}
    (h : m.subAssignBlock startRow startCol blockRows blockCols src = some m') :
    m'.addAssignBlock startRow startCol blockRows blockCols src = some m := by
  obtain ⟨hvalid, hrows, hcols, hcoeff⟩ := MatrixXd.subAssignBlock_some h
  have hvalid' : m'.validBlock startRow startCol blockRows blockCols ∧
      src.rows = blockRows ∧ src.cols = blockCols := by
    simp only [MatrixXd.validBlock, hrows, hcols] at hvalid ⊢
    exact hvalid
  cases hm : m'.addAssignBlock startRow startCol blockRows blockCols src with
  | none =>
    unfold MatrixXd.addAssignBlock at hm
    rw [if_pos hvalid'] at hm
    cases hm
  | some m'' =>
    obtain ⟨_, hrows', hcols', hcoeff'⟩ := MatrixXd.addAssignBlock_some hm
    have hfun : m''.coeff = m.coeff := by
      funext i j
      rw [hcoeff' i j, hcoeff i j]
      split <;> simp
    cases m
    cases m''
    simp only at hrows hcols hrows' hcols' hfun
    simp only [Option.some.injEq, MatrixXd.mk.injEq]
    exact ⟨hrows'.trans hrows, hcols'.trans hcols, hfun⟩

/-- C15: for the cannonball radiation pressure partial, the partial with respect to the
position of the accelerating body is the negation of the partial with respect to the
position of the accelerated body. `wrtPositionOfAcceleratingBody` with a flag yields the
matrix that `wrtPositionOfAcceleratedBody` yields with the opposite flag, and applying
the two, in either order, with the same flag to the same block restores the matrix. -/
theorem position_partials_are_negations (self : CannonBallRadiationPressurePartial)
    (partialMatrix : MatrixXd) (addContribution : Bool) (startRow startColumn : Int) :
    self.wrtPositionOfAcceleratingBody partialMatrix addContribution startRow startColumn =
        self.wrtPositionOfAcceleratedBody partialMatrix (!addContribution) startRow
          startColumn ∧
      (∀ after,
        self.wrtPositionOfAcceleratedBody partialMatrix addContribution startRow
            startColumn = some after →
          self.wrtPositionOfAcceleratingBody after addContribution startRow startColumn =
            some partialMatrix) ∧
      (∀ after,
        self.wrtPositionOfAcceleratingBody partialMatrix addContribution startRow
            startColumn = some after →
          self.wrtPositionOfAcceleratedBody after addContribution startRow startColumn =
            some partialMatrix) := by
  refine ⟨?_, ?_, ?_⟩
  · cases addContribution <;> rfl
  · intro after h
    cases addContribution
    · exact MatrixXd.addAssignBlock_subAssignBlock h
    · exact MatrixXd.subAssignBlock_addAssignBlock h
  · intro after h
    cases addContribution
    · exact MatrixXd.subAssignBlock_addAssignBlock h
    · exact MatrixXd.addAssignBlock_subAssignBlock h

/-- C15, on a 6 by 6 matrix and the block at row 3, column 0: adding the partial with
respect to the accelerated body and then the partial with respect to the accelerating
body gives the matrix back. -/
theorem position_partials_are_negations_for_state_block :
    (Example.pressurePartial.wrtPositionOfAcceleratedBody Example.stateBlock true 3 0
      ).isSome = true ∧
      (Example.pressurePartial.wrtPositionOfAcceleratedBody Example.stateBlock true 3 0
        ).bind (fun after =>
          Example.pressurePartial.wrtPositionOfAcceleratingBody after true 3 0) =
        some Example.stateBlock := by
  refine ⟨by decide, ?_⟩
  obtain ⟨after, hafter⟩ := Option.isSome_iff_exists.mp
    (by decide : (Example.pressurePartial.wrtPositionOfAcceleratedBody Example.stateBlock
      true 3 0).isSome = true)
  rw [hafter]
  exact (position_partials_are_negations Example.pressurePartial Example.stateBlock true
    3 0).2.1 after hafter

/-! ## The spherical harmonics gravity field: construction and coefficient blocks -/

theorem MatrixXd.block_ok {m : MatrixXd} {startRow startCol blockRows blockCols : Int}
    (h : m.validBlock startRow startCol blockRows blockCols) :
    m.block startRow startCol blockRows blockCols =
      .ok (m.blockView startRow startCol blockRows blockCols) := by
  unfold MatrixXd.block
  rw [if_pos h]

theorem MatrixXd.block_error {m : MatrixXd} {startRow startCol blockRows blockCols : Int}
    (h : ¬ m.validBlock startRow startCol blockRows blockCols) :
    m.block startRow startCol blockRows blockCols = .error .eigen_assert := by
  unfold MatrixXd.block
  rw [if_neg h]

/-- Inside its bounds a block shows the coefficients of the matrix it is taken from. -/
theorem MatrixXd.blockView_coeff (m : MatrixXd) (blockRows blockCols n k : Int)
    (hn : 0 ≤ n) (hn' : n < blockRows) (hk : 0 ≤ k) (hk' : k < blockCols) :
    (m.blockView 0 0 blockRows blockCols).coeff n k = m.coeff n k := by
  simp only [MatrixXd.blockView]
  rw [if_pos (by simp only [MatrixXd.inBlock]; omega)]
  simp

/-- What a successful construction leaves in the members of the gravity field. -/
theorem SphericalHarmonicsGravityField.constructor_ok
    {gravitationalParameter referenceRadius : Scalar}
    {cosineCoefficients sineCoefficients : MatrixXd} {fixedReferenceFrame : String}
    {updateInertiaTensor : Bool} {field : SphericalHarmonicsGravityField}
    (h : SphericalHarmonicsGravityField.constructor gravitationalParameter referenceRadius
      cosineCoefficients sineCoefficients fixedReferenceFrame updateInertiaTensor =
        .ok field) :
    cosineCoefficients.rows = sineCoefficients.rows ∧
      cosineCoefficients.cols = sineCoefficients.cols ∧
      field.cosineCoefficients_ = cosineCoefficients ∧
      field.sineCoefficients_ = sineCoefficients ∧
      field.maximumDegree_ = cosineCoefficients.rows - 1 ∧
      field.maximumOrder_ = cosineCoefficients.cols - 1 := by
  unfold SphericalHarmonicsGravityField.constructor at h
  split at h
  · cases h
  · rename_i hsizes
    simp only [Except.ok.injEq] at h
    subst h
    refine ⟨?_, ?_, rfl, rfl, rfl, rfl⟩
    · by_contra hne
      exact hsizes (Or.inl hne)
    · by_contra hne
      exact hsizes (Or.inr hne)

theorem SphericalHarmonicsGravityField.callUpdateInertiaTensor_members
    (field : SphericalHarmonicsGravityField) :
    field.callUpdateInertiaTensor.cosineCoefficients_ = field.cosineCoefficients_ ∧
      field.callUpdateInertiaTensor.sineCoefficients_ = field.sineCoefficients_ ∧
      field.callUpdateInertiaTensor.maximumDegree_ = field.maximumDegree_ ∧
      field.callUpdateInertiaTensor.maximumOrder_ = field.maximumOrder_ := by
  unfold SphericalHarmonicsGravityField.callUpdateInertiaTensor
  split
  · exact ⟨rfl, rfl, rfl, rfl⟩
  · exact ⟨rfl, rfl, rfl, rfl⟩

/-- Every object a program can hold stores matrices of the shape that its maximum
degree and order announce. -/
theorem constructed_hasDeclaredShape {field : SphericalHarmonicsGravityField}
    (h : Constructed field) : field.HasDeclaredShape := by
  induction h with
  | constructor mu radius cosine sine frame update field hfield =>
    obtain ⟨hrows, hcols, hcos, hsin, hdeg, hord⟩ :=
      SphericalHarmonicsGravityField.constructor_ok hfield
    unfold SphericalHarmonicsGravityField.HasDeclaredShape
    rw [hcos, hsin, hdeg, hord]
    omega
  | setCosineCoefficients field cosine _ ih =>
    unfold SphericalHarmonicsGravityField.setCosineCoefficients
    split
    · exact ih
    · rename_i hsizes
      obtain ⟨hcos, hsin, hdeg, hord⟩ :=
        SphericalHarmonicsGravityField.callUpdateInertiaTensor_members
          { field with cosineCoefficients_ := cosine }
      unfold SphericalHarmonicsGravityField.HasDeclaredShape at ih ⊢
      rw [hcos, hsin, hdeg, hord]
      simp only
      omega
  | setSineCoefficients field sine _ ih =>
    unfold SphericalHarmonicsGravityField.setSineCoefficients
    split
    · exact ih
    · rename_i hsizes
      obtain ⟨hcos, hsin, hdeg, hord⟩ :=
        SphericalHarmonicsGravityField.callUpdateInertiaTensor_members
          { field with sineCoefficients_ := sine }
      unfold SphericalHarmonicsGravityField.HasDeclaredShape at ih ⊢
      rw [hcos, hsin, hdeg, hord]
      simp only
      omega

/-- C16: constructing a `SphericalHarmonicsGravityField` throws a runtime error if and
only if the cosine and the sine coefficient matrices differ in their number of rows or
of columns; otherwise the construction returns an object that stores the two matrices
and whose maximum degree is the number of rows minus one and whose maximum order is the
number of columns minus one, as `getDegreeOfExpansion` and `getOrderOfExpansion`
report. -/
theorem constructor_throws_iff_sizes_differ (gravitationalParameter referenceRadius : Scalar)
    (cosineCoefficients sineCoefficients : MatrixXd) (fixedReferenceFrame : String)
    (updateInertiaTensor : Bool) :
    ((∃ what, SphericalHarmonicsGravityField.constructor gravitationalParameter
          referenceRadius cosineCoefficients sineCoefficients fixedReferenceFrame
          updateInertiaTensor = .error (.runtime_error what)) ↔
        (cosineCoefficients.rows ≠ sineCoefficients.rows ∨
          cosineCoefficients.cols ≠ sineCoefficients.cols)) ∧
      (¬ (cosineCoefficients.rows ≠ sineCoefficients.rows ∨
          cosineCoefficients.cols ≠ sineCoefficients.cols) →
        ∃ field, SphericalHarmonicsGravityField.constructor gravitationalParameter
            referenceRadius cosineCoefficients sineCoefficients fixedReferenceFrame
            updateInertiaTensor = .ok field ∧
          field.getDegreeOfExpansion = cosineCoefficients.rows - 1 ∧
          field.getOrderOfExpansion = cosineCoefficients.cols - 1 ∧
          field.getCosineCoefficients = cosineCoefficients ∧
          field.getSineCoefficients = sineCoefficients) := by
  by_cases hsizes : cosineCoefficients.rows ≠ sineCoefficients.rows ∨
      cosineCoefficients.cols ≠ sineCoefficients.cols
  · refine ⟨⟨fun _ => hsizes, fun _ => ?_⟩, fun hnot => absurd hsizes hnot⟩
    unfold SphericalHarmonicsGravityField.constructor
    rw [if_pos hsizes]
    exact ⟨_, rfl⟩
  · refine ⟨⟨fun hthrown => ?_, fun h => absurd h hsizes⟩, fun _ => ?_⟩
    · obtain ⟨what, hwhat⟩ := hthrown
      unfold SphericalHarmonicsGravityField.constructor at hwhat
      rw [if_neg hsizes] at hwhat
      cases hwhat
    · unfold SphericalHarmonicsGravityField.constructor
      rw [if_neg hsizes]
      exact ⟨_, rfl, rfl, rfl, rfl, rfl⟩

/-- C16, on 3 by 3 cosine coefficients: with 3 by 3 sine coefficients the construction
returns a field of maximum degree 2 and maximum order 2, with 3 by 2 sine coefficients
it throws a runtime error. -/
theorem constructor_throws_iff_sizes_differ_for_degree_two :
    (∃ field, Example.gravityConstruction = .ok field ∧
        field.getDegreeOfExpansion = 2 ∧ field.getOrderOfExpansion = 2) ∧
      ∃ what, SphericalHarmonicsGravityField.constructor 398600 6378
        Example.cosineCoefficients Example.narrowSineCoefficients "IAU_Earth" false =
          .error (.runtime_error what) := by
  have hsame := (constructor_throws_iff_sizes_differ 398600 6378 Example.cosineCoefficients
    Example.sineCoefficients "IAU_Earth" false).2 (by decide)
  have hnarrow := (constructor_throws_iff_sizes_differ 398600 6378
    Example.cosineCoefficients Example.narrowSineCoefficients "IAU_Earth" false).1.mpr
      (by decide)
  obtain ⟨field, hfield, hdegree, horder, _, _⟩ := hsame
  exact ⟨⟨field, hfield, hdegree, horder⟩, hnarrow⟩

/-- C17: on a gravity field obtained from the constructor and the setters,
`getCosineCoefficientsBlock( d, o )` and `getSineCoefficientsBlock( d, o )` throw a
runtime error whenever `d` exceeds the maximum degree or `o` exceeds the maximum order;
for `0 ≤ d ≤` maximum degree and `0 ≤ o ≤` maximum order they return the matrices with
`d + 1` rows and `o + 1` columns whose coefficient `(n, m)` is the stored coefficient of
degree `n` and order `m`, which have the size of the stored matrices when `d` and `o`
are the maximum degree and order. -/
theorem coefficient_blocks_up_to_degree_and_order (field : SphericalHarmonicsGravityField)
    (hconstructed : Constructed field) (d o : Int) :
    ((d > field.maximumDegree_ ∨ o > field.maximumOrder_) →
        (∃ what, field.getCosineCoefficientsBlock d o = .error (.runtime_error what)) ∧
        (∃ what, field.getSineCoefficientsBlock d o = .error (.runtime_error what))) ∧
      (0 ≤ d → d ≤ field.maximumDegree_ → 0 ≤ o → o ≤ field.maximumOrder_ →
        ∃ cosineBlock sineBlock,
          field.getCosineCoefficientsBlock d o = .ok cosineBlock ∧
          field.getSineCoefficientsBlock d o = .ok sineBlock ∧
          cosineBlock.rows = d + 1 ∧ cosineBlock.cols = o + 1 ∧
          sineBlock.rows = d + 1 ∧ sineBlock.cols = o + 1 ∧
          (∀ n m, 0 ≤ n → n ≤ d → 0 ≤ m → m ≤ o →
            cosineBlock.coeff n m = field.getCosineCoefficients.coeff n m ∧
            sineBlock.coeff n m = field.getSineCoefficients.coeff n m) ∧
          (d = field.maximumDegree_ → o = field.maximumOrder_ →
            cosineBlock.rows = field.getCosineCoefficients.rows ∧
            cosineBlock.cols = field.getCosineCoefficients.cols ∧
            sineBlock.rows = field.getSineCoefficients.rows ∧
            sineBlock.cols = field.getSineCoefficients.cols)) := by
  obtain ⟨hcr, hcc, hsr, hsc⟩ := constructed_hasDeclaredShape hconstructed
  refine ⟨fun hexceeds => ?_, fun hd hd' ho ho' => ?_⟩
  · unfold SphericalHarmonicsGravityField.getCosineCoefficientsBlock
      SphericalHarmonicsGravityField.getSineCoefficientsBlock
    rw [if_pos hexceeds, if_pos hexceeds]
    exact ⟨⟨_, rfl⟩, ⟨_, rfl⟩⟩
  · have hwithin : ¬ (d > field.maximumDegree_ ∨ o > field.maximumOrder_) := by omega
    have hcos : field.cosineCoefficients_.validBlock 0 0 (d + 1) (o + 1) := by
      simp only [MatrixXd.validBlock]
      omega
    have hsin : field.sineCoefficients_.validBlock 0 0 (d + 1) (o + 1) := by
      simp only [MatrixXd.validBlock]
      omega
    refine ⟨field.cosineCoefficients_.blockView 0 0 (d + 1) (o + 1),
      field.sineCoefficients_.blockView 0 0 (d + 1) (o + 1), ?_, ?_, rfl, rfl, rfl, rfl,
      ?_, ?_⟩
    · unfold SphericalHarmonicsGravityField.getCosineCoefficientsBlock
      rw [if_neg hwithin]
      exact MatrixXd.block_ok hcos
    · unfold SphericalHarmonicsGravityField.getSineCoefficientsBlock
      rw [if_neg hwithin]
      exact MatrixXd.block_ok hsin
    · intro n m hn hn' hm hm'
      exact ⟨MatrixXd.blockView_coeff _ _ _ n m hn (by omega) hm (by omega),
        MatrixXd.blockView_coeff _ _ _ n m hn (by omega) hm (by omega)⟩
    · intro hdmax homax
      simp only [SphericalHarmonicsGravityField.getCosineCoefficients,
        SphericalHarmonicsGravityField.getSineCoefficients, MatrixXd.blockView]
      omega

/-- C17, on the field of degree and order 2: the cosine block up to degree 3 is refused
with a runtime error, and the cosine block up to degree 1 and order 2 has 2 rows and 3
columns and holds the stored coefficient of degree 1 and order 2, which is 13. -/
theorem coefficient_blocks_up_to_degree_and_order_for_degree_two :
    (∃ what, Example.gravityField.getCosineCoefficientsBlock 3 0 =
        .error (.runtime_error what)) ∧
      ∃ cosineBlock, Example.gravityField.getCosineCoefficientsBlock 1 2 =
          .ok cosineBlock ∧
        cosineBlock.rows = 2 ∧ cosineBlock.cols = 3 ∧ cosineBlock.coeff 1 2 = 13 := by
  have hconstructed : Constructed Example.gravityField :=
    Constructed.constructor 398600 6378 Example.cosineCoefficients
      Example.sineCoefficients "IAU_Earth" false Example.gravityField rfl
  have hrefused := (coefficient_blocks_up_to_degree_and_order Example.gravityField
    hconstructed 3 0).1 (Or.inl (by decide))
  obtain ⟨cosineBlock, _, hcos, _, hrows, hcols, _, _, hcoeff, _⟩ :=
    (coefficient_blocks_up_to_degree_and_order Example.gravityField hconstructed 1 2).2
      (by decide) (by decide) (by decide) (by decide)
  exact ⟨hrefused.1, cosineBlock, hcos, hrows, hcols,
    (hcoeff 1 2 (by decide) (by decide) (by decide) (by decide)).1.trans (by decide)⟩

/-- C18 (the code departs from the claim): on a gravity field obtained from the
constructor and the setters, for `0 ≤ maximumDegree ≤` maximum degree and
`0 ≤ maximumOrder ≤` maximum order, `getGradientOfPotential( position, maximumDegree,
maximumOrder )` hands to the acceleration sum the top-left blocks with `maximumDegree`
rows and `maximumOrder` columns, which do not reach the row of degree `maximumDegree`
nor the column of order `maximumOrder`, whereas `getGravitationalPotential( position,
maximumDegree, maximumOrder )` hands to the potential the blocks with
`maximumDegree + 1` rows and `maximumOrder + 1` columns. -/
theorem gradient_receives_smaller_blocks (env : GravityCollaborators)
    (field : SphericalHarmonicsGravityField) (hconstructed : Constructed field)
    (bodyFixedPosition : Vector3d) (maximumDegree maximumOrder : Int)
    (hd : 0 ≤ maximumDegree) (hd' : maximumDegree ≤ field.maximumDegree_)
    (ho : 0 ≤ maximumOrder) (ho' : maximumOrder ≤ field.maximumOrder_) :
    field.getGradientOfPotential env bodyFixedPosition maximumDegree maximumOrder =
        .ok (env.computeGeodesyNormalizedGravitationalAccelerationSum bodyFixedPosition
          field.gravitationalParameter_ field.referenceRadius_
          (field.cosineCoefficients_.blockView 0 0 maximumDegree maximumOrder)
          (field.sineCoefficients_.blockView 0 0 maximumDegree maximumOrder)
          field.sphericalHarmonicsCache_) ∧
      field.getGravitationalPotential env bodyFixedPosition maximumDegree maximumOrder
          0 0 =
        .ok (env.calculateSphericalHarmonicGravitationalPotential bodyFixedPosition
          field.gravitationalParameter_ field.referenceRadius_
          (field.cosineCoefficients_.blockView 0 0 (maximumDegree + 1) (maximumOrder + 1))
          (field.sineCoefficients_.blockView 0 0 (maximumDegree + 1) (maximumOrder + 1))
          field.sphericalHarmonicsCache_ 0 0) ∧
      (field.cosineCoefficients_.blockView 0 0 maximumDegree maximumOrder).rows =
        maximumDegree ∧
      (field.cosineCoefficients_.blockView 0 0 maximumDegree maximumOrder).cols =
        maximumOrder ∧
      (∀ m, ¬ MatrixXd.inBlock 0 0 maximumDegree maximumOrder maximumDegree m) ∧
      (∀ n, ¬ MatrixXd.inBlock 0 0 maximumDegree maximumOrder n maximumOrder) ∧
      MatrixXd.inBlock 0 0 (maximumDegree + 1) (maximumOrder + 1) maximumDegree
        maximumOrder := by
  obtain ⟨hcr, hcc, hsr, hsc⟩ := constructed_hasDeclaredShape hconstructed
  have hcos : field.cosineCoefficients_.validBlock 0 0 maximumDegree maximumOrder := by
    simp only [MatrixXd.validBlock]
    omega
  have hsin : field.sineCoefficients_.validBlock 0 0 maximumDegree maximumOrder := by
    simp only [MatrixXd.validBlock]
    omega
  have hcos' : field.cosineCoefficients_.validBlock 0 0 (maximumDegree + 1)
      (maximumOrder + 1) := by
    simp only [MatrixXd.validBlock]
    omega
  have hsin' : field.sineCoefficients_.validBlock 0 0 (maximumDegree + 1)
      (maximumOrder + 1) := by
    simp only [MatrixXd.validBlock]
    omega
  refine ⟨?_, ?_, rfl, rfl, ?_, ?_, ?_⟩
  · unfold SphericalHarmonicsGravityField.getGradientOfPotential
    rw [MatrixXd.block_ok hcos, MatrixXd.block_ok hsin]
  · unfold SphericalHarmonicsGravityField.getGravitationalPotential
    rw [MatrixXd.block_ok hcos', MatrixXd.block_ok hsin']
  · intro m
    simp only [MatrixXd.inBlock]
    omega
  · intro n
    simp only [MatrixXd.inBlock]
    omega
  · simp only [MatrixXd.inBlock]
    omega

/-- C18, at the failing input: on the field of degree and order 2, asked for degree 2
and order 2, the acceleration sum is handed a cosine block of 2 rows and 2 columns and a
sine block of 2 rows, while the potential is handed a cosine block of 3 rows and 3
columns. -/
theorem gradient_receives_smaller_blocks_for_degree_two :
    Example.gravityField.getGradientOfPotential Example.probe Example.position 2 2 =
        .ok ![2, 2, 2] ∧
      Example.gravityField.getGravitationalPotential Example.probe Example.position 2 2
        0 0 = .ok 33 := by
  have hconstructed : Constructed Example.gravityField :=
    Constructed.constructor 398600 6378 Example.cosineCoefficients
      Example.sineCoefficients "IAU_Earth" false Example.gravityField rfl
  have h := gradient_receives_smaller_blocks Example.probe Example.gravityField
    hconstructed Example.position 2 2 (by decide) (by decide) (by decide) (by decide)
  exact ⟨h.1.trans rfl, h.2.1.trans rfl⟩

/-! ## The block of the derivative that receives the parameter partials -/

/-- C20 (the code departs from the claim): in an engine returned by the constructor, B
is allocated with `totalDynamicalStateSize_` rows and `numberOfParameterValues_ -
totalDynamicalStateSize_` columns, but the block of the derivative to which
`getParameterPartialMatrix` adds B is requested with `totalDynamicalStateSize_ -
numberOfParameterValues_` columns. Whenever `numberOfParameterValues_ >
totalDynamicalStateSize_` that request is not a valid block of any matrix and
`getParameterPartialMatrix` yields no result. -/
theorem parameter_block_request_is_ill_formed (env : Collaborators σ ρ)
    (stateDerivativePartialList : List (IntegratedStateType × List (List PartialPtr)))
    (parametersToEstimate : EstimatableParameterSet ρ)
    (stateTypeStartIndices : List (IntegratedStateType × Int))
    (objects : PartialPtr → σ) (cerr : List Diagnostic) (calls : List (ProviderCall ρ))
    (s : VariationalEquations σ ρ)
    (hconstructed : VariationalEquations.constructor env stateDerivativePartialList
      parametersToEstimate stateTypeStartIndices objects cerr calls = some s)
    (h : s.numberOfParameterValues_ > s.totalDynamicalStateSize_)
    (currentMatrixDerivative : MatrixXd) :
    s.variationalParameterMatrix_.rows = s.totalDynamicalStateSize_ ∧
      s.variationalParameterMatrix_.cols =
        s.numberOfParameterValues_ - s.totalDynamicalStateSize_ ∧
      ¬ currentMatrixDerivative.validBlock 0 s.totalDynamicalStateSize_
        s.totalDynamicalStateSize_
        (s.totalDynamicalStateSize_ - s.numberOfParameterValues_) ∧
      s.getParameterPartialMatrix env currentMatrixDerivative = none := by
  obtain ⟨_, _, _, _, hzero, _⟩ := VariationalEquations.constructor_some hconstructed
  obtain ⟨_, _, hrows, hcols⟩ := MatrixXd.Zero_some hzero
  refine ⟨hrows, hcols, ?_, ?_⟩
  · intro hvalid
    have := hvalid.2.2.2.2.1
    omega
  · exact VariationalEquations.getParameterPartialMatrix_none env s currentMatrixDerivative h

/-- C20, at the failing input: the engine constructed for one vehicle with a
translational state and one scalar parameter holds a B of 6 rows and 1 column, and
`getParameterPartialMatrix` on a 6 by 7 derivative yields no result. -/
theorem parameter_block_request_is_ill_formed_for_vehicle :
    Example.vehicleEngine.variationalParameterMatrix_.rows = 6 ∧
      Example.vehicleEngine.variationalParameterMatrix_.cols = 1 ∧
      ¬ Example.vehicleDerivative.validBlock 0 6 6 (6 - 7) ∧
      Example.vehicleEngine.getParameterPartialMatrix Example.vehicleCollaborators
        Example.vehicleDerivative = none :=
  parameter_block_request_is_ill_formed Example.vehicleCollaborators _ _ _ _ _ _
    Example.vehicleEngine (Option.some_get _).symm (by decide) Example.vehicleDerivative

/-! ## The difference between the Lambert solution and the full problem -/

theorem mapAssign_keys_mem {β : Type} (key : Time) (value : β) (x : Time) :
    ∀ (map : List (Time × β)),
      x ∈ (mapAssign map key value).map Prod.fst ↔ x = key ∨ x ∈ map.map Prod.fst := by
  intro map
  induction map with
  | nil => simp [mapAssign]
  | cons head rest ih =>
    obtain ⟨k, v⟩ := head
    unfold mapAssign
    split
    · simp
    · split
      · rename_i heq
        subst heq
        simp
      · simp only [List.map_cons, List.mem_cons, ih]
        tauto

/-- Assigning to a key keeps the entries in ascending order of the keys. -/
theorem mapAssign_sorted {β : Type} (key : Time) (value : β) :
    ∀ (map : List (Time × β)), (map.map Prod.fst).Pairwise (fun a b => a < b) →
      ((mapAssign map key value).map Prod.fst).Pairwise (fun a b => a < b) := by
  intro map
  induction map with
  | nil => intro _; simp [mapAssign]
  | cons head rest ih =>
    obtain ⟨k, v⟩ := head
    intro hsorted
    simp only [List.map_cons, List.pairwise_cons] at hsorted
    unfold mapAssign
    split
    · rename_i hlt
      simp only [List.map_cons, List.pairwise_cons, List.mem_cons]
      refine ⟨?_, hsorted.1, hsorted.2⟩
      intro x hx
      rcases hx with rfl | hx
      · exact hlt
      · exact lt_trans hlt (hsorted.1 x hx)
    · split
      · rename_i heq
        subst heq
        simp only [List.map_cons, List.pairwise_cons]
        exact hsorted
      · rename_i hnlt hne
        simp only [List.map_cons, List.pairwise_cons]
        refine ⟨?_, ih hsorted.2⟩
        intro x hx
        rcases (mapAssign_keys_mem key value x rest).mp hx with rfl | hx
        · exact lt_of_le_of_ne (not_lt.mp hnlt) (Ne.symm hne)
        · exact hsorted.1 x hx

/-- The keys after an assignment depend on the keys before it only. -/
theorem mapAssign_keys_congr {β : Type} (key : Time) (value value' : β) :
    ∀ (map map' : List (Time × β)), map.map Prod.fst = map'.map Prod.fst →
      (mapAssign map key value).map Prod.fst =
        (mapAssign map' key value').map Prod.fst := by
  intro map
  induction map with
  | nil =>
    intro map' h
    cases map' with
    | nil => simp [mapAssign]
    | cons head' rest' => simp at h
  | cons head rest ih =>
    intro map' h
    cases map' with
    | nil => simp at h
    | cons head' rest' =>
      obtain ⟨k, v⟩ := head
      obtain ⟨k', v'⟩ := head'
      simp only [List.map_cons, List.cons.injEq] at h
      obtain ⟨hk, hrest⟩ := h
      subst hk
      unfold mapAssign
      split
      · simp [hrest]
      · split
        · simp [hrest]
        · simp only [List.map_cons, List.cons.injEq, true_and]
          exact ih rest' hrest

/-- Each loop keeps both result maps in ascending order of the same keys. -/
theorem fillResults_keys (lambertState : Time → Vector6d) :
    ∀ (history : List (Time × Vector6d))
      (results : List (Time × Vector6d) × List (Time × Vector6d)),
      (results.1.map Prod.fst).Pairwise (fun a b => a < b) →
      results.1.map Prod.fst = results.2.map Prod.fst →
      ((fillResults lambertState history results).1.map Prod.fst).Pairwise
          (fun a b => a < b) ∧
        (fillResults lambertState history results).1.map Prod.fst =
          (fillResults lambertState history results).2.map Prod.fst := by
  intro history
  induction history with
  | nil => intro results hsorted hkeys; exact ⟨hsorted, hkeys⟩
  | cons entry rest ih =>
    intro results hsorted hkeys
    simp only [fillResults, List.foldl_cons]
    exact ih _ (mapAssign_sorted _ _ _ hsorted) (mapAssign_keys_congr _ _ _ _ _ hkeys)

/-- The result maps of the propagation are in ascending order of the same keys. -/
theorem propagateLambertTargeterAndFullProblem_keys (run : LambertPropagation)
    (lambertTargeterResult fullProblemResult : List (Time × Vector6d)) :
    ((propagateLambertTargeterAndFullProblem run lambertTargeterResult
        fullProblemResult).1.map Prod.fst).Pairwise (fun a b => a < b) ∧
      (propagateLambertTargeterAndFullProblem run lambertTargeterResult
          fullProblemResult).1.map Prod.fst =
        (propagateLambertTargeterAndFullProblem run lambertTargeterResult
          fullProblemResult).2.map Prod.fst := by
  unfold propagateLambertTargeterAndFullProblem
  have hforward := fillResults_keys
    (fun epoch => run.propagateLambertTargeterSolution
      run.initialStatePropagationCartesianElements
      (epoch - (run.initialTime + run.halvedTimeOfFlight))
      run.gravitationalParameterCentralBody)
    run.stateHistoryFullProblemForwardPropagation ([], []) List.Pairwise.nil rfl
  exact fillResults_keys _ _ _ hforward.1 hforward.2

/-- In a map with ascending keys, `at` finds every entry. -/
theorem mapAt_of_mem_sorted {β : Type} (key : Time) (value : β) :
    ∀ (map : List (Time × β)), (map.map Prod.fst).Pairwise (fun a b => a < b) →
      (key, value) ∈ map → mapAt map key = some value := by
  intro map
  induction map with
  | nil => intro _ hmem; simp at hmem
  | cons head rest ih =>
    obtain ⟨k, v⟩ := head
    intro hsorted hmem
    simp only [List.map_cons, List.pairwise_cons] at hsorted
    simp only [List.mem_cons, Prod.mk.injEq] at hmem
    unfold mapAt
    rcases hmem with ⟨rfl, rfl⟩ | hmem
    · simp
    · have hlt : k < key := hsorted.1 key (List.mem_map.mpr ⟨(key, value), hmem, rfl⟩)
      rw [if_neg (ne_of_lt hlt)]
      exact ih hsorted.2 hmem

/-- The first of ascending keys is the smallest, the last the largest. -/
theorem sorted_head_getLast (keys : List Time) (hsorted : keys.Pairwise (fun a b => a < b))
    (first last : Time) (hfirst : keys.head? = some first)
    (hlast : keys.getLast? = some last) :
    ∀ x ∈ keys, first ≤ x ∧ x ≤ last := by
  induction keys generalizing first with
  | nil => simp at hfirst
  | cons a rest ih =>
    simp only [List.head?_cons, Option.some.injEq] at hfirst
    subst hfirst
    simp only [List.pairwise_cons] at hsorted
    cases rest with
    | nil =>
      simp only [List.getLast?_singleton, Option.some.injEq] at hlast
      subst hlast
      intro x hx
      simp only [List.mem_singleton] at hx
      subst hx
      exact ⟨le_refl _, le_refl _⟩
    | cons b rest' =>
      have hlast' : (b :: rest').getLast? = some last := by
        rw [List.getLast?_cons_cons] at hlast
        exact hlast
      have hrest := ih hsorted.2 b rfl hlast'
      intro x hx
      rcases List.mem_cons.mp hx with rfl | hx
      · have hb := hrest b (List.mem_cons_self _ _)
        have hab := hsorted.1 b (List.mem_cons_self _ _)
        exact ⟨le_refl _, le_trans (le_of_lt hab) hb.2⟩
      · have hxb := hrest x hx
        have hab := hsorted.1 b (List.mem_cons_self _ _)
        exact ⟨le_trans (le_of_lt hab) hxb.1, hxb.2⟩

/-- C19: when the result maps that `propagateLambertTargeterAndFullProblem` leaves are
not empty, `getDifferenceFullPropagationWrtLambertTargeterAtDepartureAndArrival`
returns a pair whose first component is the Lambert state minus the full-problem state
at the smallest epoch of the results and whose second component is the Lambert state
minus the full-problem state at the largest epoch. -/
theorem difference_at_departure_and_arrival (run : LambertPropagation)
    (hlambert : (propagateLambertTargeterAndFullProblem run [] []).1 ≠ [])
    (hfull : (propagateLambertTargeterAndFullProblem run [] []).2 ≠ []) :
    ∃ departure arrival lambertAtDeparture fullAtDeparture lambertAtArrival fullAtArrival,
      (∀ entry ∈ (propagateLambertTargeterAndFullProblem run [] []).1,
        departure ≤ entry.1 ∧ entry.1 ≤ arrival) ∧
      (∀ entry ∈ (propagateLambertTargeterAndFullProblem run [] []).2,
        departure ≤ entry.1 ∧ entry.1 ≤ arrival) ∧
      mapAt (propagateLambertTargeterAndFullProblem run [] []).1 departure =
        some lambertAtDeparture ∧
      mapAt (propagateLambertTargeterAndFullProblem run [] []).2 departure =
        some fullAtDeparture ∧
      mapAt (propagateLambertTargeterAndFullProblem run [] []).1 arrival =
        some lambertAtArrival ∧
      mapAt (propagateLambertTargeterAndFullProblem run [] []).2 arrival =
        some fullAtArrival ∧
      getDifferenceFullPropagationWrtLambertTargeterAtDepartureAndArrival run =
        some (lambertAtDeparture - fullAtDeparture, lambertAtArrival - fullAtArrival) := by
  obtain ⟨hsorted, hkeys⟩ := propagateLambertTargeterAndFullProblem_keys run [] []
  unfold getDifferenceFullPropagationWrtLambertTargeterAtDepartureAndArrival
  generalize propagateLambertTargeterAndFullProblem run [] [] = results at *
  obtain ⟨lambert, full⟩ := results
  simp only at hlambert hfull hsorted hkeys ⊢
  have hsorted' : (full.map Prod.fst).Pairwise (fun a b => a < b) := hkeys ▸ hsorted
  obtain ⟨lh, hlh⟩ : ∃ lh, lambert.head? = some lh := by
    cases lambert with
    | nil => exact absurd rfl hlambert
    | cons a _ => exact ⟨a, rfl⟩
  obtain ⟨fh, hfh⟩ : ∃ fh, full.head? = some fh := by
    cases full with
    | nil => exact absurd rfl hfull
    | cons a _ => exact ⟨a, rfl⟩
  obtain ⟨ll, hll⟩ : ∃ ll, lambert.getLast? = some ll :=
    ⟨lambert.getLast hlambert, List.getLast?_eq_getLast _ hlambert⟩
  obtain ⟨fl, hfl⟩ : ∃ fl, full.getLast? = some fl :=
    ⟨full.getLast hfull, List.getLast?_eq_getLast _ hfull⟩
  have hkl : (lambert.map Prod.fst).head? = some lh.1 := by
    rw [List.head?_map, hlh]; rfl
  have hkf : (full.map Prod.fst).head? = some fh.1 := by
    rw [List.head?_map, hfh]; rfl
  have hkll : (lambert.map Prod.fst).getLast? = some ll.1 := by
    rw [List.getLast?_map, hll]; rfl
  have hkfl : (full.map Prod.fst).getLast? = some fl.1 := by
    rw [List.getLast?_map, hfl]; rfl
  have hhead : fh.1 = lh.1 := by
    rw [hkeys, hkf] at hkl
    exact Option.some.inj hkl
  have hlast : fl.1 = ll.1 := by
    rw [hkeys, hkfl] at hkll
    exact Option.some.inj hkll
  have hboundsL := sorted_head_getLast _ hsorted lh.1 ll.1 hkl hkll
  have hboundsF := sorted_head_getLast _ hsorted' lh.1 ll.1 (hhead ▸ hkf) (hlast ▸ hkfl)
  refine ⟨lh.1, ll.1, lh.2, fh.2, ll.2, fl.2, ?_, ?_, ?_, ?_, ?_, ?_, ?_⟩
  · intro entry hentry
    exact hboundsL entry.1 (List.mem_map.mpr ⟨entry, hentry, rfl⟩)
  · intro entry hentry
    exact hboundsF entry.1 (List.mem_map.mpr ⟨entry, hentry, rfl⟩)
  · exact mapAt_of_mem_sorted lh.1 lh.2 lambert hsorted (List.mem_of_mem_head? hlh)
  · rw [← hhead]
    exact mapAt_of_mem_sorted fh.1 fh.2 full hsorted' (List.mem_of_mem_head? hfh)
  · exact mapAt_of_mem_sorted ll.1 ll.2 lambert hsorted (List.mem_of_mem_getLast? hll)
  · rw [← hlast]
    exact mapAt_of_mem_sorted fl.1 fl.2 full hsorted' (List.mem_of_mem_getLast? hfl)
  · rw [hlh, hfh, hll, hfl]

/-- C19, on the transfer from epoch 0 to epoch 10: the result maps hold the epochs 0, 5
and 10, and the difference returned is 95 - 3 in every component at departure and
105 - 7 in every component at arrival. -/
theorem difference_at_departure_and_arrival_for_transfer :
    (propagateLambertTargeterAndFullProblem Example.transfer [] []).1.map Prod.fst =
        [0, 5, 10] ∧
      (getDifferenceFullPropagationWrtLambertTargeterAtDepartureAndArrival
        Example.transfer).map (fun difference => (difference.1 0, difference.2 0)) =
          some (92, 98) ∧
      ∃ departure arrival lambertAtDeparture fullAtDeparture lambertAtArrival
          fullAtArrival,
        (∀ entry ∈ (propagateLambertTargeterAndFullProblem Example.transfer [] []).1,
          departure ≤ entry.1 ∧ entry.1 ≤ arrival) ∧
        (∀ entry ∈ (propagateLambertTargeterAndFullProblem Example.transfer [] []).2,
          departure ≤ entry.1 ∧ entry.1 ≤ arrival) ∧
        mapAt (propagateLambertTargeterAndFullProblem Example.transfer [] []).1
          departure = some lambertAtDeparture ∧
        mapAt (propagateLambertTargeterAndFullProblem Example.transfer [] []).2
          departure = some fullAtDeparture ∧
        mapAt (propagateLambertTargeterAndFullProblem Example.transfer [] []).1
          arrival = some lambertAtArrival ∧
        mapAt (propagateLambertTargeterAndFullProblem Example.transfer [] []).2
          arrival = some fullAtArrival ∧
        getDifferenceFullPropagationWrtLambertTargeterAtDepartureAndArrival
            Example.transfer =
          some (lambertAtDeparture - fullAtDeparture,
            lambertAtArrival - fullAtArrival) :=
  ⟨by decide, by decide,
    difference_at_departure_and_arrival Example.transfer (by decide) (by decide)⟩

/-! ## Registration of one provider -/

/-- The record of provider calls after `addParameterPartialToList`: the provider has been
asked for its dependency on every parameter of the list, once each and in order. -/
theorem addParameterPartialToList_calls (env : Collaborators σ ρ) (objects : PartialPtr → σ)
    (partialObject : PartialPtr) (sub : Int) :
    ∀ (parameterList : List (Int × ρ)) (st : VariationalEquations.RegisterState ρ),
      (VariationalEquations.addParameterPartialToList env objects partialObject sub
          parameterList st).2 =
        st.2 ++ parameterList.map (fun parameter =>
          ProviderCall.setParameterPartialUpdateFunction partialObject parameter.2) := by
  intro parameterList
  induction parameterList with
  | nil =>
    intro st
    simp [VariationalEquations.addParameterPartialToList]
  | cons head rest ih =>
    intro st
    obtain ⟨index, parameter⟩ := head
    simp only [VariationalEquations.addParameterPartialToList]
    split
    · rw [ih]
      simp
    · rw [ih]
      simp

/-- The number of entries after `addParameterPartialToList`: one more for every parameter
of the list for which the provider reports a non-zero width. -/
theorem addParameterPartialToList_length (env : Collaborators σ ρ)
    (objects : PartialPtr → σ) (partialObject : PartialPtr) (sub : Int) :
    ∀ (parameterList : List (Int × ρ)) (st : VariationalEquations.RegisterState ρ),
      (VariationalEquations.addParameterPartialToList env objects partialObject sub
          parameterList st).1.length =
        st.1.length + (parameterList.filter (fun parameter =>
          decide (env.setParameterPartialUpdateFunction (objects partialObject)
            parameter.2 ≠ 0))).length := by
  intro parameterList
  induction parameterList with
  | nil =>
    intro st
    simp [VariationalEquations.addParameterPartialToList]
  | cons head rest ih =>
    intro st
    obtain ⟨index, parameter⟩ := head
    simp only [VariationalEquations.addParameterPartialToList]
    by_cases hw : env.setParameterPartialUpdateFunction (objects partialObject) parameter = 0
    · rw [if_neg (by simpa using hw), ih]
      simp [hw]
    · rw [if_pos hw, ih, (multimapInsert_perm _ st.1).length_eq]
      simp [hw]
      omega

/-- C21: `addParameterPartialToList` registers an entry for a provider and a parameter if
and only if the provider's `setParameterPartialUpdateFunction` reports a non-zero width
for the parameter. The entries afterwards are those held before and, for every
parameter of the list with a non-zero width `w`, the entry with key `(parameter index -
totalParameterVectorIndicesToSubtract, w)` bound to the provider and the parameter;
their number grows by the number of parameters with a non-zero width, so a width of 0
adds nothing; and the call does nothing else than ask the provider once per
parameter. -/
theorem entry_registered_iff_width_nonzero (env : Collaborators σ ρ)
    (objects : PartialPtr → σ) (partialObject : PartialPtr)
    (totalParameterVectorIndicesToSubtract : Int) (parameterList : List (Int × ρ))
    (st : VariationalEquations.RegisterState ρ) :
    (∀ entry, entry ∈ (VariationalEquations.addParameterPartialToList env objects
          partialObject totalParameterVectorIndicesToSubtract parameterList st).1 ↔
        entry ∈ st.1 ∨ ∃ parameter ∈ parameterList,
          env.setParameterPartialUpdateFunction (objects partialObject) parameter.2 ≠ 0 ∧
          entry = ((parameter.1 - totalParameterVectorIndicesToSubtract,
              env.setParameterPartialUpdateFunction (objects partialObject) parameter.2),
            ⟨partialObject, parameter.2⟩)) ∧
      (VariationalEquations.addParameterPartialToList env objects partialObject
          totalParameterVectorIndicesToSubtract parameterList st).1.length =
        st.1.length + (parameterList.filter (fun parameter =>
          decide (env.setParameterPartialUpdateFunction (objects partialObject)
            parameter.2 ≠ 0))).length ∧
      (VariationalEquations.addParameterPartialToList env objects partialObject
          totalParameterVectorIndicesToSubtract parameterList st).2 =
        st.2 ++ parameterList.map (fun parameter =>
          ProviderCall.setParameterPartialUpdateFunction partialObject parameter.2) := by
  refine ⟨?_, addParameterPartialToList_length env objects partialObject _ parameterList st,
    addParameterPartialToList_calls env objects partialObject _ parameterList st⟩
  intro entry
  rw [(addParameterPartialToList_perm env objects partialObject
    totalParameterVectorIndicesToSubtract parameterList st).mem_iff, List.mem_append,
    List.mem_filterMap]
  constructor
  · rintro (hold | ⟨parameter, hparameter, hregistered⟩)
    · exact Or.inl hold
    · refine Or.inr ⟨parameter, hparameter, ?_⟩
      unfold registeredEntry at hregistered
      split at hregistered
      · rename_i hw
        simp only [Option.some.injEq] at hregistered
        exact ⟨hw, hregistered.symm⟩
      · cases hregistered
  · rintro (hold | ⟨parameter, hparameter, hw, rfl⟩)
    · exact Or.inl hold
    · refine Or.inr ⟨parameter, hparameter, ?_⟩
      unfold registeredEntry
      rw [if_pos hw]

/-- C21, on a provider that reports the width 2 for parameter 0 and the width 0 for
parameter 1, with the parameters at the indices 6 and 7 and 2 indices to subtract: the
only entry made has the key (4, 2), and the provider has been asked about both
parameters. -/
theorem entry_registered_iff_width_nonzero_for_wide_provider :
    (VariationalEquations.addParameterPartialToList Example.wideCollaborators (fun _ => 0)
        0 2 [(6, 0), (7, 1)] ([], [])).1 = [((4, 2), ⟨0, 0⟩)] ∧
      (VariationalEquations.addParameterPartialToList Example.wideCollaborators (fun _ => 0)
        0 2 [(6, 0), (7, 1)] ([], [])).1.length = 0 + 1 ∧
      (VariationalEquations.addParameterPartialToList Example.wideCollaborators (fun _ => 0)
        0 2 [(6, 0), (7, 1)] ([], [])).2 =
          [ProviderCall.setParameterPartialUpdateFunction 0 0,
            ProviderCall.setParameterPartialUpdateFunction 0 1] :=
  ⟨rfl,
    (entry_registered_iff_width_nonzero Example.wideCollaborators (fun _ => 0) 0 2
      [(6, 0), (7, 1)] ([], [])).2.1,
    (entry_registered_iff_width_nonzero Example.wideCollaborators (fun _ => 0) 0 2
      [(6, 0), (7, 1)] ([], [])).2.2⟩

/-! ## The partial with respect to the position of the accelerated body -/

/-- C23: when the 3 by 3 block at `(startRow, startColumn)` lies inside the matrix,
`wrtPositionOfAcceleratedBody` returns the matrix of the same size in which every
coefficient of the block has grown by the coefficient of the cached position partial at
the same place of the block when `addContribution` is true, has shrunk by it when
`addContribution` is false, and every coefficient outside the block is unchanged. -/
theorem accelerated_body_partial_changes_block_only
    (self : CannonBallRadiationPressurePartial) (partialMatrix : MatrixXd)
    (addContribution : Bool) (startRow startColumn : Int)
    (hvalid : partialMatrix.validBlock startRow startColumn 3 3) :
    ∃ after,
      self.wrtPositionOfAcceleratedBody partialMatrix addContribution startRow
        startColumn = some after ∧
      after.rows = partialMatrix.rows ∧ after.cols = partialMatrix.cols ∧
      (∀ i j, startRow ≤ i → i < startRow + 3 → startColumn ≤ j → j < startColumn + 3 →
        after.coeff i j =
          if addContribution then
            partialMatrix.coeff i j +
              self.currentPartialWrtPosition_ (i - startRow) (j - startColumn)
          else
            partialMatrix.coeff i j -
              self.currentPartialWrtPosition_ (i - startRow) (j - startColumn)) ∧
      ∀ i j, ¬ (startRow ≤ i ∧ i < startRow + 3 ∧ startColumn ≤ j ∧ j < startColumn + 3) →
        after.coeff i j = partialMatrix.coeff i j := by
  cases addContribution
  · cases hsub : partialMatrix.subAssignBlock startRow startColumn 3 3
        ⟨3, 3, self.currentPartialWrtPosition_⟩ with
    | none =>
      unfold MatrixXd.subAssignBlock at hsub
      rw [if_pos ⟨hvalid, rfl, rfl⟩] at hsub
      cases hsub
    | some after =>
      obtain ⟨_, hrows, hcols, hcoeff⟩ := MatrixXd.subAssignBlock_some hsub
      refine ⟨after, ?_, hrows, hcols, ?_, ?_⟩
      · simp only [CannonBallRadiationPressurePartial.wrtPositionOfAcceleratedBody]
        exact hsub
      · intro i j hi hi' hj hj'
        rw [hcoeff i j, if_pos (show MatrixXd.inBlock startRow startColumn 3 3 i j from
          ⟨hi, hi', hj, hj'⟩)]
        simp
      · intro i j hout
        rw [hcoeff i j,
          if_neg (show ¬ MatrixXd.inBlock startRow startColumn 3 3 i j from hout)]
  · cases hadd : partialMatrix.addAssignBlock startRow startColumn 3 3
        ⟨3, 3, self.currentPartialWrtPosition_⟩ with
    | none =>
      unfold MatrixXd.addAssignBlock at hadd
      rw [if_pos ⟨hvalid, rfl, rfl⟩] at hadd
      cases hadd
    | some after =>
      obtain ⟨_, hrows, hcols, hcoeff⟩ := MatrixXd.addAssignBlock_some hadd
      refine ⟨after, ?_, hrows, hcols, ?_, ?_⟩
      · simp only [CannonBallRadiationPressurePartial.wrtPositionOfAcceleratedBody]
        exact hadd
      · intro i j hi hi' hj hj'
        rw [hcoeff i j, if_pos (show MatrixXd.inBlock startRow startColumn 3 3 i j from
          ⟨hi, hi', hj, hj'⟩)]
        simp
      · intro i j hout
        rw [hcoeff i j,
          if_neg (show ¬ MatrixXd.inBlock startRow startColumn 3 3 i j from hout)]

/-- C23, on the 6 by 6 matrix with the coefficients `i - j` and the block at row 3,
column 0: with `addContribution` the coefficient at (4, 2), which is 2, grows by the
coefficient 6 of the partial at (1, 2), and the coefficient at (0, 0) stays 0. -/
theorem accelerated_body_partial_changes_block_only_for_state_block :
    ∃ after,
      Example.pressurePartial.wrtPositionOfAcceleratedBody Example.stateBlock true 3 0 =
        some after ∧
      after.coeff 4 2 = 8 ∧ after.coeff 0 0 = 0 := by
  obtain ⟨after, hafter, _, _, hin, hout⟩ := accelerated_body_partial_changes_block_only
    Example.pressurePartial Example.stateBlock true 3 0 (by decide)
  refine ⟨after, hafter, ?_, ?_⟩
  · rw [hin 4 2 (by decide) (by decide) (by decide) (by decide)]
    decide
  · rw [hout 0 0 (by decide)]
    decide

/-! ## The update of the radiation pressure partial -/

theorem doubleEq_some (cached : Option Time) (time : Time) :
    doubleEq cached (some time) = true ↔ cached = some time := by
  cases cached with
  | none => simp [doubleEq]
  | some held => simp [doubleEq]

theorem doubleEq_none (cached : Option Time) : doubleEq cached none = false := by
  cases cached <;> rfl

/-- C22 (counterexample): a time that is not a number differs from every cached time,
itself included. After `update( NaN )` the cached time is not a number, and a second
`update( NaN )` is not a no-op: it calls the function members again, the area function
for the second time, and replaces the coefficient -16 computed for the mass 3 by the
coefficient -24 computed for the mass 2 that the body has by then. -/
theorem update_with_not_a_number_recomputes :
    (Example.pressurePartial.update Example.operations Example.readings none).currentTime_ =
        none ∧
      (Example.pressurePartial.update Example.operations Example.readings
        none).evaluations BoundQuantity.areaFunction_ = 1 ∧
      (Example.pressurePartial.update Example.operations Example.readings
        none).currentPartialWrtPosition_ 0 0 = -16 ∧
      ((Example.pressurePartial.update Example.operations Example.readings none).update
        Example.operations Example.laterReadings none).evaluations
          BoundQuantity.areaFunction_ = 2 ∧
      ((Example.pressurePartial.update Example.operations Example.readings none).update
        Example.operations Example.laterReadings none).currentPartialWrtPosition_ 0 0 =
          -24 := by
  refine ⟨rfl, rfl, by decide, rfl, by decide⟩

/-- C22 (amended): `update` memoizes on exact equality of the time. Called with a time
equal to the cached time it returns the object as it is: the cached partial, the cached
time and the number of calls to each function member are unchanged. Called with a value
that differs from the cached time, a smaller or greater time or a value that is not a
number, it calls each of the six function members once and stores the position partial
computed from what they return and the value as the cached time. After `update( t )`
for a time `t` a second `update( t )` returns the object unchanged, whatever the
function members return by then; a value that is not a number differs from every cached
time, so `update` with it recomputes on every call. -/
theorem update_memoizes_on_time (ops : ScalarOperations)
    (readings later : RadiationPressureReadings)
    (self : CannonBallRadiationPressurePartial) :
    (∀ time : Time, self.currentTime_ = some time →
        self.update ops readings (some time) = self) ∧
      (∀ currentTime : Option Time, doubleEq self.currentTime_ currentTime = false →
        (self.update ops readings currentTime).currentPartialWrtPosition_ =
          positionPartial ops readings ∧
        (self.update ops readings currentTime).currentTime_ = currentTime ∧
        ∀ quantity, (self.update ops readings currentTime).evaluations quantity =
          self.evaluations quantity + 1) ∧
      (∀ time : Time,
        (self.update ops readings (some time)).update ops later (some time) =
          self.update ops readings (some time)) ∧
      (∀ time : Time, self.currentTime_ ≠ some time →
        doubleEq self.currentTime_ (some time) = false) ∧
      doubleEq self.currentTime_ none = false := by
  have hkeep : ∀ (object : CannonBallRadiationPressurePartial)
      (data : RadiationPressureReadings) (time : Time),
      object.currentTime_ = some time → object.update ops data (some time) = object := by
    intro object data time hsame
    unfold CannonBallRadiationPressurePartial.update
    rw [(doubleEq_some _ _).mpr hsame]
    rfl
  refine ⟨fun time hsame => hkeep self readings time hsame, ?_, ?_, ?_, doubleEq_none _⟩
  · intro currentTime hdifferent
    unfold CannonBallRadiationPressurePartial.update
    rw [hdifferent]
    exact ⟨rfl, rfl, fun _ => rfl⟩
  · intro time
    apply hkeep
    unfold CannonBallRadiationPressurePartial.update
    split
    · rfl
    · rename_i hsame
      simp only [Bool.not_eq_true, Bool.not_eq_false', Bool.not_not] at hsame
      exact (doubleEq_some _ _).mp (by simpa using hsame)
  · intro time hdifferent
    cases hcompare : doubleEq self.currentTime_ (some time) with
    | false => rfl
    | true => exact absurd ((doubleEq_some _ _).mp hcompare) hdifferent

/-- C22 (amended), on a partial cached for time 5: `update( 5 )` calls no function member
and keeps the coefficient 1 at (0, 0); `update( 3 )`, an earlier time, stores the time 3
and the coefficient 8 * (1 - 3) = -16 computed for the mass 3 and calls the area
function once; a second `update( 3 )` keeps the coefficient although the mass is 2 by
then and a new computation would give -24. -/
theorem update_memoizes_on_time_for_cached_partial :
    (Example.pressurePartial.update Example.operations Example.readings
        (some 5)).evaluations BoundQuantity.areaFunction_ = 0 ∧
      (Example.pressurePartial.update Example.operations Example.readings
        (some 5)).currentPartialWrtPosition_ 0 0 = 1 ∧
      (Example.pressurePartial.update Example.operations Example.readings
        (some 3)).currentTime_ = some 3 ∧
      (Example.pressurePartial.update Example.operations Example.readings
        (some 3)).evaluations BoundQuantity.areaFunction_ = 1 ∧
      (Example.pressurePartial.update Example.operations Example.readings
        (some 3)).currentPartialWrtPosition_ 0 0 = -16 ∧
      ((Example.pressurePartial.update Example.operations Example.readings (some 3)).update
        Example.operations Example.laterReadings (some 3)).currentPartialWrtPosition_ 0 0 =
          -16 ∧
      positionPartial Example.operations Example.laterReadings 0 0 = -24 := by
  have h := update_memoizes_on_time Example.operations Example.readings
    Example.laterReadings Example.pressurePartial
  have hsame := h.1 5 rfl
  have hearlier := h.2.1 (some 3) rfl
  have hsecond := h.2.2.1 3
  refine ⟨by rw [hsame]; rfl, by rw [hsame]; rfl, hearlier.2.1,
    hearlier.2.2 BoundQuantity.areaFunction_, ?_, ?_, by decide⟩
  · rw [hearlier.1]
    decide
  · rw [hsecond, hearlier.1]
    decide

/-! ## The setters of the spherical harmonics gravity field -/

/-- C24: `setCosineCoefficients` and `setSineCoefficients` throw a runtime error if and
only if the new matrix differs in rows or in columns from the stored one. When they
throw, the object is left as it was: the stored coefficients are unchanged and the
function that updates the inertia tensor has not been called. Otherwise they return, the
matching getter returns the new matrix, the other coefficients are unchanged, and the
function that updates the inertia tensor has been called once if it is set and not at
all if it is not. -/
theorem setters_throw_iff_sizes_differ (self : SphericalHarmonicsGravityField)
    (coefficients : MatrixXd) :
    (((∃ what, (self.setCosineCoefficients coefficients).2 =
            some (.runtime_error what)) ↔
          (coefficients.rows ≠ self.getCosineCoefficients.rows ∨
            coefficients.cols ≠ self.getCosineCoefficients.cols)) ∧
        ((coefficients.rows ≠ self.getCosineCoefficients.rows ∨
            coefficients.cols ≠ self.getCosineCoefficients.cols) →
          (self.setCosineCoefficients coefficients).1 = self) ∧
        (¬ (coefficients.rows ≠ self.getCosineCoefficients.rows ∨
            coefficients.cols ≠ self.getCosineCoefficients.cols) →
          (self.setCosineCoefficients coefficients).2 = none ∧
          (self.setCosineCoefficients coefficients).1.getCosineCoefficients =
            coefficients ∧
          (self.setCosineCoefficients coefficients).1.getSineCoefficients =
            self.getSineCoefficients ∧
          (self.setCosineCoefficients coefficients).1.inertiaTensorUpdates =
            self.inertiaTensorUpdates + (if self.updateInertiaTensor_ then 1 else 0))) ∧
      (((∃ what, (self.setSineCoefficients coefficients).2 =
            some (.runtime_error what)) ↔
          (coefficients.rows ≠ self.getSineCoefficients.rows ∨
            coefficients.cols ≠ self.getSineCoefficients.cols)) ∧
        ((coefficients.rows ≠ self.getSineCoefficients.rows ∨
            coefficients.cols ≠ self.getSineCoefficients.cols) →
          (self.setSineCoefficients coefficients).1 = self) ∧
        (¬ (coefficients.rows ≠ self.getSineCoefficients.rows ∨
            coefficients.cols ≠ self.getSineCoefficients.cols) →
          (self.setSineCoefficients coefficients).2 = none ∧
          (self.setSineCoefficients coefficients).1.getSineCoefficients =
            coefficients ∧
          (self.setSineCoefficients coefficients).1.getCosineCoefficients =
            self.getCosineCoefficients ∧
          (self.setSineCoefficients coefficients).1.inertiaTensorUpdates =
            self.inertiaTensorUpdates + (if self.updateInertiaTensor_ then 1 else 0))) := by
  have hcount : ∀ field : SphericalHarmonicsGravityField,
      field.callUpdateInertiaTensor.inertiaTensorUpdates =
        field.inertiaTensorUpdates + (if field.updateInertiaTensor_ then 1 else 0) := by
    intro field
    unfold SphericalHarmonicsGravityField.callUpdateInertiaTensor
    split <;> simp
  constructor
  · by_cases hsizes : coefficients.rows ≠ self.cosineCoefficients_.rows ∨
        coefficients.cols ≠ self.cosineCoefficients_.cols
    · have hrun : self.setCosineCoefficients coefficients = (self, some (.runtime_error
          "Error when resettings spherical harmonics gravity field cosine coefficients; sizes are incompatible")) := by
        unfold SphericalHarmonicsGravityField.setCosineCoefficients
        rw [if_pos hsizes]
      refine ⟨⟨fun _ => hsizes, fun _ => ⟨_, by rw [hrun]⟩⟩, fun _ => by rw [hrun],
        fun hnot => absurd hsizes hnot⟩
    · have hrun : self.setCosineCoefficients coefficients =
          (SphericalHarmonicsGravityField.callUpdateInertiaTensor
            { self with cosineCoefficients_ := coefficients }, none) := by
        unfold SphericalHarmonicsGravityField.setCosineCoefficients
        rw [if_neg hsizes]
      obtain ⟨hcos, hsin, _, _⟩ :=
        SphericalHarmonicsGravityField.callUpdateInertiaTensor_members
          { self with cosineCoefficients_ := coefficients }
      refine ⟨⟨fun hthrown => ?_, fun h => absurd h hsizes⟩, fun h => absurd h hsizes,
        fun _ => ?_⟩
      · obtain ⟨what, hwhat⟩ := hthrown
        rw [hrun] at hwhat
        cases hwhat
      · rw [hrun]
        exact ⟨rfl, hcos, hsin, hcount _⟩
  · by_cases hsizes : coefficients.rows ≠ self.sineCoefficients_.rows ∨
        coefficients.cols ≠ self.sineCoefficients_.cols
    · have hrun : self.setSineCoefficients coefficients = (self, some (.runtime_error
          "Error when resettings spherical harmonics gravity field cosine coefficients; sizes are incompatible")) := by
        unfold SphericalHarmonicsGravityField.setSineCoefficients
        rw [if_pos hsizes]
      refine ⟨⟨fun _ => hsizes, fun _ => ⟨_, by rw [hrun]⟩⟩, fun _ => by rw [hrun],
        fun hnot => absurd hsizes hnot⟩
    · have hrun : self.setSineCoefficients coefficients =
          (SphericalHarmonicsGravityField.callUpdateInertiaTensor
            { self with sineCoefficients_ := coefficients }, none) := by
        unfold SphericalHarmonicsGravityField.setSineCoefficients
        rw [if_neg hsizes]
      obtain ⟨hcos, hsin, _, _⟩ :=
        SphericalHarmonicsGravityField.callUpdateInertiaTensor_members
          { self with sineCoefficients_ := coefficients }
      refine ⟨⟨fun hthrown => ?_, fun h => absurd h hsizes⟩, fun h => absurd h hsizes,
        fun _ => ?_⟩
      · obtain ⟨what, hwhat⟩ := hthrown
        rw [hrun] at hwhat
        cases hwhat
      · rw [hrun]
        exact ⟨rfl, hsin, hcos, hcount _⟩

/-- C24, on the field of degree and order 2 with a function to update the inertia
tensor: setting 3 by 2 cosine coefficients throws and leaves the object as it was,
setting 3 by 3 cosine coefficients returns, stores them and calls the function once. -/
theorem setters_throw_iff_sizes_differ_for_degree_two :
    (∃ what, (Example.trackedField.setCosineCoefficients
        Example.narrowSineCoefficients).2 = some (.runtime_error what)) ∧
      (Example.trackedField.setCosineCoefficients Example.narrowSineCoefficients).1 =
        Example.trackedField ∧
      (Example.trackedField.setCosineCoefficients Example.newCoefficients).2 = none ∧
      (Example.trackedField.setCosineCoefficients
        Example.newCoefficients).1.getCosineCoefficients = Example.newCoefficients ∧
      (Example.trackedField.setCosineCoefficients
        Example.newCoefficients).1.inertiaTensorUpdates = 1 := by
  have hnarrow := (setters_throw_iff_sizes_differ Example.trackedField
    Example.narrowSineCoefficients).1
  have hnew := ((setters_throw_iff_sizes_differ Example.trackedField
    Example.newCoefficients).1).2.2 (by decide)
  exact ⟨hnarrow.1.mpr (by decide), hnarrow.2.1 (by decide), hnew.1, hnew.2.1,
    hnew.2.2.2⟩

/-- Every object reached by setter calls from an object a program can hold is one. -/
theorem constructed_afterCalls (calls : List SetterCall) :
    ∀ field : SphericalHarmonicsGravityField, Constructed field →
      Constructed (field.afterCalls calls) := by
  induction calls with
  | nil => intro field h; exact h
  | cons call rest ih =>
    intro field h
    cases call with
    | setCosineCoefficients cosineCoefficients =>
      exact ih _ (Constructed.setCosineCoefficients field cosineCoefficients h)
    | setSineCoefficients sineCoefficients =>
      exact ih _ (Constructed.setSineCoefficients field sineCoefficients h)

/-- The setters leave the maximum degree and order as they are. -/
theorem afterCalls_maximum (calls : List SetterCall) :
    ∀ field : SphericalHarmonicsGravityField,
      (field.afterCalls calls).maximumDegree_ = field.maximumDegree_ ∧
        (field.afterCalls calls).maximumOrder_ = field.maximumOrder_ := by
  induction calls with
  | nil => intro field; exact ⟨rfl, rfl⟩
  | cons call rest ih =>
    intro field
    cases call with
    | setCosineCoefficients cosineCoefficients =>
      simp only [SphericalHarmonicsGravityField.afterCalls]
      rw [(ih _).1, (ih _).2]
      unfold SphericalHarmonicsGravityField.setCosineCoefficients
      split
      · exact ⟨rfl, rfl⟩
      · obtain ⟨_, _, hdeg, hord⟩ :=
          SphericalHarmonicsGravityField.callUpdateInertiaTensor_members
            { field with cosineCoefficients_ := cosineCoefficients }
        exact ⟨hdeg, hord⟩
    | setSineCoefficients sineCoefficients =>
      simp only [SphericalHarmonicsGravityField.afterCalls]
      rw [(ih _).1, (ih _).2]
      unfold SphericalHarmonicsGravityField.setSineCoefficients
      split
      · exact ⟨rfl, rfl⟩
      · obtain ⟨_, _, hdeg, hord⟩ :=
          SphericalHarmonicsGravityField.callUpdateInertiaTensor_members
            { field with sineCoefficients_ := sineCoefficients }
        exact ⟨hdeg, hord⟩

/-- C26: the shape invariant of the gravity field. After a successful construction and
after any sequence of calls of `setCosineCoefficients` and `setSineCoefficients`,
returning or throwing, the stored cosine and sine matrices both have `maximumDegree_ +
1` rows and `maximumOrder_ + 1` columns, the maximum degree and order are those set at
construction, and `getDegreeOfExpansion` and `getOrderOfExpansion` are the number of
rows minus one and the number of columns minus one of the stored matrices. -/
theorem shape_invariant_of_gravity_field (gravitationalParameter referenceRadius : Scalar)
    (cosineCoefficients sineCoefficients : MatrixXd) (fixedReferenceFrame : String)
    (updateInertiaTensor : Bool) (field : SphericalHarmonicsGravityField)
    (hconstructed : SphericalHarmonicsGravityField.constructor gravitationalParameter
      referenceRadius cosineCoefficients sineCoefficients fixedReferenceFrame
      updateInertiaTensor = .ok field)
    (calls : List SetterCall) :
    (field.afterCalls calls).getCosineCoefficients.rows =
        (field.afterCalls calls).maximumDegree_ + 1 ∧
      (field.afterCalls calls).getCosineCoefficients.cols =
        (field.afterCalls calls).maximumOrder_ + 1 ∧
      (field.afterCalls calls).getSineCoefficients.rows =
        (field.afterCalls calls).maximumDegree_ + 1 ∧
      (field.afterCalls calls).getSineCoefficients.cols =
        (field.afterCalls calls).maximumOrder_ + 1 ∧
      (field.afterCalls calls).maximumDegree_ = field.maximumDegree_ ∧
      (field.afterCalls calls).maximumOrder_ = field.maximumOrder_ ∧
      (field.afterCalls calls).getDegreeOfExpansion =
        (field.afterCalls calls).getCosineCoefficients.rows - 1 ∧
      (field.afterCalls calls).getOrderOfExpansion =
        (field.afterCalls calls).getSineCoefficients.cols - 1 := by
  have hshape := constructed_hasDeclaredShape (constructed_afterCalls calls field
    (Constructed.constructor _ _ _ _ _ _ field hconstructed))
  obtain ⟨hcr, hcc, hsr, hsc⟩ := hshape
  obtain ⟨hdeg, hord⟩ := afterCalls_maximum calls field
  refine ⟨hcr, hcc, hsr, hsc, hdeg, hord, ?_, ?_⟩
  · simp only [SphericalHarmonicsGravityField.getDegreeOfExpansion,
      SphericalHarmonicsGravityField.getCosineCoefficients]
    rw [hcr, add_sub_cancel_right]
  · simp only [SphericalHarmonicsGravityField.getOrderOfExpansion,
      SphericalHarmonicsGravityField.getSineCoefficients]
    rw [hsc, add_sub_cancel_right]

/-- C26, on the field of degree and order 2 after a throwing call with 3 by 2 cosine
coefficients, a returning call with new sine coefficients and a throwing call with 3 by
2 sine coefficients: the stored matrices have 3 rows and 3 columns, the maximum degree
is 2, and the sine coefficients are the new ones. -/
theorem shape_invariant_of_gravity_field_for_degree_two :
    (Example.gravityField.afterCalls
        [SetterCall.setCosineCoefficients Example.narrowSineCoefficients,
          SetterCall.setSineCoefficients Example.newCoefficients,
          SetterCall.setSineCoefficients Example.narrowSineCoefficients]
      ).getCosineCoefficients.rows = 2 + 1 ∧
      (Example.gravityField.afterCalls
        [SetterCall.setCosineCoefficients Example.narrowSineCoefficients,
          SetterCall.setSineCoefficients Example.newCoefficients,
          SetterCall.setSineCoefficients Example.narrowSineCoefficients]
      ).getSineCoefficients = Example.newCoefficients :=
  ⟨(shape_invariant_of_gravity_field 398600 6378 Example.cosineCoefficients
      Example.sineCoefficients "IAU_Earth" false Example.gravityField rfl
      [SetterCall.setCosineCoefficients Example.narrowSineCoefficients,
        SetterCall.setSineCoefficients Example.newCoefficients,
        SetterCall.setSineCoefficients Example.narrowSineCoefficients]).1, rfl⟩

/-! ## The body angles of the aerodynamic angle ephemeris -/

/-- C27 (the code departs from the claim): when an angle function `f` is set and the
time asked for is not the cached time, `getBodyAngles` returns `f` at the cached time,
the member `currentTime_`, and not `f` at the time asked for: `updateBodyAngles` does
not use its argument. The cached time is left as it was. -/
theorem getBodyAngles_evaluates_at_cached_time (self : AerodynamicAngleRotationalEphemeris)
    (aerodynamicAngleFunction : Option Time → Vector3d)
    (hset : self.aerodynamicAngleFunction_ = some aerodynamicAngleFunction)
    (currentTime : Option Time) (hdifferent : doubleEq currentTime self.currentTime_ = false) :
    (self.getBodyAngles currentTime).1 = aerodynamicAngleFunction self.currentTime_ ∧
      (self.getBodyAngles currentTime).2.currentTime_ = self.currentTime_ := by
  unfold AerodynamicAngleRotationalEphemeris.getBodyAngles
    AerodynamicAngleRotationalEphemeris.updateBodyAngles
  simp [hdifferent, hset]

/-- C27, at the failing input: the ephemeris with the angles `(t, 2 t, 3 t)` holds the
time 0 after `resetCurrentTime( 0 )`; asked for the angles at time 5 it returns the
angles (0, 0, 0) of time 0, whereas the angles of time 5 are (5, 10, 15). -/
theorem getBodyAngles_evaluates_at_cached_time_for_ephemeris :
    Example.ephemeris.currentTime_ = some 0 ∧
      (Example.ephemeris.getBodyAngles (some 5)).1 = Example.angles (some 0) ∧
      Example.angles (some 0) = ![0, 0, 0] ∧
      Example.angles (some 5) = ![5, 10, 15] ∧
      (Example.ephemeris.getBodyAngles (some 5)).1 ≠ Example.angles (some 5) := by
  have h := (getBodyAngles_evaluates_at_cached_time Example.ephemeris Example.angles rfl
    (some 5) rfl).1
  refine ⟨rfl, h, by decide, by decide, ?_⟩
  rw [h]
  decide

/-! ## The result maps of the full propagation -/

/-- The keys after one of the loops: those held before and the epochs of the history. -/
theorem fillResults_keys_mem (lambertState : Time → Vector6d) (epoch : Time) :
    ∀ (history : List (Time × Vector6d))
      (results : List (Time × Vector6d) × List (Time × Vector6d)),
      epoch ∈ (fillResults lambertState history results).1.map Prod.fst ↔
        epoch ∈ results.1.map Prod.fst ∨ epoch ∈ history.map Prod.fst := by
  intro history
  induction history with
  | nil => intro results; simp [fillResults]
  | cons entry rest ih =>
    intro results
    have hstep := ih (mapAssign results.1 entry.1 (lambertState entry.1),
      mapAssign results.2 entry.1 entry.2)
    simp only [fillResults, List.foldl_cons] at hstep ⊢
    rw [hstep, mapAssign_keys_mem]
    simp only [List.map_cons, List.mem_cons]
    tauto

/-- C28: after `propagateLambertTargeterAndFullProblem` the two result maps do not
depend on what they held before the call, they have the same keys in the same order,
these keys are exactly the epochs of the forward and of the backward state history, each
once, and for every entry of the full-problem result the Lambert result has a state at
the same epoch. -/
theorem results_hold_the_epochs_of_both_histories (run : LambertPropagation)
    (lambertTargeterResult fullProblemResult : List (Time × Vector6d)) :
    propagateLambertTargeterAndFullProblem run lambertTargeterResult fullProblemResult =
        propagateLambertTargeterAndFullProblem run [] [] ∧
      (propagateLambertTargeterAndFullProblem run lambertTargeterResult
          fullProblemResult).1.map Prod.fst =
        (propagateLambertTargeterAndFullProblem run lambertTargeterResult
          fullProblemResult).2.map Prod.fst ∧
      ((propagateLambertTargeterAndFullProblem run lambertTargeterResult
          fullProblemResult).1.map Prod.fst).Nodup ∧
      (∀ epoch, epoch ∈ (propagateLambertTargeterAndFullProblem run lambertTargeterResult
            fullProblemResult).1.map Prod.fst ↔
          epoch ∈ run.stateHistoryFullProblemForwardPropagation.map Prod.fst ∨
            epoch ∈ run.stateHistoryFullProblemBackwardPropagation.map Prod.fst) ∧
      ∀ entry ∈ (propagateLambertTargeterAndFullProblem run lambertTargeterResult
          fullProblemResult).2,
        ∃ lambertState, mapAt (propagateLambertTargeterAndFullProblem run
          lambertTargeterResult fullProblemResult).1 entry.1 = some lambertState := by
  obtain ⟨hsorted, hkeys⟩ := propagateLambertTargeterAndFullProblem_keys run
    lambertTargeterResult fullProblemResult
  refine ⟨rfl, hkeys, ?_, ?_, ?_⟩
  · exact hsorted.imp (fun h => ne_of_lt h)
  · intro epoch
    unfold propagateLambertTargeterAndFullProblem
    simp only [fillResults_keys_mem, List.map_nil, List.not_mem_nil, false_or]
  · intro entry hentry
    have hkey : entry.1 ∈ (propagateLambertTargeterAndFullProblem run
        lambertTargeterResult fullProblemResult).1.map Prod.fst := by
      rw [hkeys]
      exact List.mem_map.mpr ⟨entry, hentry, rfl⟩
    obtain ⟨lambertEntry, hmem, hfst⟩ := List.mem_map.mp hkey
    refine ⟨lambertEntry.2, mapAt_of_mem_sorted entry.1 lambertEntry.2 _ hsorted ?_⟩
    rw [← hfst]
    exact hmem

/-- C28, on the transfer from epoch 0 to epoch 10 with result maps that hold an entry at
epoch 99 before the call: afterwards both maps hold the epochs 0, 5 and 10, the epoch 5
of both histories once, and nothing at epoch 99. -/
theorem results_hold_the_epochs_of_both_histories_for_transfer :
    (propagateLambertTargeterAndFullProblem Example.transfer [(99, fun _ => 1)]
        [(99, fun _ => 2)]).1.map Prod.fst = [0, 5, 10] ∧
      (propagateLambertTargeterAndFullProblem Example.transfer [(99, fun _ => 1)]
        [(99, fun _ => 2)]).2.map Prod.fst = [0, 5, 10] ∧
      (propagateLambertTargeterAndFullProblem Example.transfer [(99, fun _ => 1)]
          [(99, fun _ => 2)]).1.map Prod.fst =
        (propagateLambertTargeterAndFullProblem Example.transfer [(99, fun _ => 1)]
          [(99, fun _ => 2)]).2.map Prod.fst :=
  ⟨by decide, by decide,
    (results_hold_the_epochs_of_both_histories Example.transfer [(99, fun _ => 1)]
      [(99, fun _ => 2)]).2.1⟩

/-! ## The blocks of B handed to the providers lie inside B -/

theorem MatrixXd.validBlock_of_size {m m' : MatrixXd} (hrows : m'.rows = m.rows)
    (hcols : m'.cols = m.cols) {startRow startCol blockRows blockCols : Int}
    (h : m.validBlock startRow startCol blockRows blockCols) :
    m'.validBlock startRow startCol blockRows blockCols := by
  unfold MatrixXd.validBlock at h ⊢
  rw [hrows, hcols]
  exact h

/-- The innermost loop completes when every block it requests is a valid block. -/
theorem invokeFunctionList_isSome (env : Collaborators σ ρ) (objects : PartialPtr → σ)
    (total startRow blockRows : Int) :
    ∀ (functionList : FunctionList ρ) (st : FillState ρ),
      (∀ entry ∈ functionList,
        st.1.validBlock startRow (entry.1.1 - total) blockRows entry.1.2) →
      ∃ st', invokeFunctionList env objects total startRow blockRows functionList st =
        some st' := by
  intro functionList
  induction functionList with
  | nil => intro st _; exact ⟨st, rfl⟩
  | cons entry rest ih =>
    intro st h
    obtain ⟨key, fn⟩ := entry
    have hv := h (key, fn) (List.mem_cons_self _ _)
    simp only [invokeFunctionList, MatrixXd.applyToBlock]
    rw [if_pos hv]
    apply ih
    intro entry hentry
    exact MatrixXd.validBlock_of_size rfl rfl (h entry (List.mem_cons_of_mem _ hentry))

/-- The loop over the bodies completes when every block it requests is a valid block. -/
theorem invokeBodies_isSome (env : Collaborators σ ρ) (objects : PartialPtr → σ)
    (total startIndex currentStateSize entriesToSkipPerEntry : Int) :
    ∀ (bodies : List (FunctionList ρ)) (i : Nat) (st : FillState ρ),
      (∀ (j : Nat) (functionList : FunctionList ρ), bodies[j]? = some functionList →
        ∀ entry ∈ functionList,
          st.1.validBlock
            (startIndex + entriesToSkipPerEntry + currentStateSize * ((i + j : Nat) : Int))
            (entry.1.1 - total) (currentStateSize - entriesToSkipPerEntry) entry.1.2) →
      ∃ st', invokeBodies env objects total startIndex currentStateSize
        entriesToSkipPerEntry i bodies st = some st' := by
  intro bodies
  induction bodies with
  | nil => intro i st _; exact ⟨st, rfl⟩
  | cons functionList rest ih =>
    intro i st h
    obtain ⟨mid, hmid⟩ := invokeFunctionList_isSome env objects total
      (startIndex + entriesToSkipPerEntry + currentStateSize * (i : Int))
      (currentStateSize - entriesToSkipPerEntry) functionList st
      (fun entry hentry => by simpa using h 0 functionList (by simp) entry hentry)
    have hfill := invokeFunctionList_fills env objects total _ _ _ _ _ hmid
    simp only [invokeBodies, hmid]
    apply ih (i + 1) mid
    intro j later hj entry hentry
    have hlater := h (j + 1) later (by simpa using hj) entry hentry
    have hcast : i + (j + 1) = i + 1 + j := by omega
    rw [hcast] at hlater
    exact MatrixXd.validBlock_of_size hfill.2.1 hfill.2.2.1 hlater

/-- The loop over the state types completes when every state type has a start index and
a non-zero order and every block requested is a valid block. -/
theorem invokeStateTypes_isSome (env : Collaborators σ ρ) (objects : PartialPtr → σ)
    (startIndices : List (IntegratedStateType × Int)) (total : Int) :
    ∀ (types : List (IntegratedStateType × List (FunctionList ρ))) (st : FillState ρ),
      (∀ type bodies, (type, bodies) ∈ types →
        ∃ startIndex, mapAt startIndices type = some startIndex ∧
          env.getSingleIntegrationDifferentialEquationOrder type ≠ 0 ∧
          ∀ (j : Nat) (functionList : FunctionList ρ), bodies[j]? = some functionList →
            ∀ entry ∈ functionList,
              st.1.validBlock
                (startIndex + (env.getSingleIntegrationSize type -
                    (env.getSingleIntegrationSize type).tdiv
                      (env.getSingleIntegrationDifferentialEquationOrder type)) +
                  env.getSingleIntegrationSize type * (j : Int))
                (entry.1.1 - total)
                ((env.getSingleIntegrationSize type).tdiv
                  (env.getSingleIntegrationDifferentialEquationOrder type))
                entry.1.2) →
      ∃ st', invokeStateTypes env objects startIndices total types st = some st' := by
  intro types
  induction types with
  | nil => intro st _; exact ⟨st, rfl⟩
  | cons head rest ih =>
    intro st h
    obtain ⟨type, bodies⟩ := head
    obtain ⟨startIndex, hstart, horder, hblocks⟩ := h type bodies (List.mem_cons_self _ _)
    obtain ⟨mid, hmid⟩ := invokeBodies_isSome env objects total startIndex
      (env.getSingleIntegrationSize type)
      (env.getSingleIntegrationSize type - (env.getSingleIntegrationSize type).tdiv
        (env.getSingleIntegrationDifferentialEquationOrder type)) bodies 0 st
      (fun j functionList hj entry hentry => by
        have hblock := hblocks j functionList hj entry hentry
        simpa using hblock)
    have hfill := invokeBodies_fills env objects total _ _ _ _ _ _ _ hmid
    simp only [invokeStateTypes, hstart, if_neg horder, hmid]
    apply ih mid
    intro type' bodies' hmem'
    obtain ⟨startIndex', hstart', horder', hblocks'⟩ :=
      h type' bodies' (List.mem_cons_of_mem _ hmem')
    exact ⟨startIndex', hstart', horder', fun j functionList hj entry hentry =>
      MatrixXd.validBlock_of_size hfill.2.1 hfill.2.2.1
        (hblocks' j functionList hj entry hentry)⟩

theorem registerBodies_length (env : Collaborators σ ρ) (objects : PartialPtr → σ)
    (doubles vectors : List (Int × ρ)) (sub : Int) :
    ∀ (bodies : List (List PartialPtr)) (calls : List (ProviderCall ρ)),
      (VariationalEquations.registerBodies env objects doubles vectors sub bodies
        calls).1.length = bodies.length := by
  intro bodies
  induction bodies with
  | nil => intro calls; simp [VariationalEquations.registerBodies]
  | cons providers rest ih =>
    intro calls
    simp only [VariationalEquations.registerBodies, List.length_cons, ih]

/-- Every state type of the registered function lists has a cumulative offset, which
is not before the start, and the row blocks of its entities end before the end of the
row blocks of all state types. -/
theorem registerStateTypes_offsets (env : Collaborators σ ρ) (objects : PartialPtr → σ)
    (doubles vectors : List (Int × ρ)) (sub : Int) :
    ∀ (types : List (IntegratedStateType × List (List PartialPtr)))
      (calls : List (ProviderCall ρ)) (start : Int),
      (∀ entry ∈ types, 0 ≤ env.getSingleIntegrationSize entry.1) →
      ∀ (type : IntegratedStateType) (functionLists : List (FunctionList ρ)),
        (type, functionLists) ∈ (VariationalEquations.registerStateTypes env objects
          doubles vectors sub types calls).1 →
        ∃ offset, (type, offset) ∈ cumulativeOffsets env start types ∧ start ≤ offset ∧
          offset + env.getSingleIntegrationSize type * (functionLists.length : Int) ≤
            start + (types.map (fun entry =>
              env.getSingleIntegrationSize entry.1 * (entry.2.length : Int))).sum := by
  intro types
  induction types with
  | nil =>
    intro calls start _ type functionLists h
    simp [VariationalEquations.registerStateTypes] at h
  | cons head rest ih =>
    intro calls start hsize type functionLists h
    obtain ⟨t, bodies⟩ := head
    have hhead : 0 ≤ env.getSingleIntegrationSize t * (bodies.length : Int) :=
      mul_nonneg (hsize (t, bodies) (List.mem_cons_self _ _)) (Int.natCast_nonneg _)
    have hrest : 0 ≤ (rest.map (fun entry =>
        env.getSingleIntegrationSize entry.1 * (entry.2.length : Int))).sum := by
      apply List.sum_nonneg
      intro x hx
      obtain ⟨entry, hentry, rfl⟩ := List.mem_map.mp hx
      exact mul_nonneg (hsize entry (List.mem_cons_of_mem _ hentry)) (Int.natCast_nonneg _)
    simp only [VariationalEquations.registerStateTypes, List.mem_cons, Prod.mk.injEq] at h
    simp only [cumulativeOffsets, List.map_cons, List.sum_cons, List.mem_cons,
      Prod.mk.injEq]
    rcases h with ⟨rfl, rfl⟩ | h
    · refine ⟨start, Or.inl ⟨rfl, rfl⟩, le_refl _, ?_⟩
      rw [registerBodies_length]
      omega
    · obtain ⟨offset, hmem, hle, hend⟩ := ih _
        (start + env.getSingleIntegrationSize t * (bodies.length : Int))
        (fun entry hentry => hsize entry (List.mem_cons_of_mem _ hentry)) type
        functionLists h
      exact ⟨offset, Or.inr hmem, by omega, by omega⟩

/-- C25: every block of B handed to a provider lies inside B. In a constructed engine
whose start indices are the cumulative offsets of the state types in the order of the
providers map, with non-negative sizes and positive orders, and whose registered keys
`(c, w)` all satisfy `totalDynamicalStateSize_ ≤ c` and `c + w ≤
numberOfParameterValues_`: for every state type with start index `s`, size `n` and order
`k`, every entity `i` of it and every registered key `(c, w)`, the rows `s + (n - n/k) +
n·i` and the `n/k - 1` after it are rows of B, not below 0 and below
`totalDynamicalStateSize_`, and the columns `c - totalDynamicalStateSize_` and the
`w - 1` after it are among the `numberOfParameterValues_ - totalDynamicalStateSize_`
columns of B. When moreover no width is negative, every block request is valid and the
assembly of the parameter partials completes. -/
theorem blocks_lie_inside_parameter_matrix (env : Collaborators σ ρ)
    (stateDerivativePartialList : List (IntegratedStateType × List (List PartialPtr)))
    (parametersToEstimate : EstimatableParameterSet ρ)
    (stateTypeStartIndices : List (IntegratedStateType × Int))
    (objects : PartialPtr → σ) (cerr : List Diagnostic) (calls : List (ProviderCall ρ))
    (e : VariationalEquations σ ρ)
    (hconstructed : VariationalEquations.constructor env stateDerivativePartialList
      parametersToEstimate stateTypeStartIndices objects cerr calls = some e)
    (hsize : ∀ entry ∈ stateDerivativePartialList,
      0 ≤ env.getSingleIntegrationSize entry.1 ∧
        0 < env.getSingleIntegrationDifferentialEquationOrder entry.1)
    (hoffsets : ∀ offset ∈ cumulativeOffsets env 0 stateDerivativePartialList,
      mapAt e.stateTypeStartIndices_ offset.1 = some offset.2)
    (hkeys : ∀ typeEntry ∈ e.parameterPartialList_, ∀ functionList ∈ typeEntry.2,
      ∀ entry ∈ functionList, e.totalDynamicalStateSize_ ≤ entry.1.1 ∧
        entry.1.1 + entry.1.2 ≤ e.numberOfParameterValues_) :
    e.variationalParameterMatrix_.rows = e.totalDynamicalStateSize_ ∧
      e.variationalParameterMatrix_.cols =
        e.numberOfParameterValues_ - e.totalDynamicalStateSize_ ∧
      (∀ type bodies, (type, bodies) ∈ e.parameterPartialList_ →
        ∃ startIndex, mapAt e.stateTypeStartIndices_ type = some startIndex ∧
          ∀ (i : Nat) (functionList : FunctionList ρ), bodies[i]? = some functionList →
            ∀ entry ∈ functionList,
              0 ≤ startIndex + (env.getSingleIntegrationSize type -
                  (env.getSingleIntegrationSize type).tdiv
                    (env.getSingleIntegrationDifferentialEquationOrder type)) +
                env.getSingleIntegrationSize type * (i : Int) ∧
              0 ≤ (env.getSingleIntegrationSize type).tdiv
                (env.getSingleIntegrationDifferentialEquationOrder type) ∧
              startIndex + (env.getSingleIntegrationSize type -
                  (env.getSingleIntegrationSize type).tdiv
                    (env.getSingleIntegrationDifferentialEquationOrder type)) +
                env.getSingleIntegrationSize type * (i : Int) +
                (env.getSingleIntegrationSize type).tdiv
                  (env.getSingleIntegrationDifferentialEquationOrder type) ≤
                e.totalDynamicalStateSize_ ∧
              0 ≤ entry.1.1 - e.totalDynamicalStateSize_ ∧
              entry.1.1 - e.totalDynamicalStateSize_ + entry.1.2 ≤
                e.numberOfParameterValues_ - e.totalDynamicalStateSize_) ∧
      ((∀ typeEntry ∈ e.parameterPartialList_, ∀ functionList ∈ typeEntry.2,
          ∀ entry ∈ functionList, 0 ≤ entry.1.2) →
        ∃ e', e.assembleParameterPartials env = some e') := by
  obtain ⟨htotal, _, _, _, hzero, _, hlist, _, _⟩ :=
    VariationalEquations.constructor_some hconstructed
  obtain ⟨_, _, hrows, hcols⟩ := MatrixXd.Zero_some hzero
  have hblocks : ∀ type bodies, (type, bodies) ∈ e.parameterPartialList_ →
      ∃ startIndex, mapAt e.stateTypeStartIndices_ type = some startIndex ∧
        0 < env.getSingleIntegrationDifferentialEquationOrder type ∧
        ∀ (i : Nat) (functionList : FunctionList ρ), bodies[i]? = some functionList →
          ∀ entry ∈ functionList,
            0 ≤ startIndex + (env.getSingleIntegrationSize type -
                (env.getSingleIntegrationSize type).tdiv
                  (env.getSingleIntegrationDifferentialEquationOrder type)) +
              env.getSingleIntegrationSize type * (i : Int) ∧
            0 ≤ (env.getSingleIntegrationSize type).tdiv
              (env.getSingleIntegrationDifferentialEquationOrder type) ∧
            startIndex + (env.getSingleIntegrationSize type -
                (env.getSingleIntegrationSize type).tdiv
                  (env.getSingleIntegrationDifferentialEquationOrder type)) +
              env.getSingleIntegrationSize type * (i : Int) +
              (env.getSingleIntegrationSize type).tdiv
                (env.getSingleIntegrationDifferentialEquationOrder type) ≤
              e.totalDynamicalStateSize_ ∧
            0 ≤ entry.1.1 - e.totalDynamicalStateSize_ ∧
            entry.1.1 - e.totalDynamicalStateSize_ + entry.1.2 ≤
              e.numberOfParameterValues_ - e.totalDynamicalStateSize_ := by
    intro type bodies hmem
    have hmem' := hmem
    rw [hlist] at hmem'
    unfold VariationalEquations.setParameterPartialFunctionList at hmem'
    obtain ⟨providers, _, hproviders, _⟩ :=
      registerStateTypes_mem env objects _ _ _ _ _ _ _ hmem'
    obtain ⟨offset, hoffset, hstart, hend⟩ := registerStateTypes_offsets env objects _ _ _
      stateDerivativePartialList calls 0 (fun entry hentry => (hsize entry hentry).1)
      type bodies hmem'
    obtain ⟨hn, hk⟩ := hsize _ hproviders
    simp only at hn hk
    have hq := tdiv_bounds hn hk
    refine ⟨offset, hoffsets _ hoffset, hk, ?_⟩
    intro i functionList hi entry hentry
    obtain ⟨hilt, _⟩ := List.getElem?_eq_some.mp hi
    obtain ⟨hlow, hhigh⟩ := hkeys _ hmem functionList
      (List.mem_iff_getElem?.mpr ⟨i, hi⟩) entry hentry
    have hni : 0 ≤ env.getSingleIntegrationSize type * (i : Int) :=
      mul_nonneg hn (Int.natCast_nonneg _)
    have hentity : env.getSingleIntegrationSize type * (i : Int) +
        env.getSingleIntegrationSize type ≤
          env.getSingleIntegrationSize type * (bodies.length : Int) := by
      have hle : (i : Int) + 1 ≤ (bodies.length : Int) := by omega
      have := mul_le_mul_of_nonneg_left hle hn
      rw [mul_add, mul_one] at this
      exact this
    rw [htotal]
    rw [htotal] at hlow
    refine ⟨by omega, hq.1, by omega, by omega, by omega⟩
  refine ⟨hrows, hcols, ?_, ?_⟩
  · intro type bodies hmem
    obtain ⟨startIndex, hstart, _, hall⟩ := hblocks type bodies hmem
    exact ⟨startIndex, hstart, hall⟩
  · intro hwidth
    obtain ⟨st', hst'⟩ := invokeStateTypes_isSome env e.partialObjects
      e.stateTypeStartIndices_ e.totalDynamicalStateSize_ e.parameterPartialList_
      (e.variationalParameterMatrix_.setZero, e.providerCalls)
      (fun type bodies hmem => by
        obtain ⟨startIndex, hstart, hk, hall⟩ := hblocks type bodies hmem
        refine ⟨startIndex, hstart, ne_of_gt hk, ?_⟩
        intro j functionList hj entry hentry
        obtain ⟨h1, h2, h3, h4, h5⟩ := hall j functionList hj entry hentry
        have hw := hwidth _ hmem functionList (List.mem_iff_getElem?.mpr ⟨j, hj⟩) entry
          hentry
        simp only [MatrixXd.validBlock, MatrixXd.setZero, hrows, hcols]
        omega)
    unfold VariationalEquations.assembleParameterPartials
    simp only [hst']
    exact ⟨_, rfl⟩

/-- C25, on the vehicle (start index 0, size 6, order 2, key (6, 1), 6 state columns and
7 parameter values): the block handed to the provider has the rows 3 to 5, below 6, and
the column 0 of the single column of B, and the assembly completes. -/
theorem blocks_lie_inside_parameter_matrix_for_vehicle :
    Example.vehicleEngine.variationalParameterMatrix_.rows = 6 ∧
      Example.vehicleEngine.variationalParameterMatrix_.cols = 7 - 6 ∧
      (Example.vehicleEngine.assembleParameterPartials
        Example.vehicleCollaborators).isSome = true := by
  have hlist : Example.vehicleEngine.parameterPartialList_ =
      [(IntegratedStateType.transational_state, [[((6, 1), ⟨0, 0⟩)]])] := rfl
  have hkeys : ∀ typeEntry ∈ Example.vehicleEngine.parameterPartialList_,
      ∀ functionList ∈ typeEntry.2, ∀ entry ∈ functionList,
        (6 : Int) ≤ entry.1.1 ∧ entry.1.1 + entry.1.2 ≤ 7 ∧ 0 ≤ entry.1.2 := by
    intro typeEntry htype functionList hfunctionList entry hentry
    rw [hlist] at htype
    obtain rfl := List.mem_singleton.mp htype
    obtain rfl := List.mem_singleton.mp hfunctionList
    obtain rfl := List.mem_singleton.mp hentry
    decide
  obtain ⟨hrows, hcols, _, hcompletes⟩ := blocks_lie_inside_parameter_matrix
    Example.vehicleCollaborators [(IntegratedStateType.transational_state, [[0]])]
    Example.vehicleParameters [(IntegratedStateType.transational_state, 0)] (fun _ => 0)
    [] [] Example.vehicleEngine (Option.some_get _).symm
    (by
      intro entry hentry
      obtain rfl := List.mem_singleton.mp hentry
      decide)
    (by
      intro offset hoffset
      obtain rfl := List.mem_singleton.mp hoffset
      rfl)
    (fun typeEntry htype functionList hfunctionList entry hentry =>
      ⟨(hkeys typeEntry htype functionList hfunctionList entry hentry).1,
        (hkeys typeEntry htype functionList hfunctionList entry hentry).2.1⟩)
  obtain ⟨e', he'⟩ := hcompletes (fun typeEntry htype functionList hfunctionList entry
    hentry => (hkeys typeEntry htype functionList hfunctionList entry hentry).2.2)
  exact ⟨hrows, hcols, by rw [he']; rfl⟩

end Tudat
